import Mathlib

/-!
# librabbitmq connection engine (lwIP / FreeRTOS port): a verification development

The definitions below embed `librabbitmq/amqp_connection.c`: the inbound frame
decoder `amqp_handle_input` with its helpers `consume_data` and
`return_to_idle`, the constructors `amqp_new_connection` and
`amqp_tune_connection`, the buffer release functions, and the outbound paths
`amqp_send_frame`, `amqp_send_frame_non_body` and `amqp_send_frame_streaming`;
and, of `librabbitmq/amqp_cyassl.c`, the TLS transport: `amqp_ssl_socket_send`,
`amqp_ssl_socket_writev`, `amqp_ssl_socket_recv`, `amqp_ssl_socket_open` and
`amqp_ssl_socket_close`.

Conventions of the embedding.

* Bytes are natural numbers; a memory region is a `List Nat`.
* `size_t` and `uint32_t` are 32 bits wide on the target (FreeRTOS / lwIP on a
  32-bit core; the source prints pointers through `(int)` and `%08x`), so
  unsigned arithmetic is taken modulo `2 ^ 32` wherever the C code can wrap.
* `ssize_t` and `int` are 32 bits wide, two's complement.
* Collaborators whose code is not in the two source files (the method and
  property codec, the pool allocator, the byte transport, the body stream, the
  clock, the TLS library and the OS socket calls) are explicit parameters,
  scripts of the results to come, or small models named after the C functions.
* A loop that waits on a collaborator (`goto start` in the TLS transport) runs
  over the script of that collaborator's results; `none` stands for a call that
  has not returned when the script is used up.
-/

namespace Amqp

/-! ## Constants -/

/-- Size of the fixed frame header (`HEADER_SIZE`). -/
abbrev HEADER_SIZE : Nat := 7

/-- Size of the frame-end marker (`FOOTER_SIZE`). -/
abbrev FOOTER_SIZE : Nat := 1

/-- Frame type of a method frame. -/
abbrev AMQP_FRAME_METHOD : Nat := 1

/-- Frame type of a content-header frame. -/
abbrev AMQP_FRAME_HEADER : Nat := 2

/-- Frame type of a content-body frame. -/
abbrev AMQP_FRAME_BODY : Nat := 3

/-- Frame type of a heartbeat frame. -/
abbrev AMQP_FRAME_HEARTBEAT : Nat := 8

/-- The frame-end octet `0xCE`. -/
abbrev AMQP_FRAME_END : Nat := 206

/-- Pseudo frame type reported for the protocol header (the character `A`). -/
abbrev AMQP_PSEUDOFRAME_PROTOCOL_HEADER : Nat := 65

/-- Status `AMQP_STATUS_OK`. -/
abbrev AMQP_STATUS_OK : Int := 0

/-- Status `AMQP_STATUS_NO_MEMORY`. -/
abbrev AMQP_STATUS_NO_MEMORY : Int := -1

/-- Status `AMQP_STATUS_BAD_AMQP_DATA`. -/
abbrev AMQP_STATUS_BAD_AMQP_DATA : Int := -2

/-- Status `AMQP_STATUS_INVALID_PARAMETER`. -/
abbrev AMQP_STATUS_INVALID_PARAMETER : Int := -10

/-- Status `AMQP_STATUS_TIMER_FAILURE`. -/
abbrev AMQP_STATUS_TIMER_FAILURE : Int := -14

/-- Status `AMQP_STATUS_UNEXPECTED_STATE`. -/
abbrev AMQP_STATUS_UNEXPECTED_STATE : Int := -16

/-- Page size of the frame pool used by `amqp_new_connection`. -/
abbrev AMQP_INITIAL_FRAME_POOL_PAGE_SIZE : Nat := 65536

/-- Page size of a channel decoding pool. -/
abbrev AMQP_INITIAL_DECODING_POOL_PAGE_SIZE : Nat := 131072

/-- Size of the socket staging buffer. -/
abbrev AMQP_INITIAL_INBOUND_SOCK_BUFFER_SIZE : Nat := 131072

/-! ## Machine arithmetic -/

/-- Number of values of a `size_t` (and of a `uint32_t`). -/
abbrev SIZE_MOD : Nat := 4294967296

/-- Unsigned subtraction `a - b` in `size_t`. -/
def size_sub (a b : Nat) : Nat := (a % SIZE_MOD + SIZE_MOD - b % SIZE_MOD) % SIZE_MOD

/-- Unsigned addition `a + b` in `size_t`. -/
def size_add (a b : Nat) : Nat := (a + b) % SIZE_MOD

/-- Conversion `(size_t) i` of an `int`. -/
def size_t_of_int (i : Int) : Nat := (i % 4294967296).toNat

/-- Conversion of a `size_t` to the `int` a function returns. -/
def int_of_size_t (n : Nat) : Int :=
  if n % SIZE_MOD < 2147483648 then ((n % SIZE_MOD : Nat) : Int)
  else ((n % SIZE_MOD : Nat) : Int) - 4294967296

/-! ## Byte codec (`amqp_d8` .. `amqp_e64`, `memcpy`) -/

/-- Read one octet at `offset`. -/
def amqp_d8 (data : List Nat) (offset : Nat) : Nat := data.getD offset 0

/-- Read a big-endian 16-bit value at `offset`. -/
def amqp_d16 (data : List Nat) (offset : Nat) : Nat :=
  amqp_d8 data offset * 256 + amqp_d8 data (offset + 1)

/-- Read a big-endian 32-bit value at `offset`. -/
def amqp_d32 (data : List Nat) (offset : Nat) : Nat :=
  amqp_d16 data offset * 65536 + amqp_d16 data (offset + 2)

/-- Read a big-endian 64-bit value at `offset`. -/
def amqp_d64 (data : List Nat) (offset : Nat) : Nat :=
  amqp_d32 data offset * 4294967296 + amqp_d32 data (offset + 4)

/-- Copy `src` into `mem` starting at `offset` (`memcpy(amqp_offset(mem, offset), src, n)`).
Memory is flat: a copy that runs past the end of the region lands behind it. -/
def mem_write (mem : List Nat) (offset : Nat) (src : List Nat) : List Nat :=
  mem.take offset ++ List.replicate (offset - mem.length) 0 ++ src
    ++ mem.drop (offset + src.length)

/-- Big-endian octets of a 16-bit value. -/
def be16 (v : Nat) : List Nat := [v / 256 % 256, v % 256]

/-- Big-endian octets of a 32-bit value. -/
def be32 (v : Nat) : List Nat := be16 (v / 65536 % 65536) ++ be16 (v % 65536)

/-- Big-endian octets of a 64-bit value. -/
def be64 (v : Nat) : List Nat := be32 (v / 4294967296 % 4294967296) ++ be32 (v % 4294967296)

/-- Write one octet at `offset`. -/
def amqp_e8 (data : List Nat) (offset : Nat) (v : Nat) : List Nat :=
  mem_write data offset [v % 256]

/-- Write a big-endian 16-bit value at `offset`. -/
def amqp_e16 (data : List Nat) (offset : Nat) (v : Nat) : List Nat :=
  mem_write data offset (be16 v)

/-- Write a big-endian 32-bit value at `offset`. -/
def amqp_e32 (data : List Nat) (offset : Nat) (v : Nat) : List Nat :=
  mem_write data offset (be32 v)

/-- Write a big-endian 64-bit value at `offset`. -/
def amqp_e64 (data : List Nat) (offset : Nat) (v : Nat) : List Nat :=
  mem_write data offset (be64 v)

/-! ## Data model -/

/-- The decoder states; `CONNECTION_STATE_IDLE` is the zero value that `calloc` leaves. -/
inductive amqp_connection_state_enum
  | CONNECTION_STATE_IDLE
  | CONNECTION_STATE_INITIAL
  | CONNECTION_STATE_HEADER
  | CONNECTION_STATE_BODY
  deriving DecidableEq, Repr

open amqp_connection_state_enum

/-- A counted byte region `amqp_bytes_t`: `bytes` is the memory seen through the
pointer, cut at `len` octets. -/
structure amqp_bytes_t where
  len : Nat
  bytes : List Nat
  deriving DecidableEq, Repr

/-- The region of `len` octets that starts `offset` octets into `mem`. -/
def amqp_bytes_at (mem : List Nat) (offset len : Nat) : amqp_bytes_t :=
  { len := len, bytes := (mem.drop offset).take len }

/-- A channel arena. Only what the engine can observe is kept: the page size it
was created with and the sizes of the blocks handed out since the last recycle. -/
structure amqp_pool_t where
  pagesize : Nat
  allocated : List Nat
  deriving DecidableEq, Repr

/-- One node of the pool table. -/
structure amqp_pool_table_entry_t where
  channel : Nat
  pool : amqp_pool_t
  deriving DecidableEq, Repr

/-- What `inbound_buffer.bytes` points at: nothing, the inline `header_buffer`, or a
block taken from a channel arena (the block carries its current contents). -/
inductive amqp_bytes_ptr
  | null
  | header_buffer
  | block (data : List Nat)
  deriving DecidableEq, Repr

/-- The field `inbound_buffer` of the connection. -/
structure amqp_inbound_buffer_t where
  len : Nat
  bytes : amqp_bytes_ptr
  deriving DecidableEq, Repr

/-- The byte transport behind `state->socket`. `send_results` scripts the results of
the coming transport calls (`AMQP_STATUS_OK` once the script is used up) and `wire`
records every region handed to the transport, oldest first. -/
structure amqp_socket_t where
  send_results : List Int
  wire : List (List Nat)
  deriving DecidableEq, Repr

/-- The connection object `struct amqp_connection_state_t_`. The pool table keeps
its bucket chains in one list (a lookup compares channel ids only), and the queue of
pending frames keeps the channel of each queued frame, the only field the engine
inspects. -/
structure amqp_connection_state_t where
  pool_table : List amqp_pool_table_entry_t
  state : amqp_connection_state_enum
  channel_max : Int
  frame_max : Int
  heartbeat : Int
  header_buffer : List Nat
  inbound_buffer : amqp_inbound_buffer_t
  inbound_offset : Nat
  target_size : Nat
  outbound_buffer : amqp_bytes_t
  socket : amqp_socket_t
  sock_inbound_buffer_len : Nat
  first_queued_frame : List Nat
  next_recv_heartbeat : Nat
  next_send_heartbeat : Nat
  properties_pool : amqp_pool_t
  deriving DecidableEq, Repr

/-- A frame `amqp_frame_t`. The members of the `payload` union are kept side by side;
`M` and `P` are the decoded method and property structures of the codec. -/
structure amqp_frame_t (M P : Type) where
  frame_type : Nat
  channel : Nat
  payload_method_id : Nat
  payload_method_decoded : M
  payload_properties_class_id : Nat
  payload_properties_body_size : Nat
  payload_properties_raw : amqp_bytes_t
  payload_properties_decoded : P
  payload_body_fragment : amqp_bytes_t
  payload_protocol_header_transport_high : Nat
  payload_protocol_header_transport_low : Nat
  payload_protocol_header_protocol_version_major : Nat
  payload_protocol_header_protocol_version_minor : Nat
  deriving DecidableEq, Repr

/-- The method and property codec (`amqp_decode_method`, `amqp_encode_method`,
`amqp_decode_properties`, `amqp_encode_properties`), which the engine treats as a
collaborator. A decoder gets the id, the channel arena and the encoded region and
yields its `int` result, the arena afterwards and the decoded structure. An encoder
gets the id, the structure and the region it may fill and yields its `int` result
(the encoded length, or a negative status) and the contents of the region
afterwards. -/
structure amqp_codec (M P : Type) where
  decode_method : Nat → amqp_pool_t → amqp_bytes_t → Int × amqp_pool_t × M
  encode_method : Nat → M → amqp_bytes_t → Int × List Nat
  decode_properties : Nat → amqp_pool_t → amqp_bytes_t → Int × amqp_pool_t × P
  encode_properties : Nat → P → amqp_bytes_t → Int × List Nat

/-- The allocator as the engine meets it during one call: whether `malloc` of a pool
table entry, an arena allocation of a given size, and the `calloc`, `realloc` and
`malloc` calls of connection set-up succeed, and which octet a fresh block holds at
each offset. -/
structure amqp_heap where
  malloc_entry : Bool
  pool_alloc : Nat → Bool
  calloc_state : Bool
  realloc_outbound : Nat → Bool
  malloc_sock_buffer : Bool
  garbage : Nat → Nat

/-! ## Pool table and arena -/

/-- Modelled from the spec: `amqp_get_channel_pool` of amqp_mem.c, which is not among
the sources. Walk the bucket of the channel and return the arena whose id matches,
or nothing. -/
def amqp_get_channel_pool (state : amqp_connection_state_t) (channel : Nat) :
    Option amqp_pool_t :=
  (state.pool_table.find? (fun e => e.channel = channel)).map (fun e => e.pool)

/-- Modelled from the spec: `amqp_get_or_create_channel_pool` of amqp_mem.c, which is
not among the sources. As `amqp_get_channel_pool`, but a new entry with a fresh arena
(initial page 131072) is added when the channel has none; `none` is the NULL result
of a failed allocation. The result is the connection with the entry in place. -/
def amqp_get_or_create_channel_pool (heap : amqp_heap) (state : amqp_connection_state_t)
    (channel : Nat) : Option amqp_connection_state_t :=
  match amqp_get_channel_pool state channel with
  | some _ => some state
  | none =>
    if heap.malloc_entry then
      some { state with
        pool_table :=
          { channel := channel,
            pool := { pagesize := AMQP_INITIAL_DECODING_POOL_PAGE_SIZE, allocated := [] } }
            :: state.pool_table }
    else none

/-- Write `pool` through a pointer to the arena of `channel`: the first entry of the
table with that channel gets the new arena, every other entry is untouched. -/
def pool_table_store (table : List amqp_pool_table_entry_t) (channel : Nat)
    (pool : amqp_pool_t) : List amqp_pool_table_entry_t :=
  match table with
  | [] => []
  | e :: rest =>
    if e.channel = channel then { e with pool := pool } :: rest
    else e :: pool_table_store rest channel pool

/-- Store `pool` as the arena of `channel` (the effect of writing through the pointer
that `amqp_get_or_create_channel_pool` returned). -/
def set_channel_pool (state : amqp_connection_state_t) (channel : Nat) (pool : amqp_pool_t) :
    amqp_connection_state_t :=
  { state with pool_table := pool_table_store state.pool_table channel pool }

/-- The arena of `channel`, or an empty one when the table has no entry. -/
def channel_pool_of (state : amqp_connection_state_t) (channel : Nat) : amqp_pool_t :=
  (amqp_get_channel_pool state channel).getD
    { pagesize := AMQP_INITIAL_DECODING_POOL_PAGE_SIZE, allocated := [] }

/-- Modelled from the spec: `amqp_pool_alloc_bytes` of amqp_mem.c, which is not among
the sources (`alloc_bytes(pool, size) -> slice`). On success the arena records the
block and the output region is a fresh block of `amount` octets; on failure the
output pointer is NULL. The output length is `amount` either way. -/
def amqp_pool_alloc_bytes (heap : amqp_heap) (pool : amqp_pool_t) (amount : Nat) :
    amqp_pool_t × amqp_inbound_buffer_t :=
  if heap.pool_alloc amount then
    ({ pool with allocated := amount :: pool.allocated },
     { len := amount, bytes := amqp_bytes_ptr.block ((List.range amount).map heap.garbage) })
  else
    (pool, { len := amount, bytes := amqp_bytes_ptr.null })

/-! ## Inbound engine -/

/-- The memory `state->inbound_buffer.bytes` points at. -/
def inbound_bytes (state : amqp_connection_state_t) : List Nat :=
  match state.inbound_buffer.bytes with
  | amqp_bytes_ptr.null => []
  | amqp_bytes_ptr.header_buffer => state.header_buffer
  | amqp_bytes_ptr.block data => data

/-- Effect of `memcpy(amqp_offset(state->inbound_buffer.bytes, offset), src, n)`. -/
def inbound_write (state : amqp_connection_state_t) (offset : Nat) (src : List Nat) :
    amqp_connection_state_t :=
  match state.inbound_buffer.bytes with
  | amqp_bytes_ptr.null => state
  | amqp_bytes_ptr.header_buffer =>
    { state with header_buffer := mem_write state.header_buffer offset src }
  | amqp_bytes_ptr.block data =>
    { state with
      inbound_buffer :=
        { state.inbound_buffer with bytes := amqp_bytes_ptr.block (mem_write data offset src) } }

/-- The function `return_to_idle`. -/
def return_to_idle (state : amqp_connection_state_t) : amqp_connection_state_t :=
  { state with
    inbound_buffer := { len := HEADER_SIZE + 1, bytes := amqp_bytes_ptr.header_buffer },
    inbound_offset := 0,
    target_size := HEADER_SIZE,
    state := CONNECTION_STATE_IDLE }

/-- The function `consume_data`: the number of octets consumed, the connection
afterwards, and what is left of `received_data`. -/
def consume_data (state : amqp_connection_state_t) (received_data : List Nat) :
    Nat × amqp_connection_state_t × List Nat :=
  let room := size_sub state.target_size state.inbound_offset
  let bytes_consumed := if received_data.length < room then received_data.length else room
  let state1 := inbound_write state state.inbound_offset (received_data.take bytes_consumed)
  (bytes_consumed,
   { state1 with inbound_offset := size_add state.inbound_offset bytes_consumed },
   received_data.drop bytes_consumed)

/-- What `amqp_handle_input` leaves behind: its `int` result, the connection and the
output frame. -/
structure handle_input_result (M P : Type) where
  ret : Int
  state : amqp_connection_state_t
  decoded_frame : amqp_frame_t M P

/-- The `case CONNECTION_STATE_BODY` arm of `amqp_handle_input`. -/
def amqp_handle_input_BODY {M P : Type} (codec : amqp_codec M P) (heap : amqp_heap)
    (state : amqp_connection_state_t) (bytes_consumed : Nat)
    (decoded_frame : amqp_frame_t M P) : handle_input_result M P :=
  let raw_frame := inbound_bytes state
  if amqp_d8 raw_frame (size_sub state.target_size 1) ≠ AMQP_FRAME_END then
    { ret := AMQP_STATUS_BAD_AMQP_DATA, state := state, decoded_frame := decoded_frame }
  else
    let frame1 := { decoded_frame with
      frame_type := amqp_d8 raw_frame 0, channel := amqp_d16 raw_frame 1 }
    match amqp_get_or_create_channel_pool heap state frame1.channel with
    | none => { ret := AMQP_STATUS_NO_MEMORY, state := state, decoded_frame := frame1 }
    | some state1 =>
      let channel_pool := channel_pool_of state1 frame1.channel
      if frame1.frame_type = AMQP_FRAME_METHOD then
        let id := amqp_d32 raw_frame HEADER_SIZE
        let encoded := amqp_bytes_at raw_frame (HEADER_SIZE + 4)
          (size_sub (size_sub (size_sub state1.target_size HEADER_SIZE) 4) FOOTER_SIZE)
        let r := codec.decode_method id channel_pool encoded
        let state2 := set_channel_pool state1 frame1.channel r.2.1
        let frame2 := { frame1 with payload_method_id := id, payload_method_decoded := r.2.2 }
        if r.1 < 0 then { ret := r.1, state := state2, decoded_frame := frame2 }
        else
          { ret := int_of_size_t bytes_consumed, state := return_to_idle state2,
            decoded_frame := frame2 }
      else if frame1.frame_type = AMQP_FRAME_HEADER then
        let class_id := amqp_d16 raw_frame HEADER_SIZE
        let body_size := amqp_d64 raw_frame (HEADER_SIZE + 4)
        let encoded := amqp_bytes_at raw_frame (HEADER_SIZE + 12)
          (size_sub (size_sub (size_sub state1.target_size HEADER_SIZE) 12) FOOTER_SIZE)
        let r := codec.decode_properties class_id channel_pool encoded
        let state2 := set_channel_pool state1 frame1.channel r.2.1
        let frame2 := { frame1 with
          payload_properties_class_id := class_id,
          payload_properties_body_size := body_size,
          payload_properties_raw := encoded,
          payload_properties_decoded := r.2.2 }
        if r.1 < 0 then { ret := r.1, state := state2, decoded_frame := frame2 }
        else
          { ret := int_of_size_t bytes_consumed, state := return_to_idle state2,
            decoded_frame := frame2 }
      else if frame1.frame_type = AMQP_FRAME_BODY then
        let frame2 := { frame1 with
          payload_body_fragment := amqp_bytes_at raw_frame HEADER_SIZE
            (size_sub (size_sub state1.target_size HEADER_SIZE) FOOTER_SIZE) }
        { ret := int_of_size_t bytes_consumed, state := return_to_idle state1,
          decoded_frame := frame2 }
      else if frame1.frame_type = AMQP_FRAME_HEARTBEAT then
        { ret := int_of_size_t bytes_consumed, state := return_to_idle state1,
          decoded_frame := frame1 }
      else
        { ret := int_of_size_t bytes_consumed, state := return_to_idle state1,
          decoded_frame := { frame1 with frame_type := 0 } }

/-- The `case CONNECTION_STATE_HEADER` arm of `amqp_handle_input`, which falls through
to the BODY arm when the rest of the frame is already in `received_data`. -/
def amqp_handle_input_HEADER {M P : Type} (codec : amqp_codec M P) (heap : amqp_heap)
    (state : amqp_connection_state_t) (received_data : List Nat) (bytes_consumed : Nat)
    (decoded_frame : amqp_frame_t M P) : handle_input_result M P :=
  let raw_frame := inbound_bytes state
  let channel := amqp_d16 raw_frame 1
  match amqp_get_or_create_channel_pool heap state channel with
  | none => { ret := AMQP_STATUS_NO_MEMORY, state := state, decoded_frame := decoded_frame }
  | some state1 =>
    let new_target_size := (amqp_d32 raw_frame 3 + HEADER_SIZE + FOOTER_SIZE) % SIZE_MOD
    if new_target_size > size_t_of_int state1.frame_max then
      { ret := AMQP_STATUS_BAD_AMQP_DATA, state := state1, decoded_frame := decoded_frame }
    else
      let state2 := { state1 with target_size := new_target_size }
      let a := amqp_pool_alloc_bytes heap (channel_pool_of state2 channel) state2.target_size
      let state3 := { set_channel_pool state2 channel a.1 with inbound_buffer := a.2 }
      if state3.inbound_buffer.bytes = amqp_bytes_ptr.null then
        { ret := AMQP_STATUS_NO_MEMORY, state := state3, decoded_frame := decoded_frame }
      else
        let state4 := inbound_write state3 0 (state3.header_buffer.take HEADER_SIZE)
        let state5 := { state4 with state := CONNECTION_STATE_BODY }
        let c := consume_data state5 received_data
        let bytes_consumed1 := size_add bytes_consumed c.1
        if c.2.1.inbound_offset < c.2.1.target_size then
          { ret := int_of_size_t bytes_consumed1, state := c.2.1, decoded_frame := decoded_frame }
        else
          amqp_handle_input_BODY codec heap c.2.1 bytes_consumed1 decoded_frame

/-- The function `amqp_handle_input`. The output frame is passed in and handed back,
as through the pointer `decoded_frame`. -/
def amqp_handle_input {M P : Type} (codec : amqp_codec M P) (heap : amqp_heap)
    (state : amqp_connection_state_t) (received_data : List Nat)
    (decoded_frame : amqp_frame_t M P) : handle_input_result M P :=
  let frame0 := { decoded_frame with frame_type := 0 }
  if received_data.length = 0 then
    { ret := AMQP_STATUS_OK, state := state, decoded_frame := frame0 }
  else
    let state0 :=
      if state.state = CONNECTION_STATE_IDLE then
        { state with state := CONNECTION_STATE_HEADER }
      else state
    let c := consume_data state0 received_data
    let bytes_consumed := c.1
    let state1 := c.2.1
    if state1.inbound_offset < state1.target_size then
      { ret := int_of_size_t bytes_consumed, state := state1, decoded_frame := frame0 }
    else
      let raw_frame := inbound_bytes state1
      match state1.state with
      | CONNECTION_STATE_INITIAL =>
        if raw_frame.take 4 = [65, 77, 81, 80] then
          { ret := int_of_size_t bytes_consumed,
            state := return_to_idle state1,
            decoded_frame := { frame0 with
              frame_type := AMQP_PSEUDOFRAME_PROTOCOL_HEADER,
              channel := 0,
              payload_protocol_header_transport_high := amqp_d8 raw_frame 4,
              payload_protocol_header_transport_low := amqp_d8 raw_frame 5,
              payload_protocol_header_protocol_version_major := amqp_d8 raw_frame 6,
              payload_protocol_header_protocol_version_minor := amqp_d8 raw_frame 7 } }
        else
          amqp_handle_input_HEADER codec heap state1 c.2.2 bytes_consumed frame0
      | CONNECTION_STATE_HEADER =>
        amqp_handle_input_HEADER codec heap state1 c.2.2 bytes_consumed frame0
      | CONNECTION_STATE_BODY =>
        amqp_handle_input_BODY codec heap state1 bytes_consumed frame0
      | CONNECTION_STATE_IDLE =>
        -- the default arm: amqp_abort, then return bytes_consumed (never reached,
        -- an idle connection was moved to HEADER above)
        { ret := int_of_size_t bytes_consumed, state := state1, decoded_frame := frame0 }

/-- The loop a caller runs over one buffer: `amqp_handle_input` is called on the bytes
not yet consumed until none are left; every result with a non-zero `frame_type` is
recorded and the first negative result stops the loop. `fuel` bounds the number of
calls. -/
structure caller_result (M P : Type) where
  frames : List (amqp_frame_t M P)
  error : Option Int
  consumed : Nat
  state : amqp_connection_state_t
  decoded_frame : amqp_frame_t M P

/-- The caller loop over one buffer. -/
def caller_loop {M P : Type} (codec : amqp_codec M P) (heap : amqp_heap) :
    Nat → amqp_connection_state_t → List Nat → amqp_frame_t M P → caller_result M P
  | 0, state, _, frame =>
    { frames := [], error := none, consumed := 0, state := state, decoded_frame := frame }
  | fuel + 1, state, data, frame =>
    if data.length = 0 then
      { frames := [], error := none, consumed := 0, state := state, decoded_frame := frame }
    else
      let r := amqp_handle_input codec heap state data frame
      if r.ret < 0 then
        { frames := [], error := some r.ret, consumed := 0, state := r.state,
          decoded_frame := r.decoded_frame }
      else
        let more := caller_loop codec heap fuel r.state (data.drop r.ret.toNat) r.decoded_frame
        { frames := (if r.decoded_frame.frame_type = 0 then [] else [r.decoded_frame])
            ++ more.frames,
          error := more.error,
          consumed := r.ret.toNat + more.consumed,
          state := more.state,
          decoded_frame := more.decoded_frame }

/-- The caller loop over a sequence of buffers (the chunks in which the byte stream
arrives): each buffer is run through `caller_loop`; an error ends the run. A call
that consumes nothing is followed by one that does, so twice the length of a buffer
(and two more) bounds the calls it needs. -/
def caller_chunks {M P : Type} (codec : amqp_codec M P) (heap : amqp_heap) :
    amqp_connection_state_t → List (List Nat) → amqp_frame_t M P → caller_result M P
  | state, [], frame =>
    { frames := [], error := none, consumed := 0, state := state, decoded_frame := frame }
  | state, chunk :: rest, frame =>
    let r := caller_loop codec heap (2 * chunk.length + 2) state chunk frame
    match r.error with
    | some e =>
      { frames := r.frames, error := some e, consumed := r.consumed, state := r.state,
        decoded_frame := r.decoded_frame }
    | none =>
      let more := caller_chunks codec heap r.state rest r.decoded_frame
      { frames := r.frames ++ more.frames, error := more.error,
        consumed := r.consumed + more.consumed, state := more.state,
        decoded_frame := more.decoded_frame }

/-! ## Timers and tuning -/

/-- The macro `amqp_heartbeat_enabled`. -/
def amqp_heartbeat_enabled (state : amqp_connection_state_t) : Bool :=
  decide (state.heartbeat > 0)

/-- Modelled from the spec: the macro `amqp_calc_next_send_heartbeat` of
amqp_private.h, which is not among the sources:
`next_send_deadline(now) = now + interval_ns / 2`, in 64-bit unsigned arithmetic. -/
def amqp_calc_next_send_heartbeat (state : amqp_connection_state_t) (cur : Nat) : Nat :=
  (cur + (size_t_of_int state.heartbeat * 1000000000 % 18446744073709551616) / 2)
    % 18446744073709551616

/-- Modelled from the spec: the macro `amqp_calc_next_recv_heartbeat` of
amqp_private.h, which is not among the sources:
`next_recv_deadline(now) = now + 2 * interval_ns`, in 64-bit unsigned arithmetic. -/
def amqp_calc_next_recv_heartbeat (state : amqp_connection_state_t) (cur : Nat) : Nat :=
  (cur + 2 * (size_t_of_int state.heartbeat * 1000000000)) % 18446744073709551616

/-- The function `amqp_tune_connection`; `none` is the `amqp_abort` of `ENFORCE_STATE`.
`now` is what `amqp_get_monotonic_timestamp` returns if it is asked. -/
def amqp_tune_connection (heap : amqp_heap) (now : Nat) (state : amqp_connection_state_t)
    (channel_max frame_max heartbeat : Int) : Option (Int × amqp_connection_state_t) :=
  if state.state ≠ CONNECTION_STATE_IDLE then none
  else
    let state1 := { state with
      channel_max := channel_max, frame_max := frame_max, heartbeat := heartbeat }
    if amqp_heartbeat_enabled state1 ∧ now = 0 then
      some (AMQP_STATUS_TIMER_FAILURE, state1)
    else
      let state2 :=
        if amqp_heartbeat_enabled state1 then
          { state1 with
            next_send_heartbeat := amqp_calc_next_send_heartbeat state1 now,
            next_recv_heartbeat := amqp_calc_next_recv_heartbeat state1 now }
        else state1
      let len := size_t_of_int frame_max
      let state3 := { state2 with
        outbound_buffer := { state2.outbound_buffer with len := len } }
      if heap.realloc_outbound len then
        some (AMQP_STATUS_OK,
          { state3 with
            outbound_buffer :=
              { len := len,
                bytes := state3.outbound_buffer.bytes.take len
                  ++ List.replicate (len - state3.outbound_buffer.bytes.length) 0 } })
      else
        some (AMQP_STATUS_NO_MEMORY, state3)

/-- The connection as `calloc` leaves it: every field zero. -/
def calloc_connection_state : amqp_connection_state_t :=
  { pool_table := [],
    state := CONNECTION_STATE_IDLE,
    channel_max := 0,
    frame_max := 0,
    heartbeat := 0,
    header_buffer := List.replicate (HEADER_SIZE + 1) 0,
    inbound_buffer := { len := 0, bytes := amqp_bytes_ptr.null },
    inbound_offset := 0,
    target_size := 0,
    outbound_buffer := { len := 0, bytes := [] },
    socket := { send_results := [], wire := [] },
    sock_inbound_buffer_len := 0,
    first_queued_frame := [],
    next_recv_heartbeat := 0,
    next_send_heartbeat := 0,
    properties_pool := { pagesize := 0, allocated := [] } }

/-- The function `amqp_new_connection`; `none` is the NULL result. -/
def amqp_new_connection (heap : amqp_heap) : Option amqp_connection_state_t :=
  if heap.calloc_state = false then none
  else
    match amqp_tune_connection heap 0 calloc_connection_state 0
        AMQP_INITIAL_FRAME_POOL_PAGE_SIZE 0 with
    | none => none
    | some (res, state) =>
      if res ≠ 0 then none
      else
        let state1 := { state with
          inbound_buffer := { len := HEADER_SIZE + 1, bytes := amqp_bytes_ptr.header_buffer },
          state := CONNECTION_STATE_INITIAL,
          target_size := 8,
          sock_inbound_buffer_len := AMQP_INITIAL_INBOUND_SOCK_BUFFER_SIZE }
        if heap.malloc_sock_buffer = false then none
        else some { state1 with properties_pool := { pagesize := 512, allocated := [] } }

/-! ## Outbound engine -/

/-- Modelled from the spec: `amqp_socket_send` of amqp_socket.c, which is not among
the sources (`send(buf)` either transmits all bytes or reports an error). The region
handed over is recorded and the next scripted result is returned. -/
def amqp_socket_send (self : amqp_socket_t) (buf : List Nat) : Int × amqp_socket_t :=
  (self.send_results.headD AMQP_STATUS_OK,
   { send_results := self.send_results.tail, wire := self.wire ++ [buf] })

/-- Modelled from the spec: `amqp_socket_writev` of amqp_socket.c, which is not among
the sources (`scatter_send(iovecs, count)`): one transport call that is handed the
regions in order. -/
def amqp_socket_writev (self : amqp_socket_t) (iov : List (List Nat)) : Int × amqp_socket_t :=
  (self.send_results.headD AMQP_STATUS_OK,
   { send_results := self.send_results.tail, wire := self.wire ++ iov })

/-- The function `amqp_send_frame_non_body`. `out_frame` is
`state->outbound_buffer.bytes`, so what is written through it is kept in the
connection. -/
def amqp_send_frame_non_body {M P : Type} (codec : amqp_codec M P)
    (state : amqp_connection_state_t) (frame : amqp_frame_t M P) :
    Int × amqp_connection_state_t :=
  let out_frame := state.outbound_buffer.bytes
  let finish := fun (out_frame1 : List Nat) (out_frame_len : Nat) =>
    let out_frame2 := amqp_e32 out_frame1 3 out_frame_len
    let out_frame3 := amqp_e8 out_frame2 (size_add out_frame_len HEADER_SIZE) AMQP_FRAME_END
    let s := amqp_socket_send state.socket
      (out_frame3.take (size_add (size_add out_frame_len HEADER_SIZE) FOOTER_SIZE))
    (s.1, { state with
      outbound_buffer := { state.outbound_buffer with bytes := out_frame3 },
      socket := s.2 })
  if frame.frame_type = AMQP_FRAME_METHOD then
    let out_frame1 := amqp_e32 out_frame HEADER_SIZE frame.payload_method_id
    let encoded := amqp_bytes_at out_frame1 (HEADER_SIZE + 4)
      (size_sub (size_sub (size_sub state.outbound_buffer.len HEADER_SIZE) 4) FOOTER_SIZE)
    let r := codec.encode_method frame.payload_method_id frame.payload_method_decoded encoded
    let out_frame2 := mem_write out_frame1 (HEADER_SIZE + 4) r.2
    if r.1 < 0 then
      (r.1, { state with outbound_buffer := { state.outbound_buffer with bytes := out_frame2 } })
    else finish out_frame2 (size_t_of_int (r.1 + 4))
  else if frame.frame_type = AMQP_FRAME_HEADER then
    let out_frame1 := amqp_e16 out_frame HEADER_SIZE frame.payload_properties_class_id
    let out_frame2 := amqp_e16 out_frame1 (HEADER_SIZE + 2) 0
    let out_frame3 := amqp_e64 out_frame2 (HEADER_SIZE + 4) frame.payload_properties_body_size
    let encoded := amqp_bytes_at out_frame3 (HEADER_SIZE + 12)
      (size_sub (size_sub (size_sub state.outbound_buffer.len HEADER_SIZE) 12) FOOTER_SIZE)
    let r := codec.encode_properties frame.payload_properties_class_id
      frame.payload_properties_decoded encoded
    let out_frame4 := mem_write out_frame3 (HEADER_SIZE + 12) r.2
    if r.1 < 0 then
      (r.1, { state with outbound_buffer := { state.outbound_buffer with bytes := out_frame4 } })
    else finish out_frame4 (size_t_of_int (r.1 + 12))
  else if frame.frame_type = AMQP_FRAME_HEARTBEAT then
    finish out_frame 0
  else
    (AMQP_STATUS_INVALID_PARAMETER, state)

/-- The heartbeat epilogue shared by `amqp_send_frame` and `amqp_send_frame_streaming`:
with heartbeats on, a clock reading of 0 gives TIMER_FAILURE, any other reading renews
`next_send_heartbeat`; `res` is returned otherwise. -/
def send_frame_epilogue (now : Nat) (state : amqp_connection_state_t) (res : Int) :
    Int × amqp_connection_state_t :=
  if state.heartbeat > 0 then
    if now = 0 then (AMQP_STATUS_TIMER_FAILURE, state)
    else (res, { state with next_send_heartbeat := amqp_calc_next_send_heartbeat state now })
  else (res, state)

/-- The function `amqp_send_frame`. `now` is what `amqp_get_monotonic_timestamp`
returns if it is asked. -/
def amqp_send_frame {M P : Type} (codec : amqp_codec M P) (now : Nat)
    (state : amqp_connection_state_t) (frame : amqp_frame_t M P) :
    Int × amqp_connection_state_t :=
  let out_frame := amqp_e16 (amqp_e8 state.outbound_buffer.bytes 0 frame.frame_type) 1
    frame.channel
  let state1 := { state with outbound_buffer := { state.outbound_buffer with bytes := out_frame } }
  if frame.frame_type = AMQP_FRAME_BODY then
    let body := frame.payload_body_fragment
    let out_frame1 := amqp_e32 out_frame 3 body.len
    let s := amqp_socket_writev state1.socket
      [out_frame1.take HEADER_SIZE, body.bytes.take body.len, [AMQP_FRAME_END]]
    send_frame_epilogue now
      { state1 with
        outbound_buffer := { state1.outbound_buffer with bytes := out_frame1 },
        socket := s.2 } s.1
  else
    let r := amqp_send_frame_non_body codec state1 frame
    if r.1 ≠ AMQP_STATUS_OK then r
    else send_frame_epilogue now r.2 r.1

/-- The body source of `amqp_send_frame_streaming` (`lsAvailable`, `lsPeek`,
`lsTookBytes` of the light stream library), over its own state type. -/
structure lightStream (S : Type) where
  lsAvailable : S → Int
  lsPeek : S → List Nat
  lsTookBytes : S → Nat → S

/-- State of the send loop of `amqp_send_frame_streaming`. -/
structure streaming_loop_state (S : Type) where
  res : Int
  socket : amqp_socket_t
  bodyStreamP : S
  remaining : Nat

/-- The `while ((AMQP_STATUS_OK == res) && remaining)` loop of
`amqp_send_frame_streaming`; `fuel` bounds the number of iterations. -/
def streaming_loop {S : Type} (ls : lightStream S) :
    Nat → streaming_loop_state S → streaming_loop_state S
  | 0, st => st
  | fuel + 1, st =>
    if st.res = AMQP_STATUS_OK ∧ st.remaining ≠ 0 then
      let len := ls.lsAvailable st.bodyStreamP
      if len ≤ 0 then { st with res := AMQP_STATUS_UNEXPECTED_STATE }
      else
        let len1 := if size_t_of_int len > st.remaining then st.remaining else size_t_of_int len
        let s := amqp_socket_send st.socket ((ls.lsPeek st.bodyStreamP).take len1)
        if s.1 = AMQP_STATUS_OK then
          streaming_loop ls fuel
            { res := s.1, socket := s.2,
              bodyStreamP := ls.lsTookBytes st.bodyStreamP len1,
              remaining := st.remaining - len1 }
        else
          streaming_loop ls fuel { st with res := s.1, socket := s.2 }
    else st

/-- The function `amqp_send_frame_streaming`: result, connection and body source
afterwards. Every pass of the loop that goes on sends at least one octet of the body,
so `body.len + 1` passes always suffice. -/
def amqp_send_frame_streaming {M P S : Type} (codec : amqp_codec M P) (ls : lightStream S)
    (now : Nat) (state : amqp_connection_state_t) (frame : amqp_frame_t M P)
    (bodyStreamP : S) : Int × amqp_connection_state_t × S :=
  let out_frame := amqp_e16 (amqp_e8 state.outbound_buffer.bytes 0 frame.frame_type) 1
    frame.channel
  let state1 := { state with outbound_buffer := { state.outbound_buffer with bytes := out_frame } }
  if frame.frame_type = AMQP_FRAME_BODY then
    let body := frame.payload_body_fragment
    let out_frame1 := amqp_e32 out_frame 3 body.len
    let s := amqp_socket_send state1.socket (out_frame1.take HEADER_SIZE)
    let l := streaming_loop ls (body.len + 1)
      { res := s.1, socket := s.2, bodyStreamP := bodyStreamP, remaining := body.len }
    let f :=
      if l.res = AMQP_STATUS_OK then amqp_socket_send l.socket [AMQP_FRAME_END]
      else (l.res, l.socket)
    let e := send_frame_epilogue now
      { state1 with
        outbound_buffer := { state1.outbound_buffer with bytes := out_frame1 },
        socket := f.2 } f.1
    (e.1, e.2, l.bodyStreamP)
  else
    let r := amqp_send_frame_non_body codec state1 frame
    if r.1 ≠ AMQP_STATUS_OK then (r.1, r.2, bodyStreamP)
    else
      let e := send_frame_epilogue now r.2 r.1
      (e.1, e.2, bodyStreamP)

/-- A codec whose decoded structures are the encoded octets themselves, used to run
the engine on concrete frames. -/
def raw_codec : amqp_codec (List Nat) (List Nat) :=
  { decode_method := fun _ pool encoded => (0, pool, encoded.bytes),
    encode_method := fun _ decoded encoded =>
      if decoded.length ≤ encoded.len then
        ((decoded.length : Int), mem_write encoded.bytes 0 decoded)
      else (AMQP_STATUS_NO_MEMORY, encoded.bytes),
    decode_properties := fun _ pool encoded => (0, pool, encoded.bytes),
    encode_properties := fun _ decoded encoded =>
      if decoded.length ≤ encoded.len then
        ((decoded.length : Int), mem_write encoded.bytes 0 decoded)
      else (AMQP_STATUS_NO_MEMORY, encoded.bytes) }

/-- An allocator on which every request succeeds and fresh memory reads `fill`. -/
def plentiful_heap (fill : Nat) : amqp_heap :=
  { malloc_entry := true,
    pool_alloc := fun _ => true,
    calloc_state := true,
    realloc_outbound := fun _ => true,
    malloc_sock_buffer := true,
    garbage := fun _ => fill }

/-- An output frame with every field zero. -/
def blank_frame : amqp_frame_t (List Nat) (List Nat) :=
  { frame_type := 0,
    channel := 0,
    payload_method_id := 0,
    payload_method_decoded := [],
    payload_properties_class_id := 0,
    payload_properties_body_size := 0,
    payload_properties_raw := { len := 0, bytes := [] },
    payload_properties_decoded := [],
    payload_body_fragment := { len := 0, bytes := [] },
    payload_protocol_header_transport_high := 0,
    payload_protocol_header_transport_low := 0,
    payload_protocol_header_protocol_version_major := 0,
    payload_protocol_header_protocol_version_minor := 0 }

/-- An idle connection tuned to `frame_max`, with an empty pool table: what
`amqp_new_connection` and the protocol handshake leave, as far as the decoder is
concerned. -/
def idle_connection (frame_max : Int) : amqp_connection_state_t :=
  { calloc_connection_state with
    frame_max := frame_max,
    inbound_buffer := { len := HEADER_SIZE + 1, bytes := amqp_bytes_ptr.header_buffer },
    target_size := HEADER_SIZE,
    outbound_buffer :=
      { len := size_t_of_int frame_max, bytes := List.replicate (size_t_of_int frame_max) 0 } }

/-- Table the connection has once `amqp_get_or_create_channel_pool` has succeeded for
`channel`: unchanged when the channel has an entry, one new entry with an empty arena
otherwise. -/
def ensured_pool_table (state : amqp_connection_state_t) (channel : Nat) :
    List amqp_pool_table_entry_t :=
  match amqp_get_channel_pool state channel with
  | some _ => state.pool_table
  | none =>
    { channel := channel,
      pool := { pagesize := AMQP_INITIAL_DECODING_POOL_PAGE_SIZE, allocated := [] } }
      :: state.pool_table

/-- The connection `amqp_new_connection` returns when every allocation succeeds. -/
def fresh_connection : amqp_connection_state_t :=
  (amqp_new_connection (plentiful_heap 0)).getD calloc_connection_state

/-- A frame boundary: the connection is idle with the decoder fields reset, as
`return_to_idle` leaves them. -/
def at_frame_boundary (state : amqp_connection_state_t) : Prop :=
  state.state = CONNECTION_STATE_IDLE ∧
    state.inbound_buffer.bytes = amqp_bytes_ptr.header_buffer ∧
    state.inbound_offset = 0 ∧ state.target_size = HEADER_SIZE

/-- The decoder is collecting a frame header and holds the octets `A` (fewer than
seven) of it in `header_buffer`. -/
def header_stage (A : List Nat) (state : amqp_connection_state_t) : Prop :=
  A.length < HEADER_SIZE ∧
    (state.state = CONNECTION_STATE_IDLE ∨ state.state = CONNECTION_STATE_HEADER) ∧
    state.inbound_buffer.bytes = amqp_bytes_ptr.header_buffer ∧
    state.inbound_offset = A.length ∧ state.target_size = HEADER_SIZE ∧
    state.header_buffer.take A.length = A

/-- The decoder is collecting the rest of a frame of `T` octets in an arena block and
holds the octets `A` (at least the seven of the header, fewer than `T`) of it. -/
def body_stage (T : Nat) (A : List Nat) (state : amqp_connection_state_t) : Prop :=
  HEADER_SIZE ≤ A.length ∧ A.length < T ∧ T < 2147483648 ∧
    state.state = CONNECTION_STATE_BODY ∧
    state.inbound_buffer.bytes = amqp_bytes_ptr.block (inbound_bytes state) ∧
    (inbound_bytes state).length = T ∧
    state.inbound_offset = A.length ∧ state.target_size = T ∧
    (inbound_bytes state).take A.length = A

/-- The whole frame `W` sits in the arena block and the decoder is about to run the
BODY arm on it. -/
def frame_complete (W : List Nat) (state : amqp_connection_state_t) : Prop :=
  HEADER_SIZE + FOOTER_SIZE ≤ W.length ∧ W.length < 2147483648 ∧
    state.state = CONNECTION_STATE_BODY ∧
    inbound_bytes state = W ∧
    state.inbound_offset = W.length ∧ state.target_size = W.length

/-- The decoder has taken the first `k` octets of the frame `W`. -/
def receiving (W : List Nat) (k : Nat) (state : amqp_connection_state_t) : Prop :=
  if k < HEADER_SIZE then header_stage (W.take k) state
  else body_stage W.length (W.take k) state

/-- Wire image of a frame: type, channel, payload length, payload, frame end. -/
def wire_frame (frame_type channel : Nat) (payload : List Nat) : List Nat :=
  [frame_type % 256] ++ be16 channel ++ be32 payload.length ++ payload ++ [AMQP_FRAME_END]

/-- The octets handed to the transport between the connection states `before` and
`after`, in order. -/
def sent_by (before after : amqp_connection_state_t) : List Nat :=
  (after.socket.wire.drop before.socket.wire.length).flatten

/-- The BODY frame of the minimum-body scenario: channel 1, fragment `41 42 43`. -/
def minimum_body_frame : amqp_frame_t (List Nat) (List Nat) :=
  { blank_frame with
    frame_type := AMQP_FRAME_BODY, channel := 1,
    payload_body_fragment := { len := 3, bytes := [65, 66, 67] } }

/-- What is assumed of the method codec for the method `id` with arguments `args`
when the encoder is given `space` octets: it succeeds within that space, the octets it
reports are in the region it leaves, and decoding them (in any arena) succeeds and
gives `args` back. -/
def method_codec_law {M P : Type} (codec : amqp_codec M P) (id : Nat) (args : M)
    (space : Nat) : Prop :=
  ∀ region : List Nat,
    0 ≤ (codec.encode_method id args { len := space, bytes := region }).1 ∧
    (codec.encode_method id args { len := space, bytes := region }).1.toNat ≤ space ∧
    (codec.encode_method id args { len := space, bytes := region }).1.toNat
      ≤ (codec.encode_method id args { len := space, bytes := region }).2.length ∧
    ∀ pool : amqp_pool_t,
      0 ≤ (codec.decode_method id pool
        { len := (codec.encode_method id args { len := space, bytes := region }).1.toNat,
          bytes := (codec.encode_method id args { len := space, bytes := region }).2.take
            (codec.encode_method id args { len := space, bytes := region }).1.toNat }).1 ∧
      (codec.decode_method id pool
        { len := (codec.encode_method id args { len := space, bytes := region }).1.toNat,
          bytes := (codec.encode_method id args { len := space, bytes := region }).2.take
            (codec.encode_method id args { len := space, bytes := region }).1.toNat }).2.2 = args

/-- A METHOD frame for the raw codec: channel 1, method id `0x000A000B`, arguments
`01 02 03`. -/
def sample_method_frame : amqp_frame_t (List Nat) (List Nat) :=
  { blank_frame with
    frame_type := AMQP_FRAME_METHOD, channel := 1,
    payload_method_id := 655371, payload_method_decoded := [1, 2, 3] }

/-- What is assumed of a body source whose remaining octets are `content src`: the
amount it offers is a positive `int` whenever octets remain and never more than what
remains, `lsPeek` shows the next octets, and `lsTookBytes` removes the octets taken. -/
def stream_yields {S : Type} (ls : lightStream S) (content : S → List Nat) : Prop :=
  ∀ src : S,
    ls.lsAvailable src < 2147483648 ∧
    (content src ≠ [] → 0 < ls.lsAvailable src) ∧
    (ls.lsAvailable src).toNat ≤ (content src).length ∧
    (ls.lsPeek src).take (ls.lsAvailable src).toNat
      = (content src).take (ls.lsAvailable src).toNat ∧
    ∀ k : Nat, k ≤ (ls.lsAvailable src).toNat →
      content (ls.lsTookBytes src k) = (content src).drop k

/-- A body source over a list of octets that offers at most two octets at a time. -/
def two_octet_stream : lightStream (List Nat) :=
  { lsAvailable := fun src => ((min 2 src.length : Nat) : Int),
    lsPeek := fun src => src,
    lsTookBytes := fun src k => src.drop k }

/-! ## Releasing buffers -/

/-- Modelled from the spec: `recycle_amqp_pool` of amqp_mem.c, which is not among the
sources (`recycle(pool)`: retain the first page, drop the rest, reset the offset to
zero). The blocks handed out so far are gone. -/
def recycle_amqp_pool (pool : amqp_pool_t) : amqp_pool_t :=
  { pool with allocated := [] }

/-- The function `amqp_release_buffers_ok`. -/
def amqp_release_buffers_ok (state : amqp_connection_state_t) : Bool :=
  decide (state.state = CONNECTION_STATE_IDLE)

/-- The function `amqp_maybe_release_buffers_on_channel`. The `while` loop over the
queued frames returns as soon as one of them is on `channel`. -/
def amqp_maybe_release_buffers_on_channel (state : amqp_connection_state_t) (channel : Nat) :
    amqp_connection_state_t :=
  if CONNECTION_STATE_IDLE ≠ state.state then state
  else if channel ∈ state.first_queued_frame then state
  else
    match amqp_get_channel_pool state channel with
    | some pool => set_channel_pool state channel (recycle_amqp_pool pool)
    | none => state

/-- The function `amqp_release_buffers`; `none` is the `amqp_abort` of `ENFORCE_STATE`.
The two nested loops visit every entry of the pool table once. -/
def amqp_release_buffers (state : amqp_connection_state_t) : Option amqp_connection_state_t :=
  if state.state ≠ CONNECTION_STATE_IDLE then none
  else
    some (state.pool_table.foldl
      (fun st entry => amqp_maybe_release_buffers_on_channel st entry.channel) state)

/-- The function `amqp_maybe_release_buffers`. -/
def amqp_maybe_release_buffers (state : amqp_connection_state_t) :
    Option amqp_connection_state_t :=
  if amqp_release_buffers_ok state then amqp_release_buffers state else some state

/-- The table `amqp_release_buffers` is meant to leave: the arena of every channel
that no queued frame is on has been recycled, every other entry is as it was. -/
def released_pool_table (state : amqp_connection_state_t) : List amqp_pool_table_entry_t :=
  state.pool_table.map
    (fun e => if e.channel ∈ state.first_queued_frame then e
      else { e with pool := recycle_amqp_pool e.pool })

/-! ## Reachable connection states -/

/-- The connection states a program can observe between calls: what
`amqp_new_connection` returns, and what `amqp_handle_input`, `amqp_tune_connection`,
`amqp_release_buffers`, `amqp_maybe_release_buffers` and `amqp_send_frame` leave when
they return (a call that aborts ends the program). -/
inductive reachable {M P : Type} (codec : amqp_codec M P) : amqp_connection_state_t → Prop
  | new_connection (heap : amqp_heap) (s : amqp_connection_state_t) :
      amqp_new_connection heap = some s → reachable codec s
  | handle_input (heap : amqp_heap) (s : amqp_connection_state_t) (data : List Nat)
      (frame : amqp_frame_t M P) :
      reachable codec s → reachable codec (amqp_handle_input codec heap s data frame).state
  | tune_connection (heap : amqp_heap) (now : Nat) (s : amqp_connection_state_t)
      (channel_max frame_max heartbeat : Int) (res : Int) (s1 : amqp_connection_state_t) :
      reachable codec s →
      amqp_tune_connection heap now s channel_max frame_max heartbeat = some (res, s1) →
      reachable codec s1
  | release_buffers (s s1 : amqp_connection_state_t) :
      reachable codec s → amqp_release_buffers s = some s1 → reachable codec s1
  | maybe_release_buffers (s s1 : amqp_connection_state_t) :
      reachable codec s → amqp_maybe_release_buffers s = some s1 → reachable codec s1
  | send_frame (now : Nat) (s : amqp_connection_state_t) (frame : amqp_frame_t M P) :
      reachable codec s → reachable codec (amqp_send_frame codec now s frame).2

/-! ## Names for parts of the outbound engine -/

/-- The outbound buffer once `amqp_send_frame` has written the frame type and the
channel into it. -/
def out_frame_start {M P : Type} (state : amqp_connection_state_t) (frame : amqp_frame_t M P) :
    List Nat :=
  amqp_e16 (amqp_e8 state.outbound_buffer.bytes 0 frame.frame_type) 1 frame.channel

/-- The call of `amqp_encode_method` that `amqp_send_frame` makes for a METHOD frame:
its `int` result and the contents it leaves in the region behind the method id. -/
def method_encode_call {M P : Type} (codec : amqp_codec M P) (state : amqp_connection_state_t)
    (frame : amqp_frame_t M P) : Int × List Nat :=
  codec.encode_method frame.payload_method_id frame.payload_method_decoded
    (amqp_bytes_at (amqp_e32 (out_frame_start state frame) HEADER_SIZE frame.payload_method_id)
      (HEADER_SIZE + 4)
      (size_sub (size_sub (size_sub state.outbound_buffer.len HEADER_SIZE) 4) FOOTER_SIZE))

/-- The state in which `amqp_send_frame_streaming` enters its send loop for a BODY
frame: the seven header octets have been handed to the transport. -/
def streaming_start {M P S : Type} (state : amqp_connection_state_t) (frame : amqp_frame_t M P)
    (bodyStreamP : S) : streaming_loop_state S :=
  { res := (amqp_socket_send state.socket
      ((amqp_e32 (out_frame_start state frame) 3 frame.payload_body_fragment.len).take
        HEADER_SIZE)).1,
    socket := (amqp_socket_send state.socket
      ((amqp_e32 (out_frame_start state frame) 3 frame.payload_body_fragment.len).take
        HEADER_SIZE)).2,
    bodyStreamP := bodyStreamP,
    remaining := frame.payload_body_fragment.len }

/-- A heartbeat frame on channel 0. -/
def heartbeat_frame : amqp_frame_t (List Nat) (List Nat) :=
  { blank_frame with frame_type := AMQP_FRAME_HEARTBEAT }

/-- A content-header frame for the raw codec: channel 1, class 60, body size 3,
properties `09 08`. -/
def sample_header_frame : amqp_frame_t (List Nat) (List Nat) :=
  { blank_frame with
    frame_type := AMQP_FRAME_HEADER, channel := 1,
    payload_properties_class_id := 60, payload_properties_body_size := 3,
    payload_properties_decoded := [9, 8] }

/-- The protocol-header pseudo frame, which is not an outbound frame type. -/
def protocol_header_frame : amqp_frame_t (List Nat) (List Nat) :=
  { blank_frame with frame_type := AMQP_PSEUDOFRAME_PROTOCOL_HEADER }

/-- A tuned connection with heartbeats on (60 s) whose transport fails the next send
with SOCKET_ERROR (-9). -/
def failing_transport_connection : amqp_connection_state_t :=
  { idle_connection 16 with
    heartbeat := 60,
    socket := { send_results := [-9], wire := [] } }

/-- A tuned connection with heartbeats on (60 s) and a working transport. -/
def heartbeat_connection : amqp_connection_state_t :=
  { idle_connection 32 with heartbeat := 60 }

/-- The connection as `amqp_send_frame` passes it to `amqp_send_frame_non_body`: the
frame type and the channel are in the outbound buffer. -/
def non_body_entry {M P : Type} (state : amqp_connection_state_t) (frame : amqp_frame_t M P) :
    amqp_connection_state_t :=
  { state with
    outbound_buffer := { state.outbound_buffer with bytes := out_frame_start state frame } }

/-- An idle connection with arenas in use on channels 1, 2 and 3 and one frame, on
channel 2, waiting in the queue. -/
def queued_connection : amqp_connection_state_t :=
  { idle_connection 16 with
    pool_table :=
      [{ channel := 1, pool := { pagesize := 131072, allocated := [11] } },
       { channel := 2, pool := { pagesize := 131072, allocated := [24, 9] } },
       { channel := 3, pool := { pagesize := 131072, allocated := [8] } }],
    first_queued_frame := [2] }

/-- The decoder fields of a connection: the stage, how much of the current piece has
arrived, how much is awaited, and where it is collected. -/
def decoder_fields (state : amqp_connection_state_t) :
    amqp_connection_state_enum × Nat × Nat × amqp_inbound_buffer_t :=
  (state.state, state.inbound_offset, state.target_size, state.inbound_buffer)

/-- A codec whose decoded structure is the length of the region it was handed, used to
observe what the engine passes to the decoders. -/
def length_probe_codec : amqp_codec Nat Nat :=
  { decode_method := fun _ pool encoded => (0, pool, encoded.len),
    encode_method := fun _ _ encoded => (0, encoded.bytes),
    decode_properties := fun _ pool encoded => (0, pool, encoded.len),
    encode_properties := fun _ _ encoded => (0, encoded.bytes) }

/-- An output frame of the probe codec with every field zero. -/
def blank_probe_frame : amqp_frame_t Nat Nat :=
  { frame_type := 0,
    channel := 0,
    payload_method_id := 0,
    payload_method_decoded := 0,
    payload_properties_class_id := 0,
    payload_properties_body_size := 0,
    payload_properties_raw := { len := 0, bytes := [] },
    payload_properties_decoded := 0,
    payload_body_fragment := { len := 0, bytes := [] },
    payload_protocol_header_transport_high := 0,
    payload_protocol_header_transport_low := 0,
    payload_protocol_header_protocol_version_major := 0,
    payload_protocol_header_protocol_version_minor := 0 }

/-- Two values of `inbound_buffer` describe the same region: the same length and the
same memory as far as the engine can tell (both NULL, both `header_buffer`, or both an
arena block); the octets held in a block may differ. -/
def same_region (a b : amqp_inbound_buffer_t) : Prop :=
  a.len = b.len ∧
    (a.bytes = amqp_bytes_ptr.null ↔ b.bytes = amqp_bytes_ptr.null) ∧
    (a.bytes = amqp_bytes_ptr.header_buffer ↔ b.bytes = amqp_bytes_ptr.header_buffer)

/-- An allocator on which `malloc` of a pool table entry succeeds as `entry` says and
every arena allocation as `block` says; fresh memory reads 0. -/
def scarce_heap (entry block : Bool) : amqp_heap :=
  { malloc_entry := entry,
    pool_alloc := fun _ => block,
    calloc_state := true,
    realloc_outbound := fun _ => true,
    malloc_sock_buffer := true,
    garbage := fun _ => 0 }
/-- The octets of a HEADER frame on channel `0x0205`: class id `0x012C`, weight octets
`AB CD`, body size `0x0102030405060708` and the two property octets `80 00`. -/
def content_header_octets : List Nat :=
  [2, 2, 5, 0, 0, 0, 14, 1, 44, 171, 205, 1, 2, 3, 4, 5, 6, 7, 8, 128, 0, 206]

/-! ## TLS transport (amqp_cyassl.c) -/

/-- Status `AMQP_STATUS_CONNECTION_CLOSED`. -/
abbrev AMQP_STATUS_CONNECTION_CLOSED : Int := -7

/-- Status `AMQP_STATUS_SOCKET_ERROR`. -/
abbrev AMQP_STATUS_SOCKET_ERROR : Int := -9

/-- Status `AMQP_STATUS_SSL_ERROR`. -/
abbrev AMQP_STATUS_SSL_ERROR : Int := -512

/-- Error code `SSL_ERROR_WANT_WRITE` of the TLS library. -/
abbrev SSL_ERROR_WANT_WRITE : Int := 3

/-- Error code `EINTR`. -/
abbrev EINTR : Int := 4

/-- Result `SSL_SUCCESS` of the TLS library. -/
abbrev SSL_SUCCESS : Int := 1

/-- Flag `MSG_MORE`. -/
abbrev MSG_MORE : Nat := 16

/-- The object `struct amqp_ssl_socket_t`, as far as send, recv, open and close use it:
the TLS context and session (`none` is NULL), the descriptor and the last error. -/
structure amqp_ssl_socket_t where
  ctx : Option Nat
  ssl : Option Nat
  sockfd : Int
  last_error : Int
  deriving DecidableEq, Repr

/-- What one call of `CyaSSL_send` or `CyaSSL_recv` gives: its result and, for a
negative result, what `CyaSSL_get_error` says about it. -/
structure tls_io_result where
  res : Int
  error : Int
  deriving DecidableEq, Repr

/-- One call of `CyaSSL_send`: the memory at the pointer passed, the length and the
flags. -/
structure tls_send_call where
  buf : List Nat
  len : Int
  flags : Nat
  deriving DecidableEq, Repr

/-- The collaborators of the TLS transport. `clock` scripts the coming readings of
`amqp_get_monotonic_timestamp` (0 once used up), `send_script` and `recv_script` the
coming results of `CyaSSL_send` and `CyaSSL_recv`, `os_close_script` the coming results
of `amqp_os_socket_close` (0 once used up); `msg_nosignal` is `MSG_NOSIGNAL` (0 where
the platform does not define it). `sends`, `recvs`, `os_closed` and `ssl_freed` record
the calls of `CyaSSL_send`, `CyaSSL_recv`, `amqp_os_socket_close` and `CyaSSL_free`,
oldest first. -/
structure tls_world where
  clock : List Nat
  send_script : List tls_io_result
  recv_script : List tls_io_result
  os_close_script : List Int
  msg_nosignal : Nat
  sends : List tls_send_call
  recvs : List (Nat × Nat)
  os_closed : List Int
  ssl_freed : List Nat
  deriving DecidableEq, Repr

/-- The function `amqp_ssl_socket_are_we_open`. -/
def amqp_ssl_socket_are_we_open (self : Option amqp_ssl_socket_t) : Int :=
  match self with
  | none => AMQP_STATUS_INVALID_PARAMETER
  | some s =>
    if s.sockfd ≥ 0 ∧ s.ssl.isSome then AMQP_STATUS_OK else AMQP_STATUS_INVALID_PARAMETER

/-- The value `(uint32_t)((endTimeNs - startTimeNs) / 1000 / 1000)` of
`amqp_ssl_socket_send_inner`, the difference taken in `uint64_t`. -/
def sendTimeMs (startTimeNs endTimeNs : Nat) : Nat :=
  ((endTimeNs % 18446744073709551616 + 18446744073709551616
      - startTimeNs % 18446744073709551616) % 18446744073709551616 / 1000 / 1000)
    % 4294967296

/-- Subtraction `a - b` in `ssize_t` (32 bits, two's complement). -/
def ssize_sub (a b : Int) : Int := int_of_size_t (size_t_of_int (a - b))

/-- The loop of `amqp_ssl_socket_send_inner` from the label `start`. Every pass takes
the next result of `CyaSSL_send` from the script; `none` is a send that has not
returned when the script is used up. `offset` is how far `buf_left` is into `buf`. -/
def amqp_ssl_socket_send_loop (buf : List Nat) (len flags startTimeNs : Nat) :
    List tls_io_result → amqp_ssl_socket_t → Nat → Int → tls_world →
      Option (Int × amqp_ssl_socket_t × tls_world)
  | [], _, _, _, _ => none
  | r :: rest, self, offset, len_left, world =>
    let world1 := { world with
      send_script := rest,
      sends := world.sends ++ [{ buf := buf.drop offset, len := len_left, flags := flags }],
      clock := world.clock.tail }
    let res := r.res
    let endTimeNs := world.clock.headD 0
    let self1 := if res < 0 then { self with last_error := r.error } else self
    if res ≥ 0 ∧ res = len_left then
      some (AMQP_STATUS_OK, { self1 with last_error := 0 }, world1)
    else if sendTimeMs startTimeNs endTimeNs > 1000 then
      some (AMQP_STATUS_SOCKET_ERROR, self1, world1)
    else if res < 0 then
      if SSL_ERROR_WANT_WRITE = self1.last_error then
        amqp_ssl_socket_send_loop buf len flags startTimeNs rest self1 offset len_left world1
      else if EINTR = self1.last_error then
        amqp_ssl_socket_send_loop buf len flags startTimeNs rest self1 offset len_left world1
      else
        some (AMQP_STATUS_SOCKET_ERROR, self1, world1)
    else
      amqp_ssl_socket_send_loop buf len flags startTimeNs rest self1
        (size_add offset res.toNat) (ssize_sub len_left res) world1

/-- The function `amqp_ssl_socket_send_inner`: result, socket object and collaborators
afterwards. -/
def amqp_ssl_socket_send_inner (self : Option amqp_ssl_socket_t) (buf : List Nat)
    (len flags : Nat) (world : tls_world) :
    Option (Int × Option amqp_ssl_socket_t × tls_world) :=
  match self with
  | none => some (amqp_ssl_socket_are_we_open self, self, world)
  | some s =>
    if AMQP_STATUS_OK ≠ amqp_ssl_socket_are_we_open self then
      some (amqp_ssl_socket_are_we_open self, self, world)
    else
      let len_left := int_of_size_t len
      let flags1 := flags ||| world.msg_nosignal
      let startTimeNs := world.clock.headD 0
      let world1 := { world with clock := world.clock.tail }
      (amqp_ssl_socket_send_loop buf len flags1 startTimeNs world1.send_script s 0 len_left
        world1).map (fun r => (r.1, some r.2.1, r.2.2))

/-- The function `amqp_ssl_socket_send`. -/
def amqp_ssl_socket_send (self : Option amqp_ssl_socket_t) (buf : List Nat) (len : Nat)
    (world : tls_world) : Option (Int × Option amqp_ssl_socket_t × tls_world) :=
  amqp_ssl_socket_send_inner self buf len 0 world

/-- The function `amqp_ssl_socket_writev` on the array `iov` with `iovcnt` its length.
With an empty array the last call is made on what lies at `iov[0]`, taken here as an
empty region. -/
def amqp_ssl_socket_writev (self : Option amqp_ssl_socket_t) :
    List amqp_bytes_t → tls_world → Option (Int × Option amqp_ssl_socket_t × tls_world)
  | [], world => amqp_ssl_socket_send_inner self [] 0 0 world
  | [last], world => amqp_ssl_socket_send_inner self last.bytes last.len 0 world
  | v :: w :: rest, world =>
    match amqp_ssl_socket_send_inner self v.bytes v.len MSG_MORE world with
    | none => none
    | some (ret, self1, world1) =>
      if ret ≠ AMQP_STATUS_OK then some (ret, self1, world1)
      else amqp_ssl_socket_writev self1 (w :: rest) world1

/-- The loop of `amqp_ssl_socket_recv` from the label `start`; `none` is a receive that
has not returned when the script is used up. -/
def amqp_ssl_socket_recv_loop (len flags : Nat) :
    List tls_io_result → amqp_ssl_socket_t → tls_world →
      Option (Int × amqp_ssl_socket_t × tls_world)
  | [], _, _ => none
  | r :: rest, self, world =>
    let world1 := { world with recv_script := rest, recvs := world.recvs ++ [(len, flags)] }
    if 0 > r.res then
      let self1 := { self with last_error := r.error }
      if EINTR = self1.last_error then amqp_ssl_socket_recv_loop len flags rest self1 world1
      else some (AMQP_STATUS_SOCKET_ERROR, self1, world1)
    else if 0 = r.res then some (AMQP_STATUS_CONNECTION_CLOSED, self, world1)
    else some (r.res, self, world1)

/-- The function `amqp_ssl_socket_recv` (the octets received are not kept). -/
def amqp_ssl_socket_recv (self : Option amqp_ssl_socket_t) (len flags : Nat)
    (world : tls_world) : Option (Int × Option amqp_ssl_socket_t × tls_world) :=
  match self with
  | none => some (amqp_ssl_socket_are_we_open self, self, world)
  | some s =>
    if AMQP_STATUS_OK ≠ amqp_ssl_socket_are_we_open self then
      some (amqp_ssl_socket_are_we_open self, self, world)
    else
      (amqp_ssl_socket_recv_loop len flags world.recv_script s world).map
        (fun r => (r.1, some r.2.1, r.2.2))

/-- The function `amqp_ssl_socket_close`. -/
def amqp_ssl_socket_close (self : Option amqp_ssl_socket_t) (world : tls_world) :
    Int × Option amqp_ssl_socket_t × tls_world :=
  match self with
  | none => (-1, none, world)
  | some s =>
    let a : Int × amqp_ssl_socket_t × tls_world :=
      if s.sockfd ≥ 0 then
        (world.os_close_script.headD 0, { s with sockfd := -1 },
          { world with
            os_close_script := world.os_close_script.tail,
            os_closed := world.os_closed ++ [s.sockfd] })
      else (-1, s, world)
    match a.2.1.ssl with
    | some session =>
      (a.1, some { a.2.1 with ssl := none },
        { a.2.2 with ssl_freed := a.2.2.ssl_freed ++ [session] })
    | none => (a.1, some a.2.1, a.2.2)

/-- The function `amqp_ssl_socket_open`. `new_session` is what `CyaSSL_new` returns,
`fd` what `amqp_open_socket_noblock` returns and `connect_status` what `CyaSSL_connect`
returns, each if it is asked. -/
def amqp_ssl_socket_open (self : Option amqp_ssl_socket_t) (new_session : Option Nat)
    (fd connect_status : Int) : Int × Option amqp_ssl_socket_t :=
  match self with
  | none => (AMQP_STATUS_INVALID_PARAMETER, none)
  | some s =>
    let s1 := { s with last_error := AMQP_STATUS_OK }
    if s1.ctx = none then
      (AMQP_STATUS_INVALID_PARAMETER, some { s1 with last_error := AMQP_STATUS_INVALID_PARAMETER })
    else
      let s2 := { s1 with ssl := new_session }
      if s2.ssl = none then
        (AMQP_STATUS_SSL_ERROR, some { s2 with last_error := AMQP_STATUS_SSL_ERROR })
      else
        let s3 := { s2 with sockfd := fd }
        if 0 > s3.sockfd then
          (AMQP_STATUS_SOCKET_ERROR, some { s3 with last_error := - s3.sockfd })
        else if SSL_SUCCESS ≠ connect_status then
          (AMQP_STATUS_SSL_ERROR, some { s3 with last_error := AMQP_STATUS_SSL_ERROR })
        else (AMQP_STATUS_OK, some s3)

/-- A call on the TLS transport; `open_socket` is a call of `amqp_ssl_socket_open`,
with what its collaborators return as arguments. -/
inductive tls_call where
  | send (buf : List Nat) (len : Nat)
  | writev (iov : List amqp_bytes_t)
  | recv (len flags : Nat)
  | close
  | open_socket (new_session : Option Nat) (fd connect_status : Int)
  deriving DecidableEq, Repr

/-- Whether a call transfers data (`send`, `writev` or `recv`). -/
def tls_call.transfers : tls_call → Bool
  | tls_call.send _ _ => true
  | tls_call.writev _ => true
  | tls_call.recv _ _ => true
  | tls_call.close => false
  | tls_call.open_socket _ _ _ => false

/-- Whether a call is an `open_socket` in which `CyaSSL_new` yields a session and
`amqp_open_socket_noblock` a descriptor. -/
def tls_call.obtains_descriptor : tls_call → Bool
  | tls_call.open_socket new_session fd _ => new_session.isSome && decide (0 ≤ fd)
  | _ => false

/-- One call on the transport: its result, the socket object and the collaborators
afterwards (`none`: the call has not returned when its script is used up). -/
def tls_step (call : tls_call) (self : Option amqp_ssl_socket_t) (world : tls_world) :
    Option (Int × Option amqp_ssl_socket_t × tls_world) :=
  match call with
  | tls_call.send buf len => amqp_ssl_socket_send self buf len world
  | tls_call.writev iov => amqp_ssl_socket_writev self iov world
  | tls_call.recv len flags => amqp_ssl_socket_recv self len flags world
  | tls_call.close => some (amqp_ssl_socket_close self world)
  | tls_call.open_socket new_session fd connect_status =>
    some ((amqp_ssl_socket_open self new_session fd connect_status).1,
      (amqp_ssl_socket_open self new_session fd connect_status).2, world)

/-- A sequence of calls on the transport, with the result of each. -/
def tls_run : List tls_call → Option amqp_ssl_socket_t → tls_world →
    Option (List (tls_call × Int) × Option amqp_ssl_socket_t × tls_world)
  | [], self, world => some ([], self, world)
  | call :: rest, self, world =>
    match tls_step call self world with
    | none => none
    | some (ret, self1, world1) =>
      (tls_run rest self1 world1).map (fun r => ((call, ret) :: r.1, r.2.1, r.2.2))

/-- The number of octets the write attempts `results` have reported written: the sum
of the non-negative results. -/
def bytes_written (results : List tls_io_result) : Int :=
  ((results.filter (fun r => decide (0 ≤ r.res))).map (fun r => r.res)).sum

/-- The calls of `CyaSSL_send` a send of `buf` (of `len` octets) makes when every
attempt is handed the part of the buffer not yet written: attempt `i` gets the buffer
from the offset `bytes_written` of the earlier results on, and the length left. -/
def unwritten_suffix_calls (buf : List Nat) (len flags : Nat) (results : List tls_io_result) :
    List tls_send_call :=
  (List.range results.length).map (fun i =>
    { buf := buf.drop (bytes_written (results.take i)).toNat,
      len := (len : Int) - bytes_written (results.take i),
      flags := flags })

/-- An open TLS socket: context, session and descriptor 5. -/
def open_tls_socket : amqp_ssl_socket_t :=
  { ctx := some 1, ssl := some 2, sockfd := 5, last_error := 0 }

/-- Collaborators with the clock readings `clock` and the write results `send_script`
to come, and nothing recorded yet. -/
def scripted_world (clock : List Nat) (send_script : List tls_io_result) : tls_world :=
  { clock := clock,
    send_script := send_script,
    recv_script := [],
    os_close_script := [],
    msg_nosignal := 0,
    sends := [],
    recvs := [],
    os_closed := [],
    ssl_freed := [] }

/-- The socket object as `amqp_ssl_socket_new` leaves it: a context, no session, no
descriptor. -/
def fresh_tls_socket : amqp_ssl_socket_t :=
  { ctx := some 1, ssl := none, sockfd := -1, last_error := 0 }

/-- Collaborators for a send of three octets: the first write takes one octet, the
second wants to be retried, the third takes the other two; a further result is left
over. -/
def sample_send_world : tls_world :=
  scripted_world [0, 5, 6, 7] [⟨1, 0⟩, ⟨-1, 3⟩, ⟨2, 0⟩, ⟨9, 9⟩]

/-- The collaborators `sample_send_world` after the send of `07 08 09`. -/
def sample_send_world_after : tls_world :=
  { scripted_world [] [⟨9, 9⟩] with
    sends := [{ buf := [7, 8, 9], len := 3, flags := 0 },
              { buf := [8, 9], len := 2, flags := 0 },
              { buf := [8, 9], len := 2, flags := 0 }] }

/-- Collaborators for a send of three octets in which every write takes one octet and
returns 0.6 s after the one before (the clock starts at 0 and counts nanoseconds). -/
def slow_progress_world : tls_world :=
  scripted_world [0, 600000000, 1200000000, 1800000000] [⟨1, 0⟩, ⟨1, 0⟩, ⟨1, 0⟩]

/-- Collaborators for a send of three octets in which every write takes one octet and
all have returned 0.9 s after the start. -/
def steady_progress_world : tls_world :=
  scripted_world [0, 400000000, 800000000, 900000000] [⟨1, 0⟩, ⟨1, 0⟩, ⟨1, 0⟩]

end Amqp

/-! # Theorems -/

namespace Amqp

open amqp_connection_state_enum

/-! ## Arithmetic and memory lemmas -/

theorem size_sub_eq (a b : Nat) (hb : b ≤ a) (ha : a < SIZE_MOD) : size_sub a b = a - b := by
  unfold size_sub
  have h1 : a % SIZE_MOD = a := Nat.mod_eq_of_lt ha
  have h2 : b % SIZE_MOD = b := Nat.mod_eq_of_lt (by omega)
  rw [h1, h2]
  simp only [SIZE_MOD] at *
  omega

theorem size_add_eq (a b : Nat) (h : a + b < SIZE_MOD) : size_add a b = a + b := by
  unfold size_add
  exact Nat.mod_eq_of_lt h

theorem int_of_size_t_eq (n : Nat) (h : n < 2147483648) : int_of_size_t n = (n : Int) := by
  unfold int_of_size_t
  have h1 : n % SIZE_MOD = n := Nat.mod_eq_of_lt (by simp only [SIZE_MOD]; omega)
  rw [h1]
  simp [h]

theorem size_t_of_int_lt (i : Int) : size_t_of_int i < SIZE_MOD := by
  unfold size_t_of_int
  simp only [SIZE_MOD]
  omega

theorem size_t_of_int_eq (i : Int) (h0 : 0 ≤ i) (h1 : i < 4294967296) :
    size_t_of_int i = i.toNat := by
  unfold size_t_of_int
  congr 1
  omega

theorem mem_write_zero (mem src : List Nat) :
    mem_write mem 0 src = src ++ mem.drop src.length := by
  simp [mem_write]

theorem mem_write_length (mem src : List Nat) (off : Nat) (h : off + src.length ≤ mem.length) :
    (mem_write mem off src).length = mem.length := by
  simp [mem_write]
  omega

theorem mem_write_take (mem src A : List Nat) (off : Nat) (hA : mem.take off = A)
    (hl : A.length = off) : (mem_write mem off src).take (off + src.length) = A ++ src := by
  have hle : off ≤ mem.length := by
    rw [← hA, List.length_take] at hl
    omega
  have h0 : off - mem.length = 0 := by omega
  unfold mem_write
  rw [h0, hA]
  simp only [List.replicate_zero, List.append_nil]
  rw [List.append_assoc, ← List.append_assoc A src]
  have : off + src.length = (A ++ src).length := by simp [hl]
  rw [this, List.take_left]

theorem amqp_d8_take (X : List Nat) (n i : Nat) (h : i < n) :
    amqp_d8 (X.take n) i = amqp_d8 X i := by
  unfold amqp_d8
  simp [List.getD_eq_getElem?_getD, List.getElem?_take, h]

/-! ## The inbound engine, step by step -/

theorem consume_data_eq (s : amqp_connection_state_t) (data : List Nat)
    (h1 : s.inbound_offset ≤ s.target_size) (h2 : s.target_size < SIZE_MOD) :
    consume_data s data =
      (min data.length (s.target_size - s.inbound_offset),
       { inbound_write s s.inbound_offset
           (data.take (min data.length (s.target_size - s.inbound_offset))) with
         inbound_offset := s.inbound_offset + min data.length (s.target_size - s.inbound_offset) },
       data.drop (min data.length (s.target_size - s.inbound_offset))) := by
  unfold consume_data
  rw [size_sub_eq _ _ h1 h2]
  have hmin : (if data.length < s.target_size - s.inbound_offset then data.length
      else s.target_size - s.inbound_offset) = min data.length (s.target_size - s.inbound_offset) := by
    split <;> omega
  simp only [hmin]
  rw [size_add_eq _ _ (by simp only [SIZE_MOD] at *; omega)]

theorem new_connection_fields (heap : amqp_heap) (s : amqp_connection_state_t)
    (h : amqp_new_connection heap = some s) :
    s.state = CONNECTION_STATE_INITIAL ∧ s.target_size = 8 ∧ s.inbound_offset = 0 ∧
      s.inbound_buffer.bytes = amqp_bytes_ptr.header_buffer ∧ s.frame_max = 65536 ∧
      s.pool_table = [] := by
  unfold amqp_new_connection amqp_tune_connection at h
  simp only [calloc_connection_state, amqp_heartbeat_enabled] at h
  cases hr : heap.realloc_outbound (size_t_of_int 65536) <;>
    cases hcs : heap.calloc_state <;> cases hms : heap.malloc_sock_buffer <;>
    simp [hr, hcs, hms] at h
  subst h
  simp

theorem handle_input_protocol_header {M P : Type} (codec : amqp_codec M P) (heap : amqp_heap)
    (s : amqp_connection_state_t) (data : List Nat) (frame : amqp_frame_t M P)
    (hst : s.state = CONNECTION_STATE_INITIAL) (ht : s.target_size = 8)
    (ho : s.inbound_offset = 0) (hb : s.inbound_buffer.bytes = amqp_bytes_ptr.header_buffer)
    (hlen : 8 ≤ data.length) (hmagic : data.take 4 = [65, 77, 81, 80]) :
    (amqp_handle_input codec heap s data frame).ret = 8 ∧
    (amqp_handle_input codec heap s data frame).decoded_frame.frame_type
      = AMQP_PSEUDOFRAME_PROTOCOL_HEADER ∧
    (amqp_handle_input codec heap s data frame).decoded_frame.channel = 0 ∧
    (amqp_handle_input codec heap s data frame).decoded_frame.payload_protocol_header_transport_high
      = amqp_d8 data 4 ∧
    (amqp_handle_input codec heap s data frame).decoded_frame.payload_protocol_header_transport_low
      = amqp_d8 data 5 ∧
    (amqp_handle_input codec heap s data frame).decoded_frame.payload_protocol_header_protocol_version_major
      = amqp_d8 data 6 ∧
    (amqp_handle_input codec heap s data frame).decoded_frame.payload_protocol_header_protocol_version_minor
      = amqp_d8 data 7 ∧
    (amqp_handle_input codec heap s data frame).state.state = CONNECTION_STATE_IDLE ∧
    (amqp_handle_input codec heap s data frame).state.inbound_offset = 0 ∧
    (amqp_handle_input codec heap s data frame).state.target_size = 7 := by
  have hne : data.length ≠ 0 := by omega
  have hc := consume_data_eq s data (by omega) (by simp only [ht, SIZE_MOD]; omega)
  have hmin : min data.length (s.target_size - s.inbound_offset) = 8 := by
    rw [ht, ho]; omega
  rw [hmin, ho] at hc
  have hraw : inbound_bytes (consume_data s data).2.1 = data.take 8 ++ s.header_buffer.drop 8 := by
    rw [hc]
    simp [inbound_bytes, inbound_write, hb, mem_write_zero, hlen]
  have hd : ∀ i, i < 8 → amqp_d8 (data.take 8 ++ s.header_buffer.drop 8) i = amqp_d8 data i := by
    intro i hi
    unfold amqp_d8
    simp [List.getD_eq_getElem?_getD]
    rw [List.getElem?_append_left (by simp; omega)]
    simp [List.getElem?_take, hi]
  have hm : (data.take 8 ++ s.header_buffer.drop 8).take 4 = [65, 77, 81, 80] := by
    rw [List.take_append_of_le_length (by simp; omega), List.take_take]
    simpa using hmagic
  unfold amqp_handle_input
  simp only [hne, if_false, hst]
  simp only [reduceCtorEq, if_false]
  simp only [hraw, hm, hd 4 (by omega), hd 5 (by omega), hd 6 (by omega), hd 7 (by omega)]
  rw [hc]
  have h8 : int_of_size_t 8 = 8 := by rw [int_of_size_t_eq 8 (by omega)]; rfl
  simp [ht, hst, return_to_idle, inbound_write, hb, h8]

theorem get_or_create_eq (heap : amqp_heap) (s : amqp_connection_state_t) (c : Nat)
    (hm : heap.malloc_entry = true) :
    amqp_get_or_create_channel_pool heap s c
      = some { s with pool_table := ensured_pool_table s c } := by
  unfold amqp_get_or_create_channel_pool ensured_pool_table
  cases h : amqp_get_channel_pool s c <;> simp [hm]

theorem header_arm_accept {M P : Type} (codec : amqp_codec M P) (heap : amqp_heap)
    (s : amqp_connection_state_t) (rest : List Nat) (bc : Nat) (frame : amqp_frame_t M P)
    (H : List Nat) (T : Nat)
    (hb : s.inbound_buffer.bytes = amqp_bytes_ptr.header_buffer)
    (ho : s.inbound_offset = 7)
    (hH : s.header_buffer.take 7 = H) (hHl : H.length = 7)
    (hm : heap.malloc_entry = true)
    (hT : amqp_d32 H 3 + 8 = T) (hTF : T ≤ size_t_of_int s.frame_max)
    (ha : heap.pool_alloc T = true) :
    ∃ (s2 : amqp_connection_state_t) (n : Nat),
      amqp_handle_input_HEADER codec heap s rest bc frame =
        (if s2.inbound_offset < s2.target_size then
          { ret := int_of_size_t (size_add bc n), state := s2, decoded_frame := frame }
         else amqp_handle_input_BODY codec heap s2 (size_add bc n) frame) ∧
      n = min rest.length (T - 7) ∧
      s2.state = CONNECTION_STATE_BODY ∧
      s2.inbound_buffer.bytes = amqp_bytes_ptr.block (inbound_bytes s2) ∧
      (inbound_bytes s2).length = T ∧
      (inbound_bytes s2).take (7 + n) = H ++ rest.take n ∧
      s2.inbound_offset = 7 + n ∧ s2.target_size = T ∧
      s2.frame_max = s.frame_max := by
  have hTlt : T < SIZE_MOD := lt_of_le_of_lt hTF (size_t_of_int_lt _)
  have hT7 : 8 ≤ T := by omega
  have hd : ∀ i, i < 7 → amqp_d8 (inbound_bytes s) i = amqp_d8 H i := by
    intro i hi
    rw [← hH, amqp_d8_take _ _ _ hi]
    simp [inbound_bytes, hb]
  have hd32 : amqp_d32 (inbound_bytes s) 3 = amqp_d32 H 3 := by
    simp [amqp_d32, amqp_d16, hd]
  have hnt : (amqp_d32 (inbound_bytes s) 3 + HEADER_SIZE + FOOTER_SIZE) % SIZE_MOD = T := by
    rw [hd32]
    have : amqp_d32 H 3 + HEADER_SIZE + FOOTER_SIZE = T := by simp only [HEADER_SIZE, FOOTER_SIZE]; omega
    rw [this]
    exact Nat.mod_eq_of_lt hTlt
  have hnot : ¬ (T > size_t_of_int s.frame_max) := by omega
  have hs : size_sub T 7 = T - 7 := size_sub_eq _ _ (by omega) hTlt
  have hmin : (if rest.length < T - 7 then rest.length else T - 7) = min rest.length (T - 7) := by
    split <;> omega
  have hsa : size_add 7 (min rest.length (T - 7)) = 7 + min rest.length (T - 7) :=
    size_add_eq _ _ (by simp only [SIZE_MOD] at *; omega)
  have hH' : List.take HEADER_SIZE s.header_buffer = H := hH
  have hg : (List.map heap.garbage (List.range T)).length = T := by simp
  have hsl : (List.take (min rest.length (T - 7)) rest).length = min rest.length (T - 7) := by
    simp
  have hm1l : (mem_write (List.map heap.garbage (List.range T)) 0 H).length = T := by
    rw [mem_write_length _ _ _ (by rw [hg, hHl]; omega), hg]
  have hm1t : (mem_write (List.map heap.garbage (List.range T)) 0 H).take 7 = H := by
    have := mem_write_take (List.map heap.garbage (List.range T)) H [] 0 (by simp) (by simp)
    simpa [hHl] using this
  have hm2l : (mem_write (mem_write (List.map heap.garbage (List.range T)) 0 H) 7
      (List.take (min rest.length (T - 7)) rest)).length = T := by
    rw [mem_write_length _ _ _ (by rw [hm1l, hsl]; omega), hm1l]
  have hm2t : (mem_write (mem_write (List.map heap.garbage (List.range T)) 0 H) 7
      (List.take (min rest.length (T - 7)) rest)).take (7 + min rest.length (T - 7))
        = H ++ List.take (min rest.length (T - 7)) rest := by
    have := mem_write_take (mem_write (List.map heap.garbage (List.range T)) 0 H)
      (List.take (min rest.length (T - 7)) rest) H 7 hm1t hHl
    rwa [hsl] at this
  unfold amqp_handle_input_HEADER
  simp only [get_or_create_eq _ _ _ hm, hnt, hnot, if_false]
  simp only [amqp_pool_alloc_bytes, ha, if_true]
  simp only [reduceCtorEq, if_false]
  refine ⟨_, _, rfl, ?_, ?_, ?_, ?_, ?_, ?_, ?_, ?_⟩
  · simp [consume_data, hs, ho, hmin, set_channel_pool, inbound_write]
  · simp [consume_data, hs, ho, hmin, set_channel_pool, inbound_write]
  · simp [consume_data, hs, ho, hmin, set_channel_pool, inbound_write, inbound_bytes]
  · simp only [consume_data, hs, ho, hmin, set_channel_pool, inbound_write, inbound_bytes, hH']
    exact hm2l
  · simp only [consume_data, hs, ho, hmin, set_channel_pool, inbound_write, inbound_bytes, hH']
    exact hm2t
  · simp [consume_data, hs, ho, hmin, set_channel_pool, inbound_write, hsa]
  · simp [consume_data, hs, ho, hmin, set_channel_pool, inbound_write]
  · simp [consume_data, hs, ho, hmin, set_channel_pool, inbound_write]

theorem header_arm_reject {M P : Type} (codec : amqp_codec M P) (heap : amqp_heap)
    (s : amqp_connection_state_t) (rest : List Nat) (bc : Nat) (frame : amqp_frame_t M P)
    (H : List Nat)
    (hb : s.inbound_buffer.bytes = amqp_bytes_ptr.header_buffer)
    (hH : s.header_buffer.take 7 = H)
    (hm : heap.malloc_entry = true)
    (hbig : (amqp_d32 H 3 + 8) % SIZE_MOD > size_t_of_int s.frame_max) :
    amqp_handle_input_HEADER codec heap s rest bc frame =
      { ret := AMQP_STATUS_BAD_AMQP_DATA,
        state := { s with pool_table := ensured_pool_table s (amqp_d16 H 1) },
        decoded_frame := frame } := by
  have hd : ∀ i, i < 7 → amqp_d8 (inbound_bytes s) i = amqp_d8 H i := by
    intro i hi
    rw [← hH, amqp_d8_take _ _ _ hi]
    simp [inbound_bytes, hb]
  have hd32 : amqp_d32 (inbound_bytes s) 3 = amqp_d32 H 3 := by
    simp [amqp_d32, amqp_d16, hd]
  have hd16 : amqp_d16 (inbound_bytes s) 1 = amqp_d16 H 1 := by
    simp [amqp_d16, hd]
  have hnt : (amqp_d32 (inbound_bytes s) 3 + HEADER_SIZE + FOOTER_SIZE) % SIZE_MOD
      = (amqp_d32 H 3 + 8) % SIZE_MOD := by
    rw [hd32, Nat.add_assoc]
    rfl
  unfold amqp_handle_input_HEADER
  simp only [get_or_create_eq _ _ _ hm, hnt, hbig, if_true, hd16]

theorem handle_input_header_short {M P : Type} (codec : amqp_codec M P) (heap : amqp_heap)
    (s : amqp_connection_state_t) (data A : List Nat) (frame : amqp_frame_t M P)
    (hs : header_stage A s) (hne : data ≠ []) (hlen : A.length + data.length < 7) :
    (amqp_handle_input codec heap s data frame).ret = (data.length : Int) ∧
    (amqp_handle_input codec heap s data frame).decoded_frame = { frame with frame_type := 0 } ∧
    header_stage (A ++ data) (amqp_handle_input codec heap s data frame).state ∧
    (amqp_handle_input codec heap s data frame).state.frame_max = s.frame_max ∧
    (amqp_handle_input codec heap s data frame).state.pool_table = s.pool_table := by
  obtain ⟨hA, hst, hb, ho, ht, hH⟩ := hs
  have hne' : data.length ≠ 0 := by
    intro h; exact hne (List.length_eq_zero.mp h)
  have hsub : size_sub 7 A.length = 7 - A.length :=
    size_sub_eq _ _ (by omega) (by simp only [SIZE_MOD]; omega)
  have hmin : (if data.length < 7 - A.length then data.length else 7 - A.length) = data.length := by
    split <;> omega
  have hsa : size_add A.length data.length = A.length + data.length :=
    size_add_eq _ _ (by simp only [SIZE_MOD]; omega)
  have hint : int_of_size_t data.length = (data.length : Int) :=
    int_of_size_t_eq _ (by omega)
  have hw : (mem_write s.header_buffer A.length data).take (A.length + data.length) = A ++ data :=
    mem_write_take _ _ _ _ hH rfl
  unfold amqp_handle_input
  simp only [hne', if_false]
  rcases hst with hst | hst <;>
    simp [hst, consume_data, ht, ho, hsub, hmin, hsa, inbound_write, hb, hlen, hint,
      header_stage, hw]

theorem handle_input_header_reach {M P : Type} (codec : amqp_codec M P) (heap : amqp_heap)
    (s : amqp_connection_state_t) (data A : List Nat) (frame : amqp_frame_t M P)
    (hs : header_stage A s) (hlen : 7 ≤ A.length + data.length) :
    ∃ s1 : amqp_connection_state_t,
      amqp_handle_input codec heap s data frame =
        amqp_handle_input_HEADER codec heap s1 (data.drop (7 - A.length)) (7 - A.length)
          { frame with frame_type := 0 } ∧
      s1.inbound_buffer.bytes = amqp_bytes_ptr.header_buffer ∧
      s1.inbound_offset = 7 ∧
      s1.header_buffer.take 7 = A ++ data.take (7 - A.length) ∧
      s1.frame_max = s.frame_max ∧ s1.pool_table = s.pool_table := by
  obtain ⟨hA, hst, hb, ho, ht, hH⟩ := hs
  simp only [HEADER_SIZE] at hA ht
  have hne' : data.length ≠ 0 := by omega
  have hsub : size_sub 7 A.length = 7 - A.length :=
    size_sub_eq _ _ (by omega) (by simp only [SIZE_MOD]; omega)
  have hmin : (if data.length < 7 - A.length then data.length else 7 - A.length) = 7 - A.length := by
    split <;> omega
  have hsa : size_add A.length (7 - A.length) = 7 :=
    (size_add_eq _ _ (by simp only [SIZE_MOD]; omega)).trans (by omega)
  have hsl : (data.take (7 - A.length)).length = 7 - A.length := by
    simp; omega
  have hw : (mem_write s.header_buffer A.length (data.take (7 - A.length))).take 7
      = A ++ data.take (7 - A.length) := by
    have := mem_write_take s.header_buffer (data.take (7 - A.length)) A A.length hH rfl
    rw [hsl] at this
    have h7 : A.length + (7 - A.length) = 7 := by omega
    rwa [h7] at this
  refine ⟨{ s with
      state := CONNECTION_STATE_HEADER,
      header_buffer := mem_write s.header_buffer A.length (data.take (7 - A.length)),
      inbound_offset := 7 }, ?_, hb, rfl, hw, rfl, rfl⟩
  unfold amqp_handle_input
  simp only [hne', if_false]
  rcases hst with hst | hst <;>
    simp [hst, consume_data, ht, ho, hsub, hmin, hsa, inbound_write, hb]

theorem consume_data_state (s : amqp_connection_state_t) (data : List Nat) :
    (consume_data s data).2.1.state = s.state := by
  unfold consume_data inbound_write
  cases s.inbound_buffer.bytes <;> rfl

theorem handle_input_body_stage {M P : Type} (codec : amqp_codec M P) (heap : amqp_heap)
    (s : amqp_connection_state_t) (data A : List Nat) (T : Nat) (frame : amqp_frame_t M P)
    (hs : body_stage T A s) (hne : data ≠ []) :
    ∃ (s2 : amqp_connection_state_t) (n : Nat),
      amqp_handle_input codec heap s data frame =
        (if s2.inbound_offset < s2.target_size then
          { ret := int_of_size_t n, state := s2, decoded_frame := { frame with frame_type := 0 } }
         else amqp_handle_input_BODY codec heap s2 n { frame with frame_type := 0 }) ∧
      n = min data.length (T - A.length) ∧
      s2.state = CONNECTION_STATE_BODY ∧
      s2.inbound_buffer.bytes = amqp_bytes_ptr.block (inbound_bytes s2) ∧
      (inbound_bytes s2).length = T ∧
      (inbound_bytes s2).take (A.length + n) = A ++ data.take n ∧
      s2.inbound_offset = A.length + n ∧ s2.target_size = T ∧
      s2.frame_max = s.frame_max := by
  obtain ⟨hA, hAT, hT, hst, hb, hl, ho, ht, hH⟩ := hs
  generalize inbound_bytes s = d at hb hl hH
  have hne' : data.length ≠ 0 := by
    intro h; exact hne (List.length_eq_zero.mp h)
  have hsub : size_sub T A.length = T - A.length :=
    size_sub_eq _ _ (by omega) (by simp only [SIZE_MOD]; omega)
  have hmin : (if data.length < T - A.length then data.length else T - A.length)
      = min data.length (T - A.length) := by
    split <;> omega
  have hsa : size_add A.length (min data.length (T - A.length))
      = A.length + min data.length (T - A.length) :=
    size_add_eq _ _ (by simp only [SIZE_MOD]; omega)
  have hsl : (data.take (min data.length (T - A.length))).length
      = min data.length (T - A.length) := by simp
  have hwl : (mem_write d A.length
      (data.take (min data.length (T - A.length)))).length = T := by
    rw [mem_write_length _ _ _ (by rw [hl, hsl]; omega), hl]
  have hwt : (mem_write d A.length
      (data.take (min data.length (T - A.length)))).take (A.length + min data.length (T - A.length))
        = A ++ data.take (min data.length (T - A.length)) := by
    have := mem_write_take d (data.take (min data.length (T - A.length))) A
      A.length hH rfl
    rwa [hsl] at this
  refine ⟨(consume_data s data).2.1, (consume_data s data).1, ?_, ?_, ?_, ?_, ?_, ?_, ?_, ?_, ?_⟩
  · unfold amqp_handle_input
    simp only [hne', if_false, hst, reduceCtorEq, consume_data_state]
  · simp [consume_data, hsub, ho, ht, hmin]
  · simp [consume_data, hsub, ho, ht, hmin, inbound_write, hb, hst]
  · simp [consume_data, hsub, ho, ht, hmin, inbound_write, hb, inbound_bytes]
  · simp only [consume_data, hsub, ho, ht, hmin, inbound_write, hb, inbound_bytes]
    exact hwl
  · simp only [consume_data, hsub, ho, ht, hmin, inbound_write, hb, inbound_bytes]
    exact hwt
  · simp [consume_data, hsub, ho, ht, hmin, inbound_write, hb, hsa]
  · simp [consume_data, hsub, ho, ht, hmin, inbound_write, hb]
  · simp [consume_data, hsub, ho, ht, hmin, inbound_write, hb]

theorem body_arm_bad_footer {M P : Type} (codec : amqp_codec M P) (heap : amqp_heap)
    (s : amqp_connection_state_t) (bc : Nat) (frame : amqp_frame_t M P)
    (hf : amqp_d8 (inbound_bytes s) (size_sub s.target_size 1) ≠ AMQP_FRAME_END) :
    amqp_handle_input_BODY codec heap s bc frame =
      { ret := AMQP_STATUS_BAD_AMQP_DATA, state := s, decoded_frame := frame } := by
  unfold amqp_handle_input_BODY
  simp only [hf, ne_eq, not_false_eq_true, if_true]

theorem body_arm_body {M P : Type} (codec : amqp_codec M P) (heap : amqp_heap)
    (s : amqp_connection_state_t) (bc : Nat) (frame : amqp_frame_t M P)
    (hm : heap.malloc_entry = true)
    (hf : amqp_d8 (inbound_bytes s) (size_sub s.target_size 1) = AMQP_FRAME_END)
    (hty : amqp_d8 (inbound_bytes s) 0 = AMQP_FRAME_BODY) :
    amqp_handle_input_BODY codec heap s bc frame =
      { ret := int_of_size_t bc,
        state := return_to_idle
          { s with pool_table := ensured_pool_table s (amqp_d16 (inbound_bytes s) 1) },
        decoded_frame := { frame with
          frame_type := AMQP_FRAME_BODY,
          channel := amqp_d16 (inbound_bytes s) 1,
          payload_body_fragment := amqp_bytes_at (inbound_bytes s) HEADER_SIZE
            (size_sub (size_sub s.target_size HEADER_SIZE) FOOTER_SIZE) } } := by
  unfold amqp_handle_input_BODY
  simp [hf, hty, get_or_create_eq _ _ _ hm]

theorem body_arm_method {M P : Type} (codec : amqp_codec M P) (heap : amqp_heap)
    (s : amqp_connection_state_t) (bc : Nat) (frame : amqp_frame_t M P)
    (hm : heap.malloc_entry = true)
    (hf : amqp_d8 (inbound_bytes s) (size_sub s.target_size 1) = AMQP_FRAME_END)
    (hty : amqp_d8 (inbound_bytes s) 0 = AMQP_FRAME_METHOD)
    (hok : 0 ≤ (codec.decode_method (amqp_d32 (inbound_bytes s) HEADER_SIZE)
      (channel_pool_of { s with pool_table := ensured_pool_table s (amqp_d16 (inbound_bytes s) 1) }
        (amqp_d16 (inbound_bytes s) 1))
      (amqp_bytes_at (inbound_bytes s) (HEADER_SIZE + 4)
        (size_sub (size_sub (size_sub s.target_size HEADER_SIZE) 4) FOOTER_SIZE))).1) :
    (amqp_handle_input_BODY codec heap s bc frame).ret = int_of_size_t bc ∧
    at_frame_boundary (amqp_handle_input_BODY codec heap s bc frame).state ∧
    (amqp_handle_input_BODY codec heap s bc frame).state.frame_max = s.frame_max ∧
    (amqp_handle_input_BODY codec heap s bc frame).decoded_frame =
      { frame with
        frame_type := AMQP_FRAME_METHOD,
        channel := amqp_d16 (inbound_bytes s) 1,
        payload_method_id := amqp_d32 (inbound_bytes s) HEADER_SIZE,
        payload_method_decoded :=
          (codec.decode_method (amqp_d32 (inbound_bytes s) HEADER_SIZE)
            (channel_pool_of
              { s with pool_table := ensured_pool_table s (amqp_d16 (inbound_bytes s) 1) }
              (amqp_d16 (inbound_bytes s) 1))
            (amqp_bytes_at (inbound_bytes s) (HEADER_SIZE + 4)
              (size_sub (size_sub (size_sub s.target_size HEADER_SIZE) 4) FOOTER_SIZE))).2.2 } := by
  unfold amqp_handle_input_BODY
  simp only [hf, hty, get_or_create_eq _ _ _ hm, ne_eq, not_true_eq_false, if_false, if_true,
    not_lt.mpr hok]
  simp [at_frame_boundary, return_to_idle, set_channel_pool]

theorem amqp_d32_take (X : List Nat) (n i : Nat) (h : i + 3 < n) :
    amqp_d32 (X.take n) i = amqp_d32 X i := by
  simp only [amqp_d32, amqp_d16]
  rw [amqp_d8_take _ _ _ (by omega), amqp_d8_take _ _ _ (by omega),
    amqp_d8_take _ _ _ (by omega), amqp_d8_take _ _ _ (by omega)]

theorem handle_input_piece {M P : Type} (codec : amqp_codec M P) (heap : amqp_heap)
    (s : amqp_connection_state_t) (W data : List Nat) (k : Nat) (frame : amqp_frame_t M P)
    (hm : heap.malloc_entry = true) (ha : heap.pool_alloc W.length = true)
    (hW8 : 8 ≤ W.length) (hWl : amqp_d32 W 3 + 8 = W.length)
    (hWF : W.length ≤ size_t_of_int s.frame_max) (hW31 : W.length < 2147483648)
    (hr : receiving W k s) (hne : data ≠ [])
    (hkm : k + data.length ≤ W.length)
    (hseg : W.take (k + data.length) = W.take k ++ data) :
    (k + data.length < W.length →
      (amqp_handle_input codec heap s data frame).ret = (data.length : Int) ∧
      (amqp_handle_input codec heap s data frame).decoded_frame = { frame with frame_type := 0 } ∧
      receiving W (k + data.length) (amqp_handle_input codec heap s data frame).state ∧
      (amqp_handle_input codec heap s data frame).state.frame_max = s.frame_max) ∧
    (k + data.length = W.length →
      ∃ (s2 : amqp_connection_state_t) (bc : Nat),
        amqp_handle_input codec heap s data frame =
          amqp_handle_input_BODY codec heap s2 bc { frame with frame_type := 0 } ∧
        int_of_size_t bc = (data.length : Int) ∧ frame_complete W s2 ∧
        s2.frame_max = s.frame_max) := by
  have hpos : 0 < data.length := List.length_pos.mpr hne
  have hkl : (W.take k).length = k := by simp; omega
  unfold receiving at hr
  by_cases hk : k < 7
  · simp only [HEADER_SIZE, hk, if_true] at hr
    by_cases hshort : k + data.length < 7
    · have h := handle_input_header_short codec heap s data (W.take k) frame hr hne
        (by rw [hkl]; exact hshort)
      obtain ⟨h1, h2, h3, h4, -⟩ := h
      constructor
      · intro _
        refine ⟨h1, h2, ?_, h4⟩
        unfold receiving
        simp only [HEADER_SIZE, hshort, if_true]
        rw [hseg]
        exact h3
      · intro h; omega
    · have h7 : 7 ≤ (W.take k).length + data.length := by rw [hkl]; omega
      obtain ⟨s1, e1, hb1, ho1, hH1, hF1, -⟩ :=
        handle_input_header_reach codec heap s data (W.take k) frame hr h7
      rw [hkl] at hH1 e1
      have hW7 : W.take 7 = W.take k ++ data.take (7 - k) := by
        calc W.take 7 = (W.take (k + data.length)).take 7 := by
              rw [List.take_take, min_eq_left (by omega)]
          _ = (W.take k ++ data).take 7 := by rw [hseg]
          _ = (W.take k).take 7 ++ data.take (7 - k) := by
              rw [List.take_append_eq_append_take, hkl]
          _ = W.take k ++ data.take (7 - k) := by
              rw [List.take_take, min_eq_right (by omega)]
      rw [← hW7] at hH1
      have hH7 : (W.take 7).length = 7 := by simp; omega
      obtain ⟨s2, n, e2, hn, hst2, hb2, hl2, ht2, ho2, hT2, hF2⟩ :=
        header_arm_accept codec heap s1 (data.drop (7 - k)) (7 - k) { frame with frame_type := 0 }
          (W.take 7) W.length hb1 ho1 hH1 hH7 hm
          (by rw [amqp_d32_take _ _ _ (by omega)]; exact hWl) (by rw [hF1]; exact hWF) ha
      have hn' : n = data.length - (7 - k) := by
        rw [hn]; simp; omega
      have hbc : size_add (7 - k) n = data.length := by
        rw [size_add_eq _ _ (by simp only [SIZE_MOD]; omega)]; omega
      have hdl : (data.drop (7 - k)).length ≤ n := by rw [List.length_drop]; omega
      have hcontent : W.take 7 ++ (data.drop (7 - k)).take n = W.take (k + data.length) := by
        calc W.take 7 ++ (data.drop (7 - k)).take n
            = W.take 7 ++ data.drop (7 - k) := by
              rw [List.take_of_length_le hdl]
          _ = W.take k ++ (data.take (7 - k) ++ data.drop (7 - k)) := by
              rw [hW7, List.append_assoc]
          _ = W.take k ++ data := by rw [List.take_append_drop]
          _ = W.take (k + data.length) := hseg.symm
      rw [hcontent] at ht2
      have h7n : 7 + n = k + data.length := by omega
      rw [h7n] at ht2 ho2
      rw [e1, e2, hbc, ho2, hT2]
      constructor
      · intro hlt
        rw [if_pos hlt]
        refine ⟨int_of_size_t_eq _ (by omega), rfl, ?_, by rw [hF2, hF1]⟩
        unfold receiving
        have : ¬ (k + data.length < HEADER_SIZE) := by simp only [HEADER_SIZE]; omega
        simp only [this, if_false]
        refine ⟨by simp; omega, by simp; omega, hW31, hst2, hb2, hl2, ?_, hT2, ?_⟩
        · rw [ho2]; simp; omega
        · have : (W.take (k + data.length)).length = k + data.length := by simp; omega
          rw [this]; exact ht2
      · intro heq
        have : ¬ (k + data.length < W.length) := by omega
        rw [if_neg this]
        refine ⟨s2, data.length, rfl, int_of_size_t_eq _ (by omega), ?_, by rw [hF2, hF1]⟩
        refine ⟨hW8, hW31, hst2, ?_, by rw [ho2, heq], hT2⟩
        rw [heq, List.take_of_length_le (le_refl _)] at ht2
        rw [← ht2, List.take_of_length_le (by rw [hl2])]
  · simp only [HEADER_SIZE, hk, if_false] at hr
    obtain ⟨s2, n, e2, hn, hst2, hb2, hl2, ht2, ho2, hT2, hF2⟩ :=
      handle_input_body_stage codec heap s data (W.take k) W.length frame hr hne
    rw [hkl] at ht2 ho2 hn
    have hn' : n = data.length := by rw [hn]; simp; omega
    subst hn'
    rw [List.take_of_length_le (le_refl _), ← hseg] at ht2
    rw [e2, ho2, hT2]
    constructor
    · intro hlt
      rw [if_pos hlt]
      refine ⟨int_of_size_t_eq _ (by omega), rfl, ?_, hF2⟩
      unfold receiving
      have : ¬ (k + data.length < HEADER_SIZE) := by simp only [HEADER_SIZE]; omega
      simp only [this, if_false]
      refine ⟨by simp; omega, by simp; omega, hW31, hst2, hb2, hl2, ?_, hT2, ?_⟩
      · rw [ho2]; simp; omega
      · have : (W.take (k + data.length)).length = k + data.length := by simp; omega
        rw [this]; exact ht2
    · intro heq
      have : ¬ (k + data.length < W.length) := by omega
      rw [if_neg this]
      refine ⟨s2, data.length, rfl, int_of_size_t_eq _ (by omega), ?_, hF2⟩
      refine ⟨hW8, hW31, hst2, ?_, by rw [ho2, heq], hT2⟩
      rw [heq, List.take_of_length_le (le_refl _)] at ht2
      rw [← ht2, List.take_of_length_le (by rw [hl2])]

/-! ## The caller loop over the pieces of one frame -/

theorem consumed_sum (m k n : Nat) (h : k + m ≤ n) : m + (n - (k + m)) = n - k := by
  omega

theorem caller_loop_full {M P : Type} (codec : amqp_codec M P) (heap : amqp_heap)
    (fuel : Nat) (s : amqp_connection_state_t) (data : List Nat) (frame : amqp_frame_t M P)
    (hne : data ≠ [])
    (hret : (amqp_handle_input codec heap s data frame).ret = (data.length : Int)) :
    caller_loop codec heap (fuel + 2) s data frame =
      { frames :=
          if (amqp_handle_input codec heap s data frame).decoded_frame.frame_type = 0 then []
          else [(amqp_handle_input codec heap s data frame).decoded_frame],
        error := none,
        consumed := data.length,
        state := (amqp_handle_input codec heap s data frame).state,
        decoded_frame := (amqp_handle_input codec heap s data frame).decoded_frame } := by
  have hne' : data.length ≠ 0 := by
    intro h; exact hne (List.length_eq_zero.mp h)
  have hnn : ¬ ((data.length : Int) < 0) := by omega
  simp only [caller_loop, hne', if_false, hret, hnn, List.drop_length, List.length_nil, if_true,
    List.append_nil, Int.toNat_ofNat, Nat.add_zero]

theorem caller_chunks_one_frame {M P : Type} (codec : amqp_codec M P) (heap : amqp_heap)
    (W : List Nat) (F : Int) (Good : amqp_frame_t M P → Prop)
    (hm : heap.malloc_entry = true) (ha : heap.pool_alloc W.length = true)
    (hW8 : 8 ≤ W.length) (hWl : amqp_d32 W 3 + 8 = W.length)
    (hWF : W.length ≤ size_t_of_int F) (hW31 : W.length < 2147483648)
    (hdone : ∀ (s2 : amqp_connection_state_t) (bc : Nat) (fr : amqp_frame_t M P),
      frame_complete W s2 → s2.frame_max = F →
        (amqp_handle_input_BODY codec heap s2 bc fr).ret = int_of_size_t bc ∧
        (amqp_handle_input_BODY codec heap s2 bc fr).decoded_frame.frame_type ≠ 0 ∧
        Good (amqp_handle_input_BODY codec heap s2 bc fr).decoded_frame ∧
        at_frame_boundary (amqp_handle_input_BODY codec heap s2 bc fr).state ∧
        (amqp_handle_input_BODY codec heap s2 bc fr).state.frame_max = F) :
    ∀ (chunks : List (List Nat)) (k : Nat) (s : amqp_connection_state_t)
      (frame : amqp_frame_t M P),
      receiving W k s → s.frame_max = F → k < W.length → chunks.flatten = W.drop k →
      (∀ c ∈ chunks, c ≠ []) →
        (caller_chunks codec heap s chunks frame).error = none ∧
        (∃ f, (caller_chunks codec heap s chunks frame).frames = [f] ∧ Good f) ∧
        (caller_chunks codec heap s chunks frame).consumed = W.length - k ∧
        at_frame_boundary (caller_chunks codec heap s chunks frame).state ∧
        (caller_chunks codec heap s chunks frame).state.frame_max = F := by
  intro chunks
  induction chunks with
  | nil =>
    intro k s frame _ _ hk hj _
    simp at hj
    omega
  | cons chunk rest ih =>
    intro k s frame hr hF hk hj hall
    have hcne : chunk ≠ [] := hall chunk (List.mem_cons_self _ _)
    have hpos : 0 < chunk.length := List.length_pos.mpr hcne
    have hj' : W.drop k = chunk ++ rest.flatten := by rw [← hj]; simp
    have hlen : chunk.length + rest.flatten.length = W.length - k := by
      have := congrArg List.length hj'
      rw [List.length_drop, List.length_append] at this
      omega
    have hkm : k + chunk.length ≤ W.length := by omega
    have hseg : W.take (k + chunk.length) = W.take k ++ chunk := by
      rw [List.take_add, hj', List.take_left]
    have hrestj : rest.flatten = W.drop (k + chunk.length) := by
      rw [← List.drop_drop, hj', List.drop_left]
    obtain ⟨hp1, hp2⟩ := handle_input_piece codec heap s W chunk k frame hm ha hW8 hWl
      (by rw [hF]; exact hWF) hW31 hr hcne hkm hseg
    by_cases hlt : k + chunk.length < W.length
    · obtain ⟨h1, h2, h3, h4⟩ := hp1 hlt
      have hcl := caller_loop_full codec heap (2 * chunk.length) s chunk frame hcne h1
      have hft : (amqp_handle_input codec heap s chunk frame).decoded_frame.frame_type = 0 := by
        rw [h2]
      obtain ⟨i1, i2, i3, i4, i5⟩ := ih (k + chunk.length)
        (amqp_handle_input codec heap s chunk frame).state
        (amqp_handle_input codec heap s chunk frame).decoded_frame h3 (by rw [h4, hF]) hlt hrestj
        (fun c hc => hall c (List.mem_cons_of_mem _ hc))
      simp only [caller_chunks, hcl, hft, if_true, List.nil_append]
      refine ⟨i1, i2, ?_, i4, i5⟩
      rw [i3]
      exact consumed_sum _ _ _ hkm
    · have heq : k + chunk.length = W.length := by omega
      obtain ⟨s2, bc, e, hbc, hfc, hF2⟩ := hp2 heq
      obtain ⟨d1, d2, d3, d4, d5⟩ := hdone s2 bc { frame with frame_type := 0 } hfc
        (by rw [hF2, hF])
      have hret : (amqp_handle_input codec heap s chunk frame).ret = (chunk.length : Int) := by
        rw [e, d1, hbc]
      have hcl := caller_loop_full codec heap (2 * chunk.length) s chunk frame hcne hret
      have hrest : rest = [] := by
        have hnil : rest.flatten = [] := by
          rw [hrestj, heq]; simp
        cases rest with
        | nil => rfl
        | cons c cs =>
          exfalso
          have hc := hall c (List.mem_cons_of_mem _ (List.mem_cons_self _ _))
          simp at hnil
          exact hc hnil.1
      subst hrest
      rw [← e] at d2 d3 d4 d5
      simp only [caller_chunks, hcl, d2, if_false, List.append_nil, Nat.add_zero]
      refine ⟨trivial, ⟨_, rfl, d3⟩, by omega, d4, d5⟩

/-! ## The wire image of a frame -/

theorem wire_frame_length (t c : Nat) (pl : List Nat) :
    (wire_frame t c pl).length = pl.length + 8 := by
  simp [wire_frame, be16, be32]

theorem wire_frame_type (t c : Nat) (pl : List Nat) :
    amqp_d8 (wire_frame t c pl) 0 = t % 256 := by
  simp [wire_frame, be16, be32, amqp_d8]

theorem wire_frame_channel (t c : Nat) (pl : List Nat) :
    amqp_d16 (wire_frame t c pl) 1 = c % 65536 := by
  simp [wire_frame, be16, be32, amqp_d8, amqp_d16]
  omega

theorem wire_frame_payload_length (t c : Nat) (pl : List Nat) :
    amqp_d32 (wire_frame t c pl) 3 = pl.length % 4294967296 := by
  simp [wire_frame, be16, be32, amqp_d8, amqp_d16, amqp_d32]
  omega

theorem wire_frame_end (t c : Nat) (pl : List Nat) :
    amqp_d8 (wire_frame t c pl) (pl.length + 7) = AMQP_FRAME_END := by
  have h : wire_frame t c pl = ([t % 256] ++ be16 c ++ be32 pl.length ++ pl) ++ [AMQP_FRAME_END] := rfl
  have hl : ([t % 256] ++ be16 c ++ be32 pl.length ++ pl).length = pl.length + 7 := by
    simp [be16, be32]
  rw [h, amqp_d8, List.getD_eq_getElem?_getD, ← hl, List.getElem?_append_right (le_refl _)]
  simp

theorem wire_frame_payload (t c : Nat) (pl : List Nat) :
    amqp_bytes_at (wire_frame t c pl) 7 pl.length = { len := pl.length, bytes := pl } := by
  have h : wire_frame t c pl = ([t % 256] ++ be16 c ++ be32 pl.length) ++ (pl ++ [AMQP_FRAME_END]) := by
    simp [wire_frame]
  have hl : ([t % 256] ++ be16 c ++ be32 pl.length).length = 7 := by
    simp [be16, be32]
  unfold amqp_bytes_at
  rw [h, ← hl, List.drop_left, List.take_left]

theorem frame_header_take (buf : List Nat) (t c n : Nat) :
    (amqp_e32 (amqp_e16 (amqp_e8 buf 0 t) 1 c) 3 n).take 7 = [t % 256] ++ be16 c ++ be32 n := by
  have h1 : (amqp_e8 buf 0 t).take 1 = [t % 256] := by
    have := mem_write_take buf [t % 256] [] 0 (by simp) (by simp)
    simpa [amqp_e8] using this
  have h2 : (amqp_e16 (amqp_e8 buf 0 t) 1 c).take 3 = [t % 256] ++ be16 c := by
    have := mem_write_take (amqp_e8 buf 0 t) (be16 c) [t % 256] 1 h1 (by simp)
    simpa [amqp_e16, be16] using this
  have := mem_write_take (amqp_e16 (amqp_e8 buf 0 t) 1 c) (be32 n) ([t % 256] ++ be16 c) 3 h2
    (by simp [be16])
  simpa [amqp_e32, be16, be32] using this

/-! ## Round trips -/

theorem send_frame_epilogue_socket (now : Nat) (s : amqp_connection_state_t) (res : Int) :
    (send_frame_epilogue now s res).2.socket = s.socket := by
  unfold send_frame_epilogue
  split
  · split <;> rfl
  · rfl

theorem send_frame_body_sent {M P : Type} (codec : amqp_codec M P) (now : Nat)
    (tx : amqp_connection_state_t) (frame : amqp_frame_t M P) (B : List Nat)
    (hty : frame.frame_type = AMQP_FRAME_BODY)
    (hbody : frame.payload_body_fragment = { len := B.length, bytes := B }) :
    sent_by tx (amqp_send_frame codec now tx frame).2 = wire_frame AMQP_FRAME_BODY frame.channel B := by
  have hh := frame_header_take tx.outbound_buffer.bytes AMQP_FRAME_BODY frame.channel B.length
  unfold sent_by amqp_send_frame
  simp only [hty, if_true, send_frame_epilogue_socket, amqp_socket_writev, hbody, hh]
  simp [wire_frame]

theorem receiving_start (W : List Nat) (s : amqp_connection_state_t)
    (h : at_frame_boundary s) : receiving W 0 s := by
  obtain ⟨h1, h2, h3, h4⟩ := h
  unfold receiving header_stage
  simp [h1, h2, h3, h4]

theorem frame_complete_footer (W : List Nat) (s : amqp_connection_state_t)
    (h : frame_complete W s) :
    amqp_d8 (inbound_bytes s) (size_sub s.target_size 1) = amqp_d8 W (W.length - 1) := by
  obtain ⟨h1, h2, -, h4, -, h6⟩ := h
  simp only [HEADER_SIZE, FOOTER_SIZE] at h1
  rw [h4, h6, size_sub_eq _ _ (by omega) (by simp only [SIZE_MOD]; omega)]

theorem frame_complete_wire (t c : Nat) (pl : List Nat) (s : amqp_connection_state_t)
    (h : frame_complete (wire_frame t c pl) s) :
    inbound_bytes s = wire_frame t c pl ∧ s.target_size = pl.length + 8 ∧
    amqp_d8 (inbound_bytes s) (size_sub s.target_size 1) = AMQP_FRAME_END ∧
    amqp_d8 (inbound_bytes s) 0 = t % 256 ∧
    amqp_d16 (inbound_bytes s) 1 = c % 65536 := by
  have hfoot := frame_complete_footer _ _ h
  obtain ⟨-, -, -, h4, -, h6⟩ := h
  rw [wire_frame_length] at h6 hfoot
  have e : pl.length + 8 - 1 = pl.length + 7 := by omega
  rw [e, wire_frame_end] at hfoot
  refine ⟨h4, h6, hfoot, ?_, ?_⟩
  · rw [h4, wire_frame_type]
  · rw [h4, wire_frame_channel]

theorem return_to_idle_boundary (s : amqp_connection_state_t) :
    at_frame_boundary (return_to_idle s) ∧ (return_to_idle s).frame_max = s.frame_max := by
  simp [at_frame_boundary, return_to_idle]

/-- C2: the bytes `amqp_send_frame` hands to the transport for a BODY frame on channel
`c` with fragment `B` (where `|B| + 8 ≤ frame_max` of the receiver), fed to
`amqp_handle_input` on an idle connection under any split into non-empty chunks, give
exactly one decoded frame: type BODY, channel `c`, fragment `B` of length `|B|`; the
calls consume `|B| + 8` octets in total and leave the connection at a frame boundary. -/
theorem body_round_trip {M P : Type} (codec : amqp_codec M P) (heap : amqp_heap) (now : Nat)
    (tx rx : amqp_connection_state_t) (txframe outframe : amqp_frame_t M P)
    (c : Nat) (B : List Nat) (chunks : List (List Nat))
    (hty : txframe.frame_type = AMQP_FRAME_BODY) (hch : txframe.channel = c)
    (hc : c < 65536)
    (hbody : txframe.payload_body_fragment = { len := B.length, bytes := B })
    (hfit : (B.length : Int) + 8 ≤ rx.frame_max) (hint : rx.frame_max < 2147483648)
    (hidle : at_frame_boundary rx)
    (hm : heap.malloc_entry = true) (ha : heap.pool_alloc (B.length + 8) = true)
    (hsplit : chunks.flatten = sent_by tx (amqp_send_frame codec now tx txframe).2)
    (hne : ∀ ch ∈ chunks, ch ≠ []) :
    (caller_chunks codec heap rx chunks outframe).error = none ∧
    (caller_chunks codec heap rx chunks outframe).frames.map amqp_frame_t.frame_type
      = [AMQP_FRAME_BODY] ∧
    (caller_chunks codec heap rx chunks outframe).frames.map amqp_frame_t.channel = [c] ∧
    (caller_chunks codec heap rx chunks outframe).frames.map amqp_frame_t.payload_body_fragment
      = [{ len := B.length, bytes := B }] ∧
    (caller_chunks codec heap rx chunks outframe).consumed = B.length + 8 ∧
    at_frame_boundary (caller_chunks codec heap rx chunks outframe).state := by
  rw [send_frame_body_sent codec now tx txframe B hty hbody, hch] at hsplit
  have hWlen := wire_frame_length AMQP_FRAME_BODY c B
  have hB31 : B.length + 8 < 2147483648 := by omega
  have hWF : (wire_frame AMQP_FRAME_BODY c B).length ≤ size_t_of_int rx.frame_max := by
    rw [hWlen, size_t_of_int_eq _ (by omega) (by omega)]
    omega
  have hWl : amqp_d32 (wire_frame AMQP_FRAME_BODY c B) 3 + 8
      = (wire_frame AMQP_FRAME_BODY c B).length := by
    rw [wire_frame_payload_length, hWlen, Nat.mod_eq_of_lt (by omega)]
  have key := caller_chunks_one_frame codec heap (wire_frame AMQP_FRAME_BODY c B) rx.frame_max
    (fun f => f.frame_type = AMQP_FRAME_BODY ∧ f.channel = c ∧
      f.payload_body_fragment = { len := B.length, bytes := B })
    hm (by rw [hWlen]; exact ha) (by omega) hWl hWF (by omega)
    (by
      intro s2 bc fr hfc hF
      obtain ⟨w1, w2, w3, w4, w5⟩ := frame_complete_wire _ _ _ _ hfc
      have w4' : amqp_d8 (inbound_bytes s2) 0 = AMQP_FRAME_BODY := w4
      have hsz : size_sub (size_sub s2.target_size HEADER_SIZE) FOOTER_SIZE = B.length := by
        have e1 : size_sub (B.length + 8) 7 = B.length + 1 := by
          rw [size_sub_eq _ _ (by omega) (by simp only [SIZE_MOD]; omega)]; omega
        have e2 : size_sub (B.length + 1) 1 = B.length := by
          rw [size_sub_eq _ _ (by omega) (by simp only [SIZE_MOD]; omega)]; omega
        rw [w2]
        show size_sub (size_sub (B.length + 8) 7) 1 = B.length
        rw [e1, e2]
      rw [body_arm_body codec heap s2 bc fr hm w3 w4', hsz, w5, w1, wire_frame_payload,
        Nat.mod_eq_of_lt hc]
      refine ⟨rfl, by simp, ⟨rfl, rfl, rfl⟩, (return_to_idle_boundary _).1, ?_⟩
      rw [(return_to_idle_boundary _).2]
      exact hF)
    chunks 0 rx outframe (receiving_start _ _ hidle) rfl (by omega) (by simpa using hsplit) hne
  obtain ⟨k1, ⟨f, k2, k3, k4, k5⟩, k6, k7, -⟩ := key
  refine ⟨k1, ?_, ?_, ?_, ?_, k7⟩
  · rw [k2]; simp [k3]
  · rw [k2]; simp [k4]
  · rw [k2]; simp [k5]
  · rw [k6, hWlen]; rfl

/-- Witness for C2: the minimum-body frame of channel 1 with fragment `41 42 43`, sent
by `amqp_send_frame` and fed back in the three pieces of the split-delivery scenario. -/
theorem body_round_trip_witness :
    (caller_chunks raw_codec (plentiful_heap 0) (idle_connection 4096)
        [[3, 0, 1, 0], [0, 0, 3, 65], [66, 67, 206]] blank_frame).error = none ∧
    (caller_chunks raw_codec (plentiful_heap 0) (idle_connection 4096)
        [[3, 0, 1, 0], [0, 0, 3, 65], [66, 67, 206]] blank_frame).frames.map
          amqp_frame_t.frame_type = [AMQP_FRAME_BODY] ∧
    (caller_chunks raw_codec (plentiful_heap 0) (idle_connection 4096)
        [[3, 0, 1, 0], [0, 0, 3, 65], [66, 67, 206]] blank_frame).frames.map
          amqp_frame_t.channel = [1] ∧
    (caller_chunks raw_codec (plentiful_heap 0) (idle_connection 4096)
        [[3, 0, 1, 0], [0, 0, 3, 65], [66, 67, 206]] blank_frame).frames.map
          amqp_frame_t.payload_body_fragment = [{ len := 3, bytes := [65, 66, 67] }] ∧
    (caller_chunks raw_codec (plentiful_heap 0) (idle_connection 4096)
        [[3, 0, 1, 0], [0, 0, 3, 65], [66, 67, 206]] blank_frame).consumed = 3 + 8 ∧
    at_frame_boundary (caller_chunks raw_codec (plentiful_heap 0) (idle_connection 4096)
        [[3, 0, 1, 0], [0, 0, 3, 65], [66, 67, 206]] blank_frame).state :=
  body_round_trip raw_codec (plentiful_heap 0) 0 (idle_connection 16) (idle_connection 4096)
    minimum_body_frame blank_frame 1 [65, 66, 67] [[3, 0, 1, 0], [0, 0, 3, 65], [66, 67, 206]]
    rfl rfl (by decide) rfl (by decide) (by decide) ⟨rfl, rfl, rfl, rfl⟩ rfl rfl
    (by decide) (by decide)

/-! ## Building a non-body frame in the outbound buffer -/

theorem mem_write_length_ge (mem src : List Nat) (off : Nat) :
    off + src.length ≤ (mem_write mem off src).length := by
  simp [mem_write]
  omega

theorem mem_write_take_pad (mem src : List Nat) (off : Nat) :
    (mem_write mem off src).take (off + src.length)
      = (mem.take off ++ List.replicate (off - mem.length) 0) ++ src := by
  unfold mem_write
  have hl : (mem.take off ++ List.replicate (off - mem.length) 0 ++ src).length
      = off + src.length := by
    simp
    omega
  rw [← hl, List.take_left]

theorem mem_write_take_le (mem src : List Nat) (off k : Nat) (hk : k ≤ off)
    (hm : k ≤ mem.length) : (mem_write mem off src).take k = mem.take k := by
  unfold mem_write
  rw [List.append_assoc, List.append_assoc, List.take_append_of_le_length (by simp; omega),
    List.take_take, min_eq_left hk]

theorem mem_write_drop (mem src : List Nat) (off : Nat) (h : off + src.length ≤ mem.length) :
    (mem_write mem off src).drop (off + src.length) = mem.drop (off + src.length) := by
  unfold mem_write
  have h0 : off - mem.length = 0 := by omega
  have hl : (mem.take off ++ List.replicate (off - mem.length) 0 ++ src).length
      = off + src.length := by
    simp
    omega
  rw [← hl, List.drop_left, hl]

theorem be16_length (v : Nat) : (be16 v).length = 2 := rfl

theorem be32_length (v : Nat) : (be32 v).length = 4 := rfl

theorem non_body_image (buf R : List Nat) (t c id n res : Nat) (hR : res ≤ R.length)
    (hn : n = res + 4) :
    (amqp_e8 (amqp_e32 (mem_write (amqp_e32 (amqp_e16 (amqp_e8 buf 0 t) 1 c) 7 id) 11 R) 3 n)
        (n + 7) AMQP_FRAME_END).take (n + 7 + 1)
      = wire_frame t c (be32 id ++ R.take res) := by
  subst hn
  -- the first three octets
  have h3 : (amqp_e16 (amqp_e8 buf 0 t) 1 c).take 3 = [t % 256] ++ be16 c := by
    have h1 : (amqp_e8 buf 0 t).take 1 = [t % 256] := by
      have := mem_write_take buf [t % 256] [] 0 (by simp) (by simp)
      simpa [amqp_e8] using this
    have := mem_write_take (amqp_e8 buf 0 t) (be16 c) [t % 256] 1 h1 (by simp)
    simpa [amqp_e16, be16] using this
  have hl3 : 3 ≤ (amqp_e16 (amqp_e8 buf 0 t) 1 c).length := by
    have := congrArg List.length h3
    simp [be16] at this
    omega
  generalize amqp_e16 (amqp_e8 buf 0 t) 1 c = o1 at h3 hl3
  -- the method id at offset 7
  have ha11 := mem_write_take_pad o1 (be32 id) 7
  have hal : 11 ≤ (amqp_e32 o1 7 id).length := mem_write_length_ge o1 (be32 id) 7
  have ha3 : (amqp_e32 o1 7 id).take 3 = [t % 256] ++ be16 c := by
    rw [amqp_e32, mem_write_take_le _ _ _ _ (by omega) hl3, h3]
  rw [be32_length] at ha11
  change (amqp_e32 o1 7 id).take 11 = _ at ha11
  generalize amqp_e32 o1 7 id = oa at ha11 hal ha3
  have hZl : (o1.take 7 ++ List.replicate (7 - o1.length) 0).length = 7 := by
    simp
    omega
  generalize o1.take 7 ++ List.replicate (7 - o1.length) 0 = Z at ha11 hZl
  -- the encoded arguments at offset 11
  have hb := mem_write_take oa R (Z ++ be32 id) 11 ha11 (by simp [hZl, be32_length])
  have hb3 : (mem_write oa 11 R).take 3 = [t % 256] ++ be16 c := by
    rw [mem_write_take_le _ _ _ _ (by omega) (by omega), ha3]
  have hbl : 11 + R.length ≤ (mem_write oa 11 R).length := mem_write_length_ge oa R 11
  have hbd : (mem_write oa 11 R).drop 7
      = be32 id ++ R ++ (mem_write oa 11 R).drop (11 + R.length) := by
    have hsplit := (List.take_append_drop (11 + R.length) (mem_write oa 11 R)).symm
    rw [hb] at hsplit
    have : (mem_write oa 11 R).drop 7
        = (Z ++ (be32 id ++ R ++ (mem_write oa 11 R).drop (11 + R.length))).drop 7 := by
      conv_lhs => rw [hsplit]
      simp [List.append_assoc]
    rw [this, ← hZl, List.drop_left]
  generalize (mem_write oa 11 R).drop (11 + R.length) = tail at hbd
  generalize mem_write oa 11 R = ob at hb3 hbl hbd
  -- the payload length at offset 3
  have hc : amqp_e32 ob 3 (res + 4) = [t % 256] ++ be16 c ++ be32 (res + 4) ++ (be32 id ++ R ++ tail) := by
    unfold amqp_e32 mem_write
    have h0 : 3 - ob.length = 0 := by omega
    rw [h0, hb3, be32_length, hbd]
    simp
  -- the frame end
  have hct : (amqp_e32 ob 3 (res + 4)).take (res + 4 + 7)
      = [t % 256] ++ be16 c ++ be32 (res + 4) ++ (be32 id ++ R.take res) := by
    rw [hc]
    have hl : ([t % 256] ++ be16 c ++ be32 (res + 4)).length = 7 := by simp [be16_length, be32_length]
    have e : res + 4 + 7 = ([t % 256] ++ be16 c ++ be32 (res + 4)).length + (4 + res) := by
      rw [hl]; omega
    have t1 : (be32 id ++ R ++ tail).take (4 + res) = be32 id ++ R.take res := by
      rw [List.append_assoc, List.take_append_eq_append_take, be32_length,
        List.take_of_length_le (by rw [be32_length]; omega),
        List.take_append_of_le_length (by omega)]
      congr 2
      omega
    rw [e, List.take_append, t1]
  have hfin := mem_write_take (amqp_e32 ob 3 (res + 4)) [AMQP_FRAME_END]
    ([t % 256] ++ be16 c ++ be32 (res + 4) ++ (be32 id ++ R.take res)) (res + 4 + 7) hct
    (by simp [be16_length, be32_length, hR]; omega)
  unfold amqp_e8
  have e206 : AMQP_FRAME_END % 256 = AMQP_FRAME_END := rfl
  rw [e206]
  have e1 : res + 4 + 7 + 1 = res + 4 + 7 + [AMQP_FRAME_END].length := rfl
  rw [e1, hfin]
  have hpl : (be32 id ++ R.take res).length = res + 4 := by
    simp [be32_length, hR]; omega
  unfold wire_frame
  rw [hpl]

theorem sent_by_append (tx after : amqp_connection_state_t) (regions : List (List Nat))
    (h : after.socket.wire = tx.socket.wire ++ regions) :
    sent_by tx after = regions.flatten := by
  unfold sent_by
  rw [h, List.drop_left]

theorem send_frame_non_body_socket {M P : Type} (codec : amqp_codec M P) (now : Nat)
    (tx : amqp_connection_state_t) (frame : amqp_frame_t M P)
    (hty : frame.frame_type ≠ AMQP_FRAME_BODY) :
    (amqp_send_frame codec now tx frame).2.socket =
      (amqp_send_frame_non_body codec
        { tx with outbound_buffer := { tx.outbound_buffer with
            bytes := amqp_e16 (amqp_e8 tx.outbound_buffer.bytes 0 frame.frame_type) 1
              frame.channel } } frame).2.socket := by
  unfold amqp_send_frame
  simp only [hty, if_false]
  split
  · rfl
  · rw [send_frame_epilogue_socket]

theorem send_frame_method_sent {M P : Type} (codec : amqp_codec M P) (now : Nat)
    (tx : amqp_connection_state_t) (frame : amqp_frame_t M P) (space : Nat)
    (hty : frame.frame_type = AMQP_FRAME_METHOD)
    (hspace : size_sub (size_sub (size_sub tx.outbound_buffer.len HEADER_SIZE) 4) FOOTER_SIZE
      = space)
    (hs : space + 12 < 2147483648)
    (hlaw : method_codec_law codec frame.payload_method_id frame.payload_method_decoded space) :
    ∃ E : List Nat,
      sent_by tx (amqp_send_frame codec now tx frame).2
        = wire_frame AMQP_FRAME_METHOD frame.channel (be32 frame.payload_method_id ++ E) ∧
      E.length ≤ space ∧
      ∀ pool : amqp_pool_t,
        0 ≤ (codec.decode_method frame.payload_method_id pool
            { len := E.length, bytes := E }).1 ∧
        (codec.decode_method frame.payload_method_id pool
            { len := E.length, bytes := E }).2.2 = frame.payload_method_decoded := by
  have hne : frame.frame_type ≠ AMQP_FRAME_BODY := by rw [hty]; decide
  obtain ⟨l1, l2, l3, l4⟩ := hlaw
    ((List.drop (HEADER_SIZE + 4)
      (amqp_e32 (amqp_e16 (amqp_e8 tx.outbound_buffer.bytes 0 AMQP_FRAME_METHOD) 1 frame.channel)
        HEADER_SIZE frame.payload_method_id)).take space)
  generalize hr : codec.encode_method frame.payload_method_id frame.payload_method_decoded
    { len := space,
      bytes := (List.drop (HEADER_SIZE + 4)
        (amqp_e32 (amqp_e16 (amqp_e8 tx.outbound_buffer.bytes 0 AMQP_FRAME_METHOD) 1
          frame.channel) HEADER_SIZE frame.payload_method_id)).take space } = r at l1 l2 l3 l4
  refine ⟨r.2.take r.1.toNat, ?_, ?_, ?_⟩
  · apply (sent_by_append tx _ [wire_frame AMQP_FRAME_METHOD frame.channel
      (be32 frame.payload_method_id ++ r.2.take r.1.toNat)] ?_).trans (by simp)
    rw [send_frame_non_body_socket codec now tx frame hne]
    have hn : size_t_of_int (r.1 + 4) = r.1.toNat + 4 := by
      rw [size_t_of_int_eq _ (by omega) (by omega)]
      omega
    have hsa1 : size_add (r.1.toNat + 4) HEADER_SIZE = r.1.toNat + 4 + 7 :=
      size_add_eq _ _ (by simp only [SIZE_MOD, HEADER_SIZE]; omega)
    have hsa2 : size_add (r.1.toNat + 4 + 7) FOOTER_SIZE = r.1.toNat + 4 + 7 + 1 :=
      size_add_eq _ _ (by simp only [SIZE_MOD, FOOTER_SIZE]; omega)
    have himg := non_body_image tx.outbound_buffer.bytes r.2 AMQP_FRAME_METHOD frame.channel
      frame.payload_method_id (r.1.toNat + 4) r.1.toNat l3 rfl
    unfold amqp_send_frame_non_body
    simp only [hty, if_true, amqp_bytes_at, hspace, hr, not_lt.mpr l1, if_false, hn, hsa1, hsa2,
      amqp_socket_send, himg]
  · simp; omega
  · intro pool
    have := l4 pool
    have hlen : (r.2.take r.1.toNat).length = r.1.toNat := by simp; omega
    rw [hlen]
    exact this

theorem wire_frame_method_id (t c id : Nat) (E : List Nat) :
    amqp_d32 (wire_frame t c (be32 id ++ E)) 7 = id % 4294967296 := by
  simp [wire_frame, be16, be32, amqp_d8, amqp_d16, amqp_d32]
  omega

theorem wire_frame_method_args (t c id : Nat) (E : List Nat) :
    amqp_bytes_at (wire_frame t c (be32 id ++ E)) 11 E.length = { len := E.length, bytes := E } := by
  have h : wire_frame t c (be32 id ++ E)
      = ([t % 256] ++ be16 c ++ be32 (be32 id ++ E).length ++ be32 id) ++ (E ++ [AMQP_FRAME_END]) := by
    simp [wire_frame]
  have hl : ([t % 256] ++ be16 c ++ be32 (be32 id ++ E).length ++ be32 id).length = 11 := by
    simp [be16_length, be32_length]
  unfold amqp_bytes_at
  rw [h, ← hl, List.drop_left, List.take_left]

/-- Counterexample for C3: with `frame_max = 8` on both sides, the raw codec encodes
the arguments `01 02 03` of the METHOD frame `(1, 0x000A000B, 01 02 03)` within the
space it is given and decodes them back, `amqp_send_frame` returns OK and hands the
transport the 15 octets of the frame, and the idle receiver with the same `frame_max`
rejects them with BAD_AMQP_DATA: no frame is decoded. With `frame_max = 11` the same
holds for the method with no arguments, whose frame has 12 octets. -/
theorem method_round_trip_counterexample :
    (idle_connection 8).outbound_buffer.len = size_t_of_int (idle_connection 8).frame_max ∧
    (method_encode_call raw_codec (idle_connection 8) sample_method_frame).1 = 3 ∧
    (3 : Nat) ≤ size_sub (size_sub (size_sub (idle_connection 8).outbound_buffer.len
      HEADER_SIZE) 4) FOOTER_SIZE ∧
    (raw_codec.decode_method 655371 { pagesize := 131072, allocated := [] }
        { len := 3,
          bytes := (method_encode_call raw_codec (idle_connection 8)
            sample_method_frame).2.take 3 }).2.2 = [1, 2, 3] ∧
    (amqp_send_frame raw_codec 0 (idle_connection 8) sample_method_frame).1
      = AMQP_STATUS_OK ∧
    sent_by (idle_connection 8)
        (amqp_send_frame raw_codec 0 (idle_connection 8) sample_method_frame).2
      = [1, 0, 1, 0, 0, 0, 7, 0, 10, 0, 11, 1, 2, 3, 206] ∧
    (caller_chunks raw_codec (plentiful_heap 0) (idle_connection 8)
        [[1, 0, 1, 0, 0, 0, 7, 0, 10, 0, 11, 1, 2, 3, 206]] blank_frame).error
      = some AMQP_STATUS_BAD_AMQP_DATA ∧
    (caller_chunks raw_codec (plentiful_heap 0) (idle_connection 8)
        [[1, 0, 1, 0, 0, 0, 7, 0, 10, 0, 11, 1, 2, 3, 206]] blank_frame).frames = [] ∧
    (caller_chunks raw_codec (plentiful_heap 0) (idle_connection 8)
        [[1], [0], [1], [0], [0], [0], [7], [0], [10], [0], [11], [1], [2], [3], [206]]
        blank_frame).frames = [] ∧
    (method_encode_call raw_codec (idle_connection 11)
      { sample_method_frame with payload_method_decoded := [] }).1 = 0 ∧
    (amqp_send_frame raw_codec 0 (idle_connection 11)
      { sample_method_frame with payload_method_decoded := [] }).1 = AMQP_STATUS_OK ∧
    sent_by (idle_connection 11)
        (amqp_send_frame raw_codec 0 (idle_connection 11)
          { sample_method_frame with payload_method_decoded := [] }).2
      = [1, 0, 1, 0, 0, 0, 4, 0, 10, 0, 11, 206] ∧
    (caller_chunks raw_codec (plentiful_heap 0) (idle_connection 11)
        [[1, 0, 1, 0, 0, 0, 4, 0, 10, 0, 11, 206]] blank_frame).error
      = some AMQP_STATUS_BAD_AMQP_DATA ∧
    (caller_chunks raw_codec (plentiful_heap 0) (idle_connection 11)
        [[1, 0, 1, 0, 0, 0, 4, 0, 10, 0, 11, 206]] blank_frame).frames = [] := by
  decide

/-- C3 (amended): with `frame_max ≥ 12` (the twelve octets that frame a METHOD payload
fit into a frame), if the method codec round-trips `(id, args)` and its encoder
succeeds within the space it is given, the bytes `amqp_send_frame` sends for the METHOD
frame `(c, id, args)`, fed to `amqp_handle_input` on an idle connection with the same
`frame_max` under any split into non-empty chunks (one byte at a time included), give
exactly one decoded frame: type METHOD, channel `c`, method id `id`, decoded `args`. -/
theorem method_round_trip {M P : Type} (codec : amqp_codec M P) (heap : amqp_heap) (now : Nat)
    (tx rx : amqp_connection_state_t) (txframe outframe : amqp_frame_t M P)
    (c id : Nat) (args : M) (chunks : List (List Nat))
    (hty : txframe.frame_type = AMQP_FRAME_METHOD) (hch : txframe.channel = c)
    (hc : c < 65536)
    (hid : txframe.payload_method_id = id) (hidr : id < 4294967296)
    (hargs : txframe.payload_method_decoded = args)
    (hF12 : 12 ≤ rx.frame_max) (hint : rx.frame_max < 2147483648)
    (htuned : tx.outbound_buffer.len = size_t_of_int rx.frame_max)
    (hlaw : method_codec_law codec id args (size_t_of_int rx.frame_max - 12))
    (hidle : at_frame_boundary rx)
    (hm : heap.malloc_entry = true) (ha : ∀ n, heap.pool_alloc n = true)
    (hsplit : chunks.flatten = sent_by tx (amqp_send_frame codec now tx txframe).2)
    (hne : ∀ ch ∈ chunks, ch ≠ []) :
    (caller_chunks codec heap rx chunks outframe).error = none ∧
    (caller_chunks codec heap rx chunks outframe).frames.map amqp_frame_t.frame_type
      = [AMQP_FRAME_METHOD] ∧
    (caller_chunks codec heap rx chunks outframe).frames.map amqp_frame_t.channel = [c] ∧
    (caller_chunks codec heap rx chunks outframe).frames.map amqp_frame_t.payload_method_id
      = [id] ∧
    (caller_chunks codec heap rx chunks outframe).frames.map amqp_frame_t.payload_method_decoded
      = [args] ∧
    at_frame_boundary (caller_chunks codec heap rx chunks outframe).state := by
  have hFn : size_t_of_int rx.frame_max = rx.frame_max.toNat :=
    size_t_of_int_eq _ (by omega) (by omega)
  have hspace : size_sub (size_sub (size_sub tx.outbound_buffer.len HEADER_SIZE) 4) FOOTER_SIZE
      = size_t_of_int rx.frame_max - 12 := by
    rw [htuned, hFn]
    have e1 : size_sub rx.frame_max.toNat HEADER_SIZE = rx.frame_max.toNat - 7 :=
      size_sub_eq _ _ (by simp only [HEADER_SIZE]; omega) (by simp only [SIZE_MOD]; omega)
    have e2 : size_sub (rx.frame_max.toNat - 7) 4 = rx.frame_max.toNat - 11 := by
      rw [size_sub_eq _ _ (by omega) (by simp only [SIZE_MOD]; omega)]; omega
    have e3 : size_sub (rx.frame_max.toNat - 11) FOOTER_SIZE = rx.frame_max.toNat - 12 := by
      rw [size_sub_eq _ _ (by simp only [FOOTER_SIZE]; omega) (by simp only [SIZE_MOD]; omega)]
      simp only [FOOTER_SIZE]; omega
    rw [e1, e2, e3]
  subst hid hargs hch
  obtain ⟨E, hsent, hEl, hdec⟩ := send_frame_method_sent codec now tx txframe
    (size_t_of_int rx.frame_max - 12) hty hspace (by rw [hFn]; omega) hlaw
  rw [hsent] at hsplit
  have hWlen := wire_frame_length AMQP_FRAME_METHOD txframe.channel
    (be32 txframe.payload_method_id ++ E)
  have hpl : (be32 txframe.payload_method_id ++ E).length = E.length + 4 := by
    rw [List.length_append, be32_length]; omega
  rw [hpl] at hWlen
  have hWF : (wire_frame AMQP_FRAME_METHOD txframe.channel
      (be32 txframe.payload_method_id ++ E)).length ≤ size_t_of_int rx.frame_max := by
    rw [hWlen]; omega
  have hWl : amqp_d32 (wire_frame AMQP_FRAME_METHOD txframe.channel
      (be32 txframe.payload_method_id ++ E)) 3 + 8
      = (wire_frame AMQP_FRAME_METHOD txframe.channel
          (be32 txframe.payload_method_id ++ E)).length := by
    rw [wire_frame_payload_length, hWlen, hpl, Nat.mod_eq_of_lt (by omega)]
  have key := caller_chunks_one_frame codec heap
    (wire_frame AMQP_FRAME_METHOD txframe.channel (be32 txframe.payload_method_id ++ E))
    rx.frame_max
    (fun f => f.frame_type = AMQP_FRAME_METHOD ∧ f.channel = txframe.channel ∧
      f.payload_method_id = txframe.payload_method_id ∧
      f.payload_method_decoded = txframe.payload_method_decoded)
    hm (ha _) (by omega) hWl hWF (by omega)
    (by
      intro s2 bc fr hfc hF
      obtain ⟨w1, w2, w3, w4, w5⟩ := frame_complete_wire _ _ _ _ hfc
      have w4' : amqp_d8 (inbound_bytes s2) 0 = AMQP_FRAME_METHOD := w4
      rw [hpl] at w2
      have hsz : size_sub (size_sub (size_sub s2.target_size HEADER_SIZE) 4) FOOTER_SIZE
          = E.length := by
        have e1 : size_sub (E.length + 4 + 8) 7 = E.length + 5 := by
          rw [size_sub_eq _ _ (by omega) (by simp only [SIZE_MOD]; omega)]; omega
        have e2 : size_sub (E.length + 5) 4 = E.length + 1 := by
          rw [size_sub_eq _ _ (by omega) (by simp only [SIZE_MOD]; omega)]; omega
        have e3 : size_sub (E.length + 1) 1 = E.length := by
          rw [size_sub_eq _ _ (by omega) (by simp only [SIZE_MOD]; omega)]; omega
        rw [w2]
        show size_sub (size_sub (size_sub (E.length + 4 + 8) 7) 4) 1 = E.length
        rw [e1, e2, e3]
      have hidw : amqp_d32 (inbound_bytes s2) HEADER_SIZE = txframe.payload_method_id := by
        rw [w1]
        show amqp_d32 _ 7 = _
        rw [wire_frame_method_id, Nat.mod_eq_of_lt hidr]
      have hreg : amqp_bytes_at (inbound_bytes s2) (HEADER_SIZE + 4)
          (size_sub (size_sub (size_sub s2.target_size HEADER_SIZE) 4) FOOTER_SIZE)
          = { len := E.length, bytes := E } := by
        rw [hsz, w1]
        exact wire_frame_method_args _ _ _ _
      obtain ⟨b1, b2, b3, b4⟩ := body_arm_method codec heap s2 bc fr hm w3 w4'
        (by rw [hidw, hreg]; exact (hdec _).1)
      rw [hidw, hreg, (hdec _).2, w5, Nat.mod_eq_of_lt hc] at b4
      refine ⟨b1, ?_, ?_, b2, by rw [b3, hF]⟩
      · rw [b4]; simp
      · rw [b4]; exact ⟨rfl, rfl, rfl, rfl⟩)
    chunks 0 rx outframe (receiving_start _ _ hidle) rfl (by omega) (by simpa using hsplit) hne
  obtain ⟨k1, ⟨f, k2, k3, k4, k5, k6⟩, -, k7, -⟩ := key
  refine ⟨k1, ?_, ?_, ?_, ?_, k7⟩
  · rw [k2]; simp [k3]
  · rw [k2]; simp [k4]
  · rw [k2]; simp [k5]
  · rw [k2]; simp [k6]


theorem raw_codec_law (id : Nat) (args : List Nat) (space : Nat) (h : args.length ≤ space) :
    method_codec_law raw_codec id args space := by
  intro region
  have hw : (mem_write region 0 args).take args.length = args := by
    have := mem_write_take region args [] 0 (by simp) (by simp)
    simpa using this
  have hl : args.length ≤ (mem_write region 0 args).length := by
    have := mem_write_length_ge region args 0
    omega
  simp [raw_codec, h, hw, hl]

/-- Witness for C3 (amended): the METHOD frame `(1, 0x000A000B, 01 02 03)` of the raw codec, sent
with `frame_max = 32` and fed back one byte at a time. -/
theorem method_round_trip_witness :
    (caller_chunks raw_codec (plentiful_heap 0) (idle_connection 32)
        [[1], [0], [1], [0], [0], [0], [7], [0], [10], [0], [11], [1], [2], [3], [206]]
        blank_frame).error = none ∧
    (caller_chunks raw_codec (plentiful_heap 0) (idle_connection 32)
        [[1], [0], [1], [0], [0], [0], [7], [0], [10], [0], [11], [1], [2], [3], [206]]
        blank_frame).frames.map amqp_frame_t.frame_type = [AMQP_FRAME_METHOD] ∧
    (caller_chunks raw_codec (plentiful_heap 0) (idle_connection 32)
        [[1], [0], [1], [0], [0], [0], [7], [0], [10], [0], [11], [1], [2], [3], [206]]
        blank_frame).frames.map amqp_frame_t.channel = [1] ∧
    (caller_chunks raw_codec (plentiful_heap 0) (idle_connection 32)
        [[1], [0], [1], [0], [0], [0], [7], [0], [10], [0], [11], [1], [2], [3], [206]]
        blank_frame).frames.map amqp_frame_t.payload_method_id = [655371] ∧
    (caller_chunks raw_codec (plentiful_heap 0) (idle_connection 32)
        [[1], [0], [1], [0], [0], [0], [7], [0], [10], [0], [11], [1], [2], [3], [206]]
        blank_frame).frames.map amqp_frame_t.payload_method_decoded = [[1, 2, 3]] ∧
    at_frame_boundary (caller_chunks raw_codec (plentiful_heap 0) (idle_connection 32)
        [[1], [0], [1], [0], [0], [0], [7], [0], [10], [0], [11], [1], [2], [3], [206]]
        blank_frame).state :=
  method_round_trip raw_codec (plentiful_heap 0) 0 (idle_connection 32) (idle_connection 32)
    sample_method_frame blank_frame 1 655371 [1, 2, 3]
    [[1], [0], [1], [0], [0], [0], [7], [0], [10], [0], [11], [1], [2], [3], [206]]
    rfl rfl (by decide) rfl (by decide) rfl (by decide) (by decide) rfl
    (raw_codec_law 655371 [1, 2, 3] _ (by decide)) ⟨rfl, rfl, rfl, rfl⟩ rfl (fun _ => rfl)
    (by decide) (by decide)

/-! ## Protocol header -/

/-- C10: on a connection fresh from `amqp_new_connection` (state INITIAL), every input of
at least 8 octets that starts with `AMQP` makes `amqp_handle_input` return exactly 8 and
report a PROTOCOL_HEADER frame on channel 0 whose four version fields are the input
octets 4, 5, 6 and 7; the connection is IDLE afterwards. -/
theorem protocol_header_decode {M P : Type} (codec : amqp_codec M P) (heap0 heap : amqp_heap)
    (s : amqp_connection_state_t) (data : List Nat) (frame : amqp_frame_t M P)
    (hnew : amqp_new_connection heap0 = some s)
    (hlen : 8 ≤ data.length) (hmagic : data.take 4 = [65, 77, 81, 80]) :
    (amqp_handle_input codec heap s data frame).ret = 8 ∧
    (amqp_handle_input codec heap s data frame).decoded_frame.frame_type
      = AMQP_PSEUDOFRAME_PROTOCOL_HEADER ∧
    (amqp_handle_input codec heap s data frame).decoded_frame.channel = 0 ∧
    (amqp_handle_input codec heap s data frame).decoded_frame.payload_protocol_header_transport_high
      = amqp_d8 data 4 ∧
    (amqp_handle_input codec heap s data frame).decoded_frame.payload_protocol_header_transport_low
      = amqp_d8 data 5 ∧
    (amqp_handle_input codec heap s data frame).decoded_frame.payload_protocol_header_protocol_version_major
      = amqp_d8 data 6 ∧
    (amqp_handle_input codec heap s data frame).decoded_frame.payload_protocol_header_protocol_version_minor
      = amqp_d8 data 7 ∧
    (amqp_handle_input codec heap s data frame).state.state = CONNECTION_STATE_IDLE := by
  obtain ⟨f1, f2, f3, f4, -, -⟩ := new_connection_fields heap0 s hnew
  obtain ⟨r1, r2, r3, r4, r5, r6, r7, r8, -, -⟩ :=
    handle_input_protocol_header codec heap s data frame f1 f2 f3 f4 hlen hmagic
  exact ⟨r1, r2, r3, r4, r5, r6, r7, r8⟩

/-- Witness for C10: the octets `41 4D 51 50 00 00 09 01` on a fresh connection give the
protocol header `(0, 0, 9, 1)`. -/
theorem protocol_header_decode_witness :
    amqp_new_connection (plentiful_heap 0) = some fresh_connection ∧
    (amqp_handle_input raw_codec (plentiful_heap 0) fresh_connection
        [65, 77, 81, 80, 0, 0, 9, 1] blank_frame).ret = 8 ∧
    (amqp_handle_input raw_codec (plentiful_heap 0) fresh_connection
        [65, 77, 81, 80, 0, 0, 9, 1] blank_frame).decoded_frame.frame_type
      = AMQP_PSEUDOFRAME_PROTOCOL_HEADER ∧
    (amqp_handle_input raw_codec (plentiful_heap 0) fresh_connection
        [65, 77, 81, 80, 0, 0, 9, 1] blank_frame).decoded_frame.channel = 0 ∧
    (amqp_handle_input raw_codec (plentiful_heap 0) fresh_connection
        [65, 77, 81, 80, 0, 0, 9, 1] blank_frame).decoded_frame.payload_protocol_header_transport_high
      = 0 ∧
    (amqp_handle_input raw_codec (plentiful_heap 0) fresh_connection
        [65, 77, 81, 80, 0, 0, 9, 1] blank_frame).decoded_frame.payload_protocol_header_transport_low
      = 0 ∧
    (amqp_handle_input raw_codec (plentiful_heap 0) fresh_connection
        [65, 77, 81, 80, 0, 0, 9, 1] blank_frame).decoded_frame.payload_protocol_header_protocol_version_major
      = 9 ∧
    (amqp_handle_input raw_codec (plentiful_heap 0) fresh_connection
        [65, 77, 81, 80, 0, 0, 9, 1] blank_frame).decoded_frame.payload_protocol_header_protocol_version_minor
      = 1 ∧
    (amqp_handle_input raw_codec (plentiful_heap 0) fresh_connection
        [65, 77, 81, 80, 0, 0, 9, 1] blank_frame).state.state = CONNECTION_STATE_IDLE :=
  ⟨rfl, protocol_header_decode raw_codec (plentiful_heap 0) (plentiful_heap 0) fresh_connection
    [65, 77, 81, 80, 0, 0, 9, 1] blank_frame rfl (by decide) rfl⟩

/-! ## Ignored frames and the frame end -/

theorem body_arm_footer_ok {M P : Type} (codec : amqp_codec M P) (heap : amqp_heap)
    (s : amqp_connection_state_t) (bc : Nat) (frame : amqp_frame_t M P)
    (hm : heap.malloc_entry = true)
    (hf : amqp_d8 (inbound_bytes s) (size_sub s.target_size 1) = AMQP_FRAME_END) :
    (amqp_handle_input_BODY codec heap s bc frame).ret = int_of_size_t bc ∨
    (∃ (pool : amqp_pool_t) (region : amqp_bytes_t),
      (amqp_handle_input_BODY codec heap s bc frame).ret
        = (codec.decode_method (amqp_d32 (inbound_bytes s) HEADER_SIZE) pool region).1) ∨
    (∃ (pool : amqp_pool_t) (region : amqp_bytes_t),
      (amqp_handle_input_BODY codec heap s bc frame).ret
        = (codec.decode_properties (amqp_d16 (inbound_bytes s) HEADER_SIZE) pool region).1) := by
  unfold amqp_handle_input_BODY
  simp only [hf, ne_eq, not_true_eq_false, if_false, get_or_create_eq _ _ _ hm]
  split
  · split
    · right; left; exact ⟨_, _, rfl⟩
    · left; rfl
  · split
    · split
      · right; right; exact ⟨_, _, rfl⟩
      · left; rfl
    · split
      · left; rfl
      · split <;> (left; rfl)

/-- C8: when the last piece of a frame arrives and the octet at offset
`target_size - 1` is not `0xCE`, `amqp_handle_input` returns BAD_AMQP_DATA, reports
`frame_type = 0` and leaves the connection in state BODY; when that octet is `0xCE`
the result is the byte count, or else the negative result of the method or property
decoder: the footer check itself produces no BAD_AMQP_DATA. -/
theorem footer_check {M P : Type} (codec : amqp_codec M P) (heap : amqp_heap)
    (s : amqp_connection_state_t) (W data : List Nat) (k : Nat) (frame : amqp_frame_t M P)
    (hm : heap.malloc_entry = true) (ha : heap.pool_alloc W.length = true)
    (hW8 : 8 ≤ W.length) (hWl : amqp_d32 W 3 + 8 = W.length)
    (hWF : (W.length : Int) ≤ s.frame_max) (hint : s.frame_max < 2147483648)
    (hr : receiving W k s) (hne : data ≠ [])
    (hkm : k + data.length = W.length)
    (hseg : W.take (k + data.length) = W.take k ++ data) :
    (amqp_d8 W (W.length - 1) ≠ AMQP_FRAME_END →
      (amqp_handle_input codec heap s data frame).ret = AMQP_STATUS_BAD_AMQP_DATA ∧
      (amqp_handle_input codec heap s data frame).decoded_frame.frame_type = 0 ∧
      (amqp_handle_input codec heap s data frame).state.state = CONNECTION_STATE_BODY) ∧
    (amqp_d8 W (W.length - 1) = AMQP_FRAME_END →
      (amqp_handle_input codec heap s data frame).ret = (data.length : Int) ∨
      (∃ (pool : amqp_pool_t) (region : amqp_bytes_t),
        (amqp_handle_input codec heap s data frame).ret
          = (codec.decode_method (amqp_d32 W 7) pool region).1) ∨
      (∃ (pool : amqp_pool_t) (region : amqp_bytes_t),
        (amqp_handle_input codec heap s data frame).ret
          = (codec.decode_properties (amqp_d16 W 7) pool region).1)) := by
  have hWF' : W.length ≤ size_t_of_int s.frame_max := by
    rw [size_t_of_int_eq _ (by omega) (by omega)]; omega
  obtain ⟨-, hp⟩ := handle_input_piece codec heap s W data k frame hm ha hW8 hWl hWF' (by omega)
    hr hne (by omega) hseg
  obtain ⟨s2, bc, e, hbc, hfc, -⟩ := hp hkm
  have hfoot := frame_complete_footer _ _ hfc
  have hin : inbound_bytes s2 = W := hfc.2.2.2.1
  have hst : s2.state = CONNECTION_STATE_BODY := hfc.2.2.1
  constructor
  · intro hbad
    rw [e, body_arm_bad_footer codec heap s2 bc _ (by rw [hfoot]; exact hbad)]
    exact ⟨rfl, rfl, hst⟩
  · intro hok
    have h := body_arm_footer_ok codec heap s2 bc { frame with frame_type := 0 } hm
      (by rw [hfoot]; exact hok)
    rw [hin, hbc, ← e] at h
    exact h

/-- Witness for C8: the minimum-body frame with its last octet replaced by `00`
(the footer-missing scenario), fed whole to an idle connection. -/
theorem footer_check_witness :
    (amqp_handle_input raw_codec (plentiful_heap 0) (idle_connection 4096)
        [3, 0, 1, 0, 0, 0, 3, 65, 66, 67, 0] blank_frame).ret = AMQP_STATUS_BAD_AMQP_DATA ∧
    (amqp_handle_input raw_codec (plentiful_heap 0) (idle_connection 4096)
        [3, 0, 1, 0, 0, 0, 3, 65, 66, 67, 0] blank_frame).decoded_frame.frame_type = 0 ∧
    (amqp_handle_input raw_codec (plentiful_heap 0) (idle_connection 4096)
        [3, 0, 1, 0, 0, 0, 3, 65, 66, 67, 0] blank_frame).state.state = CONNECTION_STATE_BODY :=
  (footer_check raw_codec (plentiful_heap 0) (idle_connection 4096)
    [3, 0, 1, 0, 0, 0, 3, 65, 66, 67, 0] [3, 0, 1, 0, 0, 0, 3, 65, 66, 67, 0] 0 blank_frame
    rfl rfl (by decide) (by decide) (by decide) (by decide)
    (receiving_start _ _ ⟨rfl, rfl, rfl, rfl⟩) (by decide) (by decide) (by decide)).1 (by decide)

/-! ## The frame-size limit -/

/-- Counterexample for C6: with `frame_max = 16`, a header whose payload length is
`frame_max - 7 = 9` is rejected with BAD_AMQP_DATA. -/
theorem frame_size_boundary_counterexample :
    amqp_d32 [3, 0, 1, 0, 0, 0, 9] 3 = 16 - 7 ∧
    (amqp_handle_input raw_codec (plentiful_heap 0) (idle_connection 16)
        [3, 0, 1, 0, 0, 0, 9] blank_frame).ret = AMQP_STATUS_BAD_AMQP_DATA := by
  decide

/-- C6 (amended): for a connection at a frame boundary tuned to `frame_max = F` with
`8 ≤ F < 2^31`, a frame header whose payload length is `F - 8` is accepted (the call
returns 7, the connection is in state BODY collecting a frame of `F` octets), and a
header whose payload length is `F - 7` or `F - 6` is rejected with BAD_AMQP_DATA. -/
theorem frame_size_boundary {M P : Type} (codec : amqp_codec M P) (heap : amqp_heap)
    (s : amqp_connection_state_t) (h : List Nat) (F : Nat) (frame : amqp_frame_t M P)
    (hF8 : 8 ≤ F) (hF31 : F < 2147483648) (hFs : s.frame_max = (F : Int))
    (hidle : at_frame_boundary s) (hh : h.length = 7)
    (hm : heap.malloc_entry = true) (ha : heap.pool_alloc F = true) :
    (amqp_d32 h 3 = F - 8 →
      (amqp_handle_input codec heap s h frame).ret = 7 ∧
      (amqp_handle_input codec heap s h frame).decoded_frame.frame_type = 0 ∧
      (amqp_handle_input codec heap s h frame).state.state = CONNECTION_STATE_BODY ∧
      (amqp_handle_input codec heap s h frame).state.target_size = F) ∧
    (amqp_d32 h 3 = F - 7 →
      (amqp_handle_input codec heap s h frame).ret = AMQP_STATUS_BAD_AMQP_DATA) ∧
    (amqp_d32 h 3 = F - 6 →
      (amqp_handle_input codec heap s h frame).ret = AMQP_STATUS_BAD_AMQP_DATA) := by
  have hFn : size_t_of_int s.frame_max = F := by
    rw [hFs, size_t_of_int_eq _ (by omega) (by omega)]; simp
  obtain ⟨i1, i2, i3, i4⟩ := hidle
  have hstage : header_stage [] s := by
    unfold header_stage
    simp [i1, i2, i3, i4]
  obtain ⟨s1, e1, hb1, ho1, hH1, hF1, -⟩ :=
    handle_input_header_reach codec heap s h [] frame hstage (by simp [hh])
  simp only [List.length_nil, Nat.sub_zero, List.nil_append] at e1 hH1
  have hth : h.take 7 = h := List.take_of_length_le (by omega)
  rw [hth] at hH1
  have hdr : h.drop 7 = [] := List.drop_of_length_le (by omega)
  rw [hdr] at e1
  refine ⟨?_, ?_, ?_⟩
  · intro hL
    obtain ⟨s2, n, e2, hn, hst2, -, -, -, ho2, hT2, -⟩ :=
      header_arm_accept codec heap s1 [] 7 { frame with frame_type := 0 } h F hb1 ho1 hH1 hh hm
        (by omega) (by rw [hF1, hFn]) ha
    simp only [List.length_nil, Nat.zero_min] at hn
    subst hn
    have hlt : s2.inbound_offset < s2.target_size := by rw [ho2, hT2]; omega
    rw [e1, e2, if_pos hlt]
    refine ⟨?_, rfl, hst2, hT2⟩
    show int_of_size_t (size_add 7 0) = 7
    rw [size_add_eq _ _ (by simp only [SIZE_MOD]; omega), int_of_size_t_eq _ (by omega)]
    rfl
  · intro hL
    rw [e1, header_arm_reject codec heap s1 [] 7 _ h hb1 hH1 hm
      (by rw [hF1, hFn, hL, Nat.mod_eq_of_lt (by simp only [SIZE_MOD]; omega)]; omega)]
  · intro hL
    rw [e1, header_arm_reject codec heap s1 [] 7 _ h hb1 hH1 hm
      (by rw [hF1, hFn, hL, Nat.mod_eq_of_lt (by simp only [SIZE_MOD]; omega)]; omega)]

/-- Witness for C6 (amended): `frame_max = 16`; payload length 8 is accepted, 9 is
rejected. -/
theorem frame_size_boundary_witness :
    ((amqp_handle_input raw_codec (plentiful_heap 0) (idle_connection 16)
        [3, 0, 1, 0, 0, 0, 8] blank_frame).ret = 7 ∧
      (amqp_handle_input raw_codec (plentiful_heap 0) (idle_connection 16)
        [3, 0, 1, 0, 0, 0, 8] blank_frame).decoded_frame.frame_type = 0 ∧
      (amqp_handle_input raw_codec (plentiful_heap 0) (idle_connection 16)
        [3, 0, 1, 0, 0, 0, 8] blank_frame).state.state = CONNECTION_STATE_BODY ∧
      (amqp_handle_input raw_codec (plentiful_heap 0) (idle_connection 16)
        [3, 0, 1, 0, 0, 0, 8] blank_frame).state.target_size = 16) ∧
    (amqp_handle_input raw_codec (plentiful_heap 0) (idle_connection 16)
        [3, 0, 1, 0, 0, 0, 9] blank_frame).ret = AMQP_STATUS_BAD_AMQP_DATA :=
  ⟨(frame_size_boundary raw_codec (plentiful_heap 0) (idle_connection 16)
      [3, 0, 1, 0, 0, 0, 8] 16 blank_frame (by decide) (by decide) rfl ⟨rfl, rfl, rfl, rfl⟩
      rfl rfl rfl).1 (by decide),
   (frame_size_boundary raw_codec (plentiful_heap 0) (idle_connection 16)
      [3, 0, 1, 0, 0, 0, 9] 16 blank_frame (by decide) (by decide) rfl ⟨rfl, rfl, rfl, rfl⟩
      rfl rfl rfl).2.1 (by decide)⟩

/-! ## The pool table on an oversize rejection -/

theorem get_or_create_some (heap : amqp_heap) (s s1 : amqp_connection_state_t) (c : Nat)
    (h : amqp_get_or_create_channel_pool heap s c = some s1) :
    s1 = { s with pool_table := ensured_pool_table s c } := by
  unfold amqp_get_or_create_channel_pool at h
  unfold ensured_pool_table
  cases hg : amqp_get_channel_pool s c with
  | some p =>
    simp only [hg, Option.some.injEq] at h
    subst h
    rfl
  | none =>
    simp only [hg] at h
    split at h
    · simp only [Option.some.injEq] at h
      exact h.symm
    · exact absurd h (by simp)

theorem ensured_pool_table_congr (s s1 : amqp_connection_state_t) (c : Nat)
    (h : s1.pool_table = s.pool_table) : ensured_pool_table s1 c = ensured_pool_table s c := by
  unfold ensured_pool_table amqp_get_channel_pool
  rw [h]

theorem ensured_pool_table_mem (s : amqp_connection_state_t) (c : Nat) :
    (∀ e ∈ s.pool_table, e ∈ ensured_pool_table s c) ∧
    (∀ e ∈ ensured_pool_table s c,
      e ∈ s.pool_table ∨ (e.channel = c ∧ e.pool.allocated = [])) := by
  unfold ensured_pool_table
  cases amqp_get_channel_pool s c with
  | some p => exact ⟨fun e he => he, fun e he => Or.inl he⟩
  | none =>
    refine ⟨fun e he => List.mem_cons_of_mem _ he, fun e he => ?_⟩
    rcases List.mem_cons.mp he with h | h
    · right; subst h; exact ⟨rfl, rfl⟩
    · left; exact h

theorem header_arm_oversize {M P : Type} (codec : amqp_codec M P) (heap : amqp_heap)
    (s : amqp_connection_state_t) (rest : List Nat) (bc : Nat) (frame : amqp_frame_t M P)
    (H : List Nat)
    (hb : s.inbound_buffer.bytes = amqp_bytes_ptr.header_buffer)
    (hH : s.header_buffer.take 7 = H)
    (hbig : (amqp_d32 H 3 + 8) % SIZE_MOD > size_t_of_int s.frame_max)
    (hret : (amqp_handle_input_HEADER codec heap s rest bc frame).ret
      = AMQP_STATUS_BAD_AMQP_DATA) :
    (amqp_handle_input_HEADER codec heap s rest bc frame).state
      = { s with pool_table := ensured_pool_table s (amqp_d16 H 1) } := by
  have hd : ∀ i, i < 7 → amqp_d8 (inbound_bytes s) i = amqp_d8 H i := by
    intro i hi
    rw [← hH, amqp_d8_take _ _ _ hi]
    simp [inbound_bytes, hb]
  have hd32 : amqp_d32 (inbound_bytes s) 3 = amqp_d32 H 3 := by
    simp [amqp_d32, amqp_d16, hd]
  have hd16 : amqp_d16 (inbound_bytes s) 1 = amqp_d16 H 1 := by
    simp [amqp_d16, hd]
  have hnt : (amqp_d32 (inbound_bytes s) 3 + HEADER_SIZE + FOOTER_SIZE) % SIZE_MOD
      = (amqp_d32 H 3 + 8) % SIZE_MOD := by
    rw [hd32, Nat.add_assoc]
    rfl
  unfold amqp_handle_input_HEADER at hret ⊢
  simp only [hnt, hd16] at hret ⊢
  cases hg : amqp_get_or_create_channel_pool heap s (amqp_d16 H 1) with
  | none =>
    simp only [hg] at hret
    exact absurd hret (by decide)
  | some s1 =>
    have hs1 := get_or_create_some heap s s1 _ hg
    have hF : s1.frame_max = s.frame_max := by rw [hs1]
    simp only [hg, hF, hbig, if_true]
    exact hs1

/-- Counterexample for C7: with `frame_max = 16` and an empty pool table, the oversize
header `03 00 00 00 00 00 20` is rejected with BAD_AMQP_DATA, and the pool table has
gained an entry for channel 0. -/
theorem oversize_rejection_counterexample :
    (idle_connection 16).pool_table = [] ∧
    (amqp_handle_input raw_codec (plentiful_heap 0) (idle_connection 16)
        [3, 0, 0, 0, 0, 0, 32] blank_frame).ret = AMQP_STATUS_BAD_AMQP_DATA ∧
    (amqp_handle_input raw_codec (plentiful_heap 0) (idle_connection 16)
        [3, 0, 0, 0, 0, 0, 32] blank_frame).state.pool_table
      = [{ channel := 0, pool := { pagesize := 131072, allocated := [] } }] := by
  decide

/-- C7 (amended): whenever `amqp_handle_input` returns BAD_AMQP_DATA on a header whose
declared length exceeds `frame_max`, no bytes have been allocated in any arena and
every existing pool table entry is as before; the table is the one
`amqp_get_or_create_channel_pool` leaves for the header's channel, which differs from
the old one at most by a new entry with an empty arena for that channel. -/
theorem oversize_rejection_pool_table {M P : Type} (codec : amqp_codec M P) (heap : amqp_heap)
    (s : amqp_connection_state_t) (data A : List Nat) (frame : amqp_frame_t M P)
    (hs : header_stage A s) (hlen : 7 ≤ A.length + data.length)
    (hbig : (amqp_d32 (A ++ data.take (7 - A.length)) 3 + 8) % SIZE_MOD
      > size_t_of_int s.frame_max)
    (hret : (amqp_handle_input codec heap s data frame).ret = AMQP_STATUS_BAD_AMQP_DATA) :
    (amqp_handle_input codec heap s data frame).state.pool_table
      = ensured_pool_table s (amqp_d16 (A ++ data.take (7 - A.length)) 1) ∧
    (∀ e ∈ s.pool_table, e ∈ (amqp_handle_input codec heap s data frame).state.pool_table) ∧
    (∀ e ∈ (amqp_handle_input codec heap s data frame).state.pool_table,
      e ∈ s.pool_table ∨
        (e.channel = amqp_d16 (A ++ data.take (7 - A.length)) 1 ∧ e.pool.allocated = [])) := by
  obtain ⟨s1, e1, hb1, -, hH1, hF1, hP1⟩ :=
    handle_input_header_reach codec heap s data A frame hs hlen
  rw [e1] at hret ⊢
  have hst := header_arm_oversize codec heap s1 _ _ _ _ hb1 hH1 (by rw [hF1]; exact hbig) hret
  have hpt : (amqp_handle_input_HEADER codec heap s1 (List.drop (7 - A.length) data)
      (7 - A.length) { frame with frame_type := 0 }).state.pool_table
      = ensured_pool_table s (amqp_d16 (A ++ data.take (7 - A.length)) 1) := by
    rw [hst]
    exact ensured_pool_table_congr s s1 _ hP1
  rw [hpt]
  exact ⟨rfl, (ensured_pool_table_mem s _).1, (ensured_pool_table_mem s _).2⟩

/-- Witness for C7 (amended): the oversize-reject scenario with `frame_max = 16`. -/
theorem oversize_rejection_pool_table_witness :
    (amqp_handle_input raw_codec (plentiful_heap 0) (idle_connection 16)
        [3, 0, 0, 0, 0, 0, 32] blank_frame).state.pool_table
      = ensured_pool_table (idle_connection 16) (amqp_d16 ([] ++ [3, 0, 0, 0, 0, 0, 32].take (7 - 0)) 1) :=
  (oversize_rejection_pool_table raw_codec (plentiful_heap 0) (idle_connection 16)
    [3, 0, 0, 0, 0, 0, 32] [] blank_frame
    ⟨by decide, Or.inl rfl, rfl, rfl, rfl, rfl⟩ (by decide) (by decide) (by decide)).1

/-! ## The wrapped length field -/

/-- C5: what the code does on a header whose payload length field is `0xFFFFFFF9`
(`frame_max = 4096`): the sum `payload_len + 7 + 1` exceeds `frame_max` over the
naturals but wraps to 1 in 32-bit arithmetic, so the header is not rejected: the call
returns 7, one octet is allocated and the frame is dropped as an unknown type. With the
field `0xFFFFFFFF` the target size is set to 7, not to `payload_len + 8`. -/
theorem frame_length_wraps :
    amqp_d32 [206, 0, 0, 255, 255, 255, 249] 3 + 7 + 1 > 4096 ∧
    (amqp_handle_input raw_codec (plentiful_heap 0) (idle_connection 4096)
        [206, 0, 0, 255, 255, 255, 249] blank_frame).ret = 7 ∧
    (amqp_handle_input raw_codec (plentiful_heap 0) (idle_connection 4096)
        [206, 0, 0, 255, 255, 255, 249] blank_frame).state.pool_table
      = [{ channel := 0, pool := { pagesize := 131072, allocated := [1] } }] ∧
    amqp_d32 [3, 0, 0, 255, 255, 255, 255] 3 + 7 + 1 > 4096 ∧
    (amqp_handle_input raw_codec (plentiful_heap 0) (idle_connection 4096)
        [3, 0, 0, 255, 255, 255, 255] blank_frame).state.target_size = 7 ∧
    (amqp_handle_input raw_codec (plentiful_heap 0) (idle_connection 4096)
        [3, 0, 0, 255, 255, 255, 255] blank_frame).state.state = CONNECTION_STATE_BODY ∧
    (amqp_handle_input raw_codec (plentiful_heap 0) (idle_connection 4096)
        [3, 0, 0, 255, 255, 255, 255] blank_frame).state.pool_table
      = [{ channel := 0, pool := { pagesize := 131072, allocated := [7] } }] := by
  decide

/-- C1: what the code does on the 15 octets `CE 00 00 FF FF FF F9` followed by a
heartbeat frame (`frame_max = 4096`). Fed as a single buffer, the wrapped target size
makes the second `consume_data` swallow the heartbeat, and no frame is decoded; fed one
octet per call, the heartbeat is decoded. -/
theorem chunking_differs_on_wrapped_length :
    (caller_loop raw_codec (plentiful_heap 0) 32 (idle_connection 4096)
        [206, 0, 0, 255, 255, 255, 249, 8, 0, 0, 0, 0, 0, 0, 206] blank_frame).frames.map
          amqp_frame_t.frame_type = [] ∧
    (caller_loop raw_codec (plentiful_heap 0) 32 (idle_connection 4096)
        [206, 0, 0, 255, 255, 255, 249, 8, 0, 0, 0, 0, 0, 0, 206] blank_frame).error = none ∧
    (caller_loop raw_codec (plentiful_heap 0) 32 (idle_connection 4096)
        [206, 0, 0, 255, 255, 255, 249, 8, 0, 0, 0, 0, 0, 0, 206] blank_frame).consumed = 15 ∧
    (caller_chunks raw_codec (plentiful_heap 0) (idle_connection 4096)
        [[206], [0], [0], [255], [255], [255], [249], [8], [0], [0], [0], [0], [0], [0], [206]]
        blank_frame).frames.map amqp_frame_t.frame_type = [AMQP_FRAME_HEARTBEAT] ∧
    (caller_chunks raw_codec (plentiful_heap 0) (idle_connection 4096)
        [[206], [0], [0], [255], [255], [255], [249], [8], [0], [0], [0], [0], [0], [0], [206]]
        blank_frame).error = none ∧
    (caller_chunks raw_codec (plentiful_heap 0) (idle_connection 4096)
        [[206], [0], [0], [255], [255], [255], [249], [8], [0], [0], [0], [0], [0], [0], [206]]
        blank_frame).consumed = 15 := by
  decide

/-! ## Streaming a body -/

theorem streaming_loop_sends {S : Type} (ls : lightStream S) (content : S → List Nat)
    (hlaw : stream_yields ls content) :
    ∀ (fuel : Nat) (st : streaming_loop_state S),
      st.res = AMQP_STATUS_OK → st.remaining ≤ (content st.bodyStreamP).length →
      st.remaining < fuel → (∀ r ∈ st.socket.send_results, r = AMQP_STATUS_OK) →
        (streaming_loop ls fuel st).res = AMQP_STATUS_OK ∧
        (streaming_loop ls fuel st).remaining = 0 ∧
        (∃ regions : List (List Nat),
          (streaming_loop ls fuel st).socket.wire = st.socket.wire ++ regions ∧
          regions.flatten = (content st.bodyStreamP).take st.remaining) ∧
        content (streaming_loop ls fuel st).bodyStreamP
          = (content st.bodyStreamP).drop st.remaining ∧
        (∀ r ∈ (streaming_loop ls fuel st).socket.send_results, r = AMQP_STATUS_OK) := by
  intro fuel
  induction fuel with
  | zero => intro st _ _ h; omega
  | succ fuel ih =>
    intro st hres hrem hfuel hok
    by_cases hz : st.remaining = 0
    · have hcond : ¬ (st.res = AMQP_STATUS_OK ∧ st.remaining ≠ 0) := by
        intro h; exact h.2 hz
      simp only [streaming_loop, hcond, if_false]
      refine ⟨hres, hz, ⟨[], by simp, by simp [hz]⟩, by simp [hz], hok⟩
    · obtain ⟨l1, l2, l3, l4, l5⟩ := hlaw st.bodyStreamP
      have hne : content st.bodyStreamP ≠ [] := by
        intro h
        rw [h] at hrem
        simp at hrem
        exact hz hrem
      have hpos := l2 hne
      have hsz : size_t_of_int (ls.lsAvailable st.bodyStreamP)
          = (ls.lsAvailable st.bodyStreamP).toNat :=
        size_t_of_int_eq _ (by omega) (by omega)
      have hhead : st.socket.send_results.headD AMQP_STATUS_OK = AMQP_STATUS_OK := by
        cases hs : st.socket.send_results with
        | nil => rfl
        | cons a t =>
          have := hok a (by rw [hs]; exact List.mem_cons_self _ _)
          simp [this]
      have htail : ∀ r ∈ st.socket.send_results.tail, r = AMQP_STATUS_OK :=
        fun r hr => hok r (List.mem_of_mem_tail hr)
      generalize hlen1 : (if (ls.lsAvailable st.bodyStreamP).toNat > st.remaining
        then st.remaining else (ls.lsAvailable st.bodyStreamP).toNat) = len1
      have hl1a : len1 ≤ (ls.lsAvailable st.bodyStreamP).toNat := by
        rw [← hlen1]; split <;> omega
      have hl1r : len1 ≤ st.remaining := by
        rw [← hlen1]; split <;> omega
      have hl1p : 0 < len1 := by
        rw [← hlen1]; split <;> omega
      have hpeek : (ls.lsPeek st.bodyStreamP).take len1 = (content st.bodyStreamP).take len1 := by
        have := congrArg (List.take len1) l4
        rwa [List.take_take, List.take_take, min_eq_left hl1a] at this
      obtain ⟨i1, i2, ⟨regions, i3, i4⟩, i5, i6⟩ := ih
        { res := AMQP_STATUS_OK,
          socket := { send_results := st.socket.send_results.tail,
                      wire := st.socket.wire ++ [(content st.bodyStreamP).take len1] },
          bodyStreamP := ls.lsTookBytes st.bodyStreamP len1,
          remaining := st.remaining - len1 }
        rfl
        (by
          show st.remaining - len1 ≤ (content (ls.lsTookBytes st.bodyStreamP len1)).length
          rw [l5 len1 hl1a, List.length_drop]; omega)
        (by show st.remaining - len1 < fuel; omega)
        htail
      have hcond : st.res = AMQP_STATUS_OK ∧ st.remaining ≠ 0 := ⟨hres, hz⟩
      have hnle : ¬ (ls.lsAvailable st.bodyStreamP ≤ 0) := by omega
      simp only [streaming_loop, hres, hz, ne_eq, not_false_eq_true, and_self, if_true, hnle,
        if_false, hsz, hlen1, amqp_socket_send, hhead, hpeek]
      refine ⟨i1, i2, ⟨(content st.bodyStreamP).take len1 :: regions, ?_, ?_⟩, ?_, i6⟩
      · rw [i3]; simp
      · rw [List.flatten_cons, i4]
        show _ ++ List.take (st.remaining - len1) (content (ls.lsTookBytes st.bodyStreamP len1)) = _
        rw [l5 len1 hl1a]
        have : st.remaining = len1 + (st.remaining - len1) := by omega
        conv_rhs => rw [this, List.take_add]
      · rw [i5]
        show List.drop (st.remaining - len1) (content (ls.lsTookBytes st.bodyStreamP len1)) = _
        rw [l5 len1 hl1a, List.drop_drop]
        congr 1
        omega

theorem two_octet_stream_yields : stream_yields two_octet_stream (fun src => src) := by
  intro src
  refine ⟨?_, ?_, ?_, ?_, ?_⟩
  · show ((min 2 src.length : Nat) : Int) < 2147483648
    omega
  · intro h
    have : 0 < src.length := List.length_pos.mpr h
    show 0 < ((min 2 src.length : Nat) : Int)
    omega
  · show (((min 2 src.length : Nat) : Int)).toNat ≤ src.length
    omega
  · rfl
  · intro k _
    rfl

/-- C4: for a BODY frame on channel `c` whose fragment length is `n`, and a body source
holding at least `n` octets that offers them in chunks of positive size, with every
transport send succeeding, the bytes `amqp_send_frame_streaming` hands to the transport
are exactly those `amqp_send_frame` hands over for the same frame with the first `n`
octets of the source as its fragment, and the source has had exactly `n` octets
consumed. -/
theorem streaming_matches_send_frame {M P S : Type} (codec : amqp_codec M P)
    (ls : lightStream S) (content : S → List Nat) (now : Nat)
    (tx : amqp_connection_state_t) (frame : amqp_frame_t M P) (src : S) (n : Nat)
    (hlaw : stream_yields ls content)
    (hty : frame.frame_type = AMQP_FRAME_BODY)
    (hlen : frame.payload_body_fragment.len = n)
    (hn : n ≤ (content src).length)
    (hok : ∀ r ∈ tx.socket.send_results, r = AMQP_STATUS_OK) :
    sent_by tx (amqp_send_frame_streaming codec ls now tx frame src).2.1
      = sent_by tx (amqp_send_frame codec now tx
          { frame with
            payload_body_fragment := { len := n, bytes := (content src).take n } }).2 ∧
    content (amqp_send_frame_streaming codec ls now tx frame src).2.2
      = (content src).drop n := by
  have hBl : ((content src).take n).length = n := by
    rw [List.length_take]; omega
  have hsend := send_frame_body_sent codec now tx
    { frame with payload_body_fragment := { len := n, bytes := (content src).take n } }
    ((content src).take n) hty (by rw [hBl])
  rw [hsend]
  have hhead : tx.socket.send_results.headD AMQP_STATUS_OK = AMQP_STATUS_OK := by
    cases hs : tx.socket.send_results with
    | nil => rfl
    | cons a t =>
      have := hok a (by rw [hs]; exact List.mem_cons_self _ _)
      simp [this]
  have htail : ∀ r ∈ tx.socket.send_results.tail, r = AMQP_STATUS_OK :=
    fun r hr => hok r (List.mem_of_mem_tail hr)
  have hh := frame_header_take tx.outbound_buffer.bytes AMQP_FRAME_BODY frame.channel n
  obtain ⟨i1, -, ⟨regions, i3, i4⟩, i5, i6⟩ := streaming_loop_sends ls content hlaw (n + 1)
    { res := AMQP_STATUS_OK,
      socket := { send_results := tx.socket.send_results.tail,
                  wire := tx.socket.wire ++ [[AMQP_FRAME_BODY % 256] ++ be16 frame.channel
                    ++ be32 n] },
      bodyStreamP := src, remaining := n }
    rfl hn (by show n < n + 1; omega) htail
  have hhead2 : (streaming_loop ls (n + 1)
      { res := AMQP_STATUS_OK,
        socket := { send_results := tx.socket.send_results.tail,
                    wire := tx.socket.wire ++ [[AMQP_FRAME_BODY % 256] ++ be16 frame.channel
                      ++ be32 n] },
        bodyStreamP := src, remaining := n }).socket.send_results.headD AMQP_STATUS_OK
      = AMQP_STATUS_OK := by
    cases hs : (streaming_loop ls (n + 1)
      { res := AMQP_STATUS_OK,
        socket := { send_results := tx.socket.send_results.tail,
                    wire := tx.socket.wire ++ [[AMQP_FRAME_BODY % 256] ++ be16 frame.channel
                      ++ be32 n] },
        bodyStreamP := src, remaining := n }).socket.send_results with
    | nil => rfl
    | cons a t =>
      have := i6 a (by rw [hs]; exact List.mem_cons_self _ _)
      simp [this]
  constructor
  · apply (sent_by_append tx _ ([[AMQP_FRAME_BODY % 256] ++ be16 frame.channel ++ be32 n]
      ++ regions ++ [[AMQP_FRAME_END]]) ?_).trans
    · simp only [List.flatten_append, i4, wire_frame, hBl]
      simp
    · unfold amqp_send_frame_streaming
      simp only [hty, if_true, hlen, amqp_socket_send, hhead, hh, i1, send_frame_epilogue_socket,
        i3]
      simp
  · unfold amqp_send_frame_streaming
    simp only [hty, if_true, hlen, amqp_socket_send, hhead, hh]
    exact i5

/-- Witness for C4: the body `41 42 43` drawn from a source that offers two octets at
a time. -/
theorem streaming_matches_send_frame_witness :
    sent_by (idle_connection 16)
        (amqp_send_frame_streaming raw_codec two_octet_stream 0 (idle_connection 16)
          minimum_body_frame [65, 66, 67, 68]).2.1
      = sent_by (idle_connection 16) (amqp_send_frame raw_codec 0 (idle_connection 16)
          { minimum_body_frame with
            payload_body_fragment := { len := 3, bytes := [65, 66, 67, 68].take 3 } }).2 ∧
    (amqp_send_frame_streaming raw_codec two_octet_stream 0 (idle_connection 16)
          minimum_body_frame [65, 66, 67, 68]).2.2 = [65, 66, 67, 68].drop 3 :=
  streaming_matches_send_frame raw_codec two_octet_stream (fun src => src) 0
    (idle_connection 16) minimum_body_frame [65, 66, 67, 68] 3 two_octet_stream_yields rfl rfl
    (by decide) (by decide)

/-! ## The fall-through from INITIAL -/

/-- C11: what the code does when a regular frame is the first input of a fresh
connection (state INITIAL, fresh arena memory reading 0). The eight octets read into
`header_buffer` count as consumed but only seven are copied into the frame buffer, so
the octet at offset 7 is lost: the heartbeat `08 00 00 00 00 00 00 CE` is rejected
with BAD_AMQP_DATA, and the minimum-body frame is decoded with fragment `00 42 43`
instead of `41 42 43`. An idle connection with the same `frame_max` decodes both. -/
theorem initial_fall_through_loses_octet :
    (amqp_handle_input raw_codec (plentiful_heap 0) fresh_connection
        [8, 0, 0, 0, 0, 0, 0, 206] blank_frame).ret = AMQP_STATUS_BAD_AMQP_DATA ∧
    (amqp_handle_input raw_codec (plentiful_heap 0) fresh_connection
        [8, 0, 0, 0, 0, 0, 0, 206] blank_frame).decoded_frame.frame_type = 0 ∧
    (amqp_handle_input raw_codec (plentiful_heap 0) fresh_connection
        [8, 0, 0, 0, 0, 0, 0, 206] blank_frame).state.state = CONNECTION_STATE_BODY ∧
    (amqp_handle_input raw_codec (plentiful_heap 0) (idle_connection 65536)
        [8, 0, 0, 0, 0, 0, 0, 206] blank_frame).ret = 8 ∧
    (amqp_handle_input raw_codec (plentiful_heap 0) (idle_connection 65536)
        [8, 0, 0, 0, 0, 0, 0, 206] blank_frame).decoded_frame.frame_type
      = AMQP_FRAME_HEARTBEAT ∧
    (amqp_handle_input raw_codec (plentiful_heap 0) fresh_connection
        [3, 0, 1, 0, 0, 0, 3, 65, 66, 67, 206] blank_frame).ret = 11 ∧
    (amqp_handle_input raw_codec (plentiful_heap 0) fresh_connection
        [3, 0, 1, 0, 0, 0, 3, 65, 66, 67, 206] blank_frame).decoded_frame.payload_body_fragment
      = { len := 3, bytes := [0, 66, 67] } ∧
    (amqp_handle_input raw_codec (plentiful_heap 0) (idle_connection 65536)
        [3, 0, 1, 0, 0, 0, 3, 65, 66, 67, 206] blank_frame).decoded_frame.payload_body_fragment
      = { len := 3, bytes := [65, 66, 67] } ∧
    fresh_connection.frame_max = (idle_connection 65536).frame_max := by
  decide

/-! ## Outbound frames that are not sent -/

/-- C14: for every frame whose type is none of METHOD, HEADER, HEARTBEAT, BODY,
`amqp_send_frame` and `amqp_send_frame_streaming` return INVALID_PARAMETER, hand
nothing to the transport and leave `next_send_heartbeat` as it was. -/
theorem unknown_outbound_frame_type {M P S : Type} (codec : amqp_codec M P)
    (ls : lightStream S) (now : Nat) (tx : amqp_connection_state_t)
    (frame : amqp_frame_t M P) (src : S)
    (h1 : frame.frame_type ≠ AMQP_FRAME_METHOD) (h2 : frame.frame_type ≠ AMQP_FRAME_HEADER)
    (h8 : frame.frame_type ≠ AMQP_FRAME_HEARTBEAT) (h3 : frame.frame_type ≠ AMQP_FRAME_BODY) :
    (amqp_send_frame codec now tx frame).1 = AMQP_STATUS_INVALID_PARAMETER ∧
    (amqp_send_frame codec now tx frame).2.socket = tx.socket ∧
    (amqp_send_frame codec now tx frame).2.next_send_heartbeat = tx.next_send_heartbeat ∧
    (amqp_send_frame_streaming codec ls now tx frame src).1 = AMQP_STATUS_INVALID_PARAMETER ∧
    (amqp_send_frame_streaming codec ls now tx frame src).2.1.socket = tx.socket ∧
    (amqp_send_frame_streaming codec ls now tx frame src).2.1.next_send_heartbeat
      = tx.next_send_heartbeat ∧
    (amqp_send_frame_streaming codec ls now tx frame src).2.2 = src := by
  unfold amqp_send_frame amqp_send_frame_streaming amqp_send_frame_non_body
  simp [h1, h2, h3, h8]

/-- Witness for C14: the protocol-header pseudo frame. -/
theorem unknown_outbound_frame_type_witness :
    (amqp_send_frame raw_codec 5 (idle_connection 16) protocol_header_frame).1
      = AMQP_STATUS_INVALID_PARAMETER ∧
    (amqp_send_frame raw_codec 5 (idle_connection 16) protocol_header_frame).2.socket
      = (idle_connection 16).socket ∧
    (amqp_send_frame raw_codec 5 (idle_connection 16) protocol_header_frame).2.next_send_heartbeat
      = (idle_connection 16).next_send_heartbeat ∧
    (amqp_send_frame_streaming raw_codec two_octet_stream 5 (idle_connection 16)
        protocol_header_frame [1, 2]).1 = AMQP_STATUS_INVALID_PARAMETER ∧
    (amqp_send_frame_streaming raw_codec two_octet_stream 5 (idle_connection 16)
        protocol_header_frame [1, 2]).2.1.socket = (idle_connection 16).socket ∧
    (amqp_send_frame_streaming raw_codec two_octet_stream 5 (idle_connection 16)
        protocol_header_frame [1, 2]).2.1.next_send_heartbeat
      = (idle_connection 16).next_send_heartbeat ∧
    (amqp_send_frame_streaming raw_codec two_octet_stream 5 (idle_connection 16)
        protocol_header_frame [1, 2]).2.2 = [1, 2] :=
  unknown_outbound_frame_type raw_codec two_octet_stream 5 (idle_connection 16)
    protocol_header_frame [1, 2] (by decide) (by decide) (by decide) (by decide)

/-! ## Tuning and releasing -/

/-- C17: in state INITIAL, HEADER or BODY, `amqp_tune_connection` and
`amqp_release_buffers` abort (the `ENFORCE_STATE` branch is taken, so nothing is
modified or recycled); in state IDLE neither aborts. -/
theorem tune_and_release_guarded (heap : amqp_heap) (now : Nat)
    (s : amqp_connection_state_t) (channel_max frame_max heartbeat : Int) :
    (s.state ≠ CONNECTION_STATE_IDLE →
      amqp_tune_connection heap now s channel_max frame_max heartbeat = none ∧
      amqp_release_buffers s = none) ∧
    (s.state = CONNECTION_STATE_IDLE →
      (amqp_tune_connection heap now s channel_max frame_max heartbeat).isSome = true ∧
      (amqp_release_buffers s).isSome = true) := by
  constructor
  · intro h
    simp [amqp_tune_connection, amqp_release_buffers, h]
  · intro h
    unfold amqp_tune_connection amqp_release_buffers
    simp only [h, ne_eq, not_true_eq_false, if_false]
    refine ⟨?_, rfl⟩
    split
    · rfl
    · split <;> rfl

/-- Witness for C17: a fresh connection (state INITIAL) and an idle one. -/
theorem tune_and_release_guarded_witness :
    (amqp_tune_connection (plentiful_heap 0) 1 fresh_connection 0 4096 0 = none ∧
      amqp_release_buffers fresh_connection = none) ∧
    ((amqp_tune_connection (plentiful_heap 0) 1 (idle_connection 16) 0 4096 0).isSome = true ∧
      (amqp_release_buffers (idle_connection 16)).isSome = true) :=
  ⟨(tune_and_release_guarded (plentiful_heap 0) 1 fresh_connection 0 4096 0).1 (by decide),
   (tune_and_release_guarded (plentiful_heap 0) 1 (idle_connection 16) 0 4096 0).2 rfl⟩

/-- C19: in every state other than IDLE, `amqp_maybe_release_buffers` and
`amqp_maybe_release_buffers_on_channel` return (no abort) and leave the connection as
it was; in state IDLE `amqp_maybe_release_buffers` does what `amqp_release_buffers`
does. -/
theorem maybe_release_safe (s : amqp_connection_state_t) (channel : Nat) :
    (s.state ≠ CONNECTION_STATE_IDLE →
      amqp_maybe_release_buffers s = some s ∧
      amqp_maybe_release_buffers_on_channel s channel = s) ∧
    (s.state = CONNECTION_STATE_IDLE →
      amqp_maybe_release_buffers s = amqp_release_buffers s) := by
  constructor
  · intro h
    have h' : CONNECTION_STATE_IDLE ≠ s.state := fun e => h e.symm
    simp [amqp_maybe_release_buffers, amqp_release_buffers_ok,
      amqp_maybe_release_buffers_on_channel, h, h']
  · intro h
    simp [amqp_maybe_release_buffers, amqp_release_buffers_ok, h]

/-- Witness for C19: a fresh connection (state INITIAL) and an idle one. -/
theorem maybe_release_safe_witness :
    (amqp_maybe_release_buffers fresh_connection = some fresh_connection ∧
      amqp_maybe_release_buffers_on_channel fresh_connection 1 = fresh_connection) ∧
    amqp_maybe_release_buffers (idle_connection 16) = amqp_release_buffers (idle_connection 16) :=
  ⟨(maybe_release_safe fresh_connection 1).1 (by decide),
   (maybe_release_safe (idle_connection 16) 1).2 rfl⟩

theorem resize_length (l : List Nat) (n : Nat) :
    (l.take n ++ List.replicate (n - l.length) 0).length = n := by
  simp
  omega

/-- C16: for a connection in state IDLE and `frame_max` in `[8, 2^31 - 1]`, when
`amqp_tune_connection` returns OK the connection has `channel_max`, `frame_max` and
`heartbeat` equal to the arguments and `outbound_buffer.len = frame_max`; if
`heartbeat > 0` both heartbeat deadlines have been recomputed from the one clock
reading; the decoder fields and the pool table are unchanged. -/
theorem tune_postcondition (heap : amqp_heap) (now : Nat) (s s1 : amqp_connection_state_t)
    (channel_max frame_max heartbeat : Int)
    (hidle : s.state = CONNECTION_STATE_IDLE)
    (hf8 : 8 ≤ frame_max) (hf31 : frame_max < 2147483648)
    (h : amqp_tune_connection heap now s channel_max frame_max heartbeat
      = some (AMQP_STATUS_OK, s1)) :
    s1.channel_max = channel_max ∧ s1.frame_max = frame_max ∧ s1.heartbeat = heartbeat ∧
    (s1.outbound_buffer.len : Int) = frame_max ∧
    (s1.outbound_buffer.bytes.length : Int) = frame_max ∧
    (0 < heartbeat →
      s1.next_send_heartbeat = amqp_calc_next_send_heartbeat s1 now ∧
      s1.next_recv_heartbeat = amqp_calc_next_recv_heartbeat s1 now) ∧
    s1.state = s.state ∧ s1.inbound_offset = s.inbound_offset ∧
    s1.target_size = s.target_size ∧ s1.inbound_buffer = s.inbound_buffer ∧
    s1.header_buffer = s.header_buffer ∧ s1.pool_table = s.pool_table := by
  have hlen : size_t_of_int frame_max = frame_max.toNat :=
    size_t_of_int_eq _ (by omega) (by omega)
  have hcast : ((frame_max.toNat : Nat) : Int) = frame_max := by omega
  unfold amqp_tune_connection at h
  simp only [hidle, ne_eq, not_true_eq_false, if_false, amqp_heartbeat_enabled, hlen] at h
  by_cases hb : heartbeat > 0
  · by_cases hn : now = 0
    · simp [hb, hn] at h
    · simp only [hb, decide_True, hn, and_false, if_false, if_true] at h
      split at h
      · simp only [Option.some.injEq, Prod.mk.injEq, true_and] at h
        subst h
        refine ⟨rfl, rfl, rfl, hcast, ?_, fun _ => ⟨rfl, rfl⟩, hidle.symm, rfl, rfl, rfl, rfl, rfl⟩
        rw [← hcast]
        exact congrArg _ (resize_length _ _)
      · simp at h
  · simp only [hb, decide_False, Bool.false_eq_true, false_and, if_false] at h
    split at h
    · simp only [Option.some.injEq, Prod.mk.injEq, true_and] at h
      subst h
      refine ⟨rfl, rfl, rfl, hcast, ?_, fun h0 => absurd h0 hb, hidle.symm, rfl, rfl, rfl, rfl, rfl⟩
      rw [← hcast]
      exact congrArg _ (resize_length _ _)
    · simp at h

/-- Witness for C16: tuning an idle connection to `(10, 4096, 60)` at clock reading 5. -/
theorem tune_postcondition_witness :
    ((amqp_tune_connection (plentiful_heap 0) 5 (idle_connection 16) 10 4096 60).getD
        (0, idle_connection 16)).2.frame_max = 4096 ∧
    (((amqp_tune_connection (plentiful_heap 0) 5 (idle_connection 16) 10 4096 60).getD
        (0, idle_connection 16)).2.outbound_buffer.len : Int) = 4096 ∧
    ((amqp_tune_connection (plentiful_heap 0) 5 (idle_connection 16) 10 4096 60).getD
        (0, idle_connection 16)).2.pool_table = (idle_connection 16).pool_table :=
  ⟨(tune_postcondition (plentiful_heap 0) 5 (idle_connection 16)
      ((amqp_tune_connection (plentiful_heap 0) 5 (idle_connection 16) 10 4096 60).getD
        (0, idle_connection 16)).2 10 4096 60 rfl (by decide) (by decide) rfl).2.1,
   (tune_postcondition (plentiful_heap 0) 5 (idle_connection 16)
      ((amqp_tune_connection (plentiful_heap 0) 5 (idle_connection 16) 10 4096 60).getD
        (0, idle_connection 16)).2 10 4096 60 rfl (by decide) (by decide) rfl).2.2.2.1,
   (tune_postcondition (plentiful_heap 0) 5 (idle_connection 16)
      ((amqp_tune_connection (plentiful_heap 0) 5 (idle_connection 16) 10 4096 60).getD
        (0, idle_connection 16)).2 10 4096 60 rfl (by decide) (by decide) rfl).2.2.2.2.2.2.2.2.2.2.2⟩

/-! ## The heartbeat clock on the send path -/

theorem next_send_heartbeat_congr (s t : amqp_connection_state_t) (now : Nat)
    (h : s.heartbeat = t.heartbeat) :
    amqp_calc_next_send_heartbeat s now = amqp_calc_next_send_heartbeat t now := by
  unfold amqp_calc_next_send_heartbeat
  rw [h]

theorem send_frame_non_body_heartbeat {M P : Type} (codec : amqp_codec M P)
    (s : amqp_connection_state_t) (frame : amqp_frame_t M P) :
    (amqp_send_frame_non_body codec s frame).2.heartbeat = s.heartbeat := by
  unfold amqp_send_frame_non_body
  simp only []
  split
  · split <;> rfl
  · split
    · split <;> rfl
    · split <;> rfl

theorem send_frame_eq_non_body {M P : Type} (codec : amqp_codec M P) (now : Nat)
    (tx : amqp_connection_state_t) (frame : amqp_frame_t M P)
    (hty : frame.frame_type ≠ AMQP_FRAME_BODY) :
    amqp_send_frame codec now tx frame =
      if (amqp_send_frame_non_body codec (non_body_entry tx frame) frame).1 ≠ AMQP_STATUS_OK
      then amqp_send_frame_non_body codec (non_body_entry tx frame) frame
      else send_frame_epilogue now
        (amqp_send_frame_non_body codec (non_body_entry tx frame) frame).2
        (amqp_send_frame_non_body codec (non_body_entry tx frame) frame).1 := by
  unfold amqp_send_frame
  simp only [hty, if_false]
  rfl

theorem send_frame_streaming_eq_non_body {M P S : Type} (codec : amqp_codec M P)
    (ls : lightStream S) (now : Nat) (tx : amqp_connection_state_t)
    (frame : amqp_frame_t M P) (src : S) (hty : frame.frame_type ≠ AMQP_FRAME_BODY) :
    (amqp_send_frame_streaming codec ls now tx frame src).1 = (amqp_send_frame codec now tx frame).1 ∧
    (amqp_send_frame_streaming codec ls now tx frame src).2.1 = (amqp_send_frame codec now tx frame).2 := by
  unfold amqp_send_frame amqp_send_frame_streaming
  simp only [hty, if_false]
  split <;> exact ⟨rfl, rfl⟩

/-- Counterexample for C13: heartbeats on, the clock reads 0, and the transport fails
the send of a HEARTBEAT frame with -9: `amqp_send_frame` returns -9, not
TIMER_FAILURE. -/
theorem heartbeat_clock_counterexample :
    failing_transport_connection.heartbeat > 0 ∧
    (amqp_send_frame raw_codec 0 failing_transport_connection heartbeat_frame).1 = -9 ∧
    (amqp_send_frame raw_codec 0 failing_transport_connection heartbeat_frame).1
      ≠ AMQP_STATUS_TIMER_FAILURE := by
  decide

/-- C13 (amended): on a connection with `heartbeat > 0`, for `amqp_send_frame` and
`amqp_send_frame_streaming`: for a BODY frame a clock reading of 0 gives TIMER_FAILURE
whatever the transport returned; for a METHOD, HEADER or HEARTBEAT frame the clock is
read only after `amqp_send_frame_non_body` returned OK, and a reading of 0 then gives
TIMER_FAILURE, while a failed send or encoder returns its own status with
`next_send_heartbeat` untouched; and whenever the call returns OK with a clock reading
`t > 0`, `next_send_heartbeat` is the next-send deadline computed from `t`. -/
theorem heartbeat_clock_on_send {M P S : Type} (codec : amqp_codec M P) (ls : lightStream S)
    (now : Nat) (tx : amqp_connection_state_t) (frame : amqp_frame_t M P) (src : S)
    (hhb : tx.heartbeat > 0) :
    (frame.frame_type = AMQP_FRAME_BODY → now = 0 →
      (amqp_send_frame codec now tx frame).1 = AMQP_STATUS_TIMER_FAILURE ∧
      (amqp_send_frame_streaming codec ls now tx frame src).1 = AMQP_STATUS_TIMER_FAILURE) ∧
    (frame.frame_type ≠ AMQP_FRAME_BODY →
      (amqp_send_frame_non_body codec (non_body_entry tx frame) frame).1 = AMQP_STATUS_OK →
      now = 0 →
      (amqp_send_frame codec now tx frame).1 = AMQP_STATUS_TIMER_FAILURE ∧
      (amqp_send_frame_streaming codec ls now tx frame src).1 = AMQP_STATUS_TIMER_FAILURE) ∧
    (frame.frame_type ≠ AMQP_FRAME_BODY →
      (amqp_send_frame_non_body codec (non_body_entry tx frame) frame).1 ≠ AMQP_STATUS_OK →
      (amqp_send_frame codec now tx frame).1
        = (amqp_send_frame_non_body codec (non_body_entry tx frame) frame).1 ∧
      (amqp_send_frame_streaming codec ls now tx frame src).1
        = (amqp_send_frame_non_body codec (non_body_entry tx frame) frame).1 ∧
      (amqp_send_frame codec now tx frame).2.next_send_heartbeat = tx.next_send_heartbeat ∧
      (amqp_send_frame_streaming codec ls now tx frame src).2.1.next_send_heartbeat
        = tx.next_send_heartbeat) ∧
    (now ≠ 0 → (amqp_send_frame codec now tx frame).1 = AMQP_STATUS_OK →
      (amqp_send_frame codec now tx frame).2.next_send_heartbeat
        = amqp_calc_next_send_heartbeat tx now) ∧
    (now ≠ 0 → (amqp_send_frame_streaming codec ls now tx frame src).1 = AMQP_STATUS_OK →
      (amqp_send_frame_streaming codec ls now tx frame src).2.1.next_send_heartbeat
        = amqp_calc_next_send_heartbeat tx now) := by
  have hnb : (amqp_send_frame_non_body codec (non_body_entry tx frame) frame).2.heartbeat > 0 := by
    rw [send_frame_non_body_heartbeat]; exact hhb
  have hnbh : (amqp_send_frame_non_body codec (non_body_entry tx frame) frame).2.heartbeat
      = tx.heartbeat := by
    rw [send_frame_non_body_heartbeat]; rfl
  have hnbn : (amqp_send_frame_non_body codec (non_body_entry tx frame) frame).1
      ≠ AMQP_STATUS_OK →
      (amqp_send_frame_non_body codec (non_body_entry tx frame) frame).2.next_send_heartbeat
        = tx.next_send_heartbeat := by
    intro _
    unfold amqp_send_frame_non_body
    simp only []
    split
    · split <;> rfl
    · split
      · split <;> rfl
      · split <;> rfl
  refine ⟨?_, ?_, ?_, ?_, ?_⟩
  · intro hty hnow
    unfold amqp_send_frame amqp_send_frame_streaming send_frame_epilogue
    simp [hty, hhb, hnow]
  · intro hty hok hnow
    obtain ⟨e1, -⟩ := send_frame_streaming_eq_non_body codec ls now tx frame src hty
    rw [e1, send_frame_eq_non_body codec now tx frame hty]
    simp [hok, send_frame_epilogue, hnb, hnow]
  · intro hty hfail
    obtain ⟨e1, e2⟩ := send_frame_streaming_eq_non_body codec ls now tx frame src hty
    rw [e1, e2, send_frame_eq_non_body codec now tx frame hty]
    simp only [hfail, ne_eq, not_false_eq_true, if_true]
    exact ⟨trivial, trivial, hnbn hfail, hnbn hfail⟩
  · intro hnow hok
    by_cases hty : frame.frame_type = AMQP_FRAME_BODY
    · unfold amqp_send_frame send_frame_epilogue
      simp only [hty, if_true, hhb, hnow, if_false]
      exact next_send_heartbeat_congr _ _ _ rfl
    · rw [send_frame_eq_non_body codec now tx frame hty] at hok ⊢
      by_cases hr : (amqp_send_frame_non_body codec (non_body_entry tx frame) frame).1
          = AMQP_STATUS_OK
      · simp only [hr, ne_eq, not_true_eq_false, if_false, send_frame_epilogue, hnb, if_true, hnow]
        exact next_send_heartbeat_congr _ _ _ hnbh
      · simp only [hr, ne_eq, not_false_eq_true, if_true] at hok
  · intro hnow hok
    by_cases hty : frame.frame_type = AMQP_FRAME_BODY
    · unfold amqp_send_frame_streaming send_frame_epilogue
      simp only [hty, if_true, hhb, hnow, if_false]
      exact next_send_heartbeat_congr _ _ _ rfl
    · obtain ⟨e1, e2⟩ := send_frame_streaming_eq_non_body codec ls now tx frame src hty
      rw [e1] at hok
      rw [e2]
      rw [send_frame_eq_non_body codec now tx frame hty] at hok ⊢
      by_cases hr : (amqp_send_frame_non_body codec (non_body_entry tx frame) frame).1
          = AMQP_STATUS_OK
      · simp only [hr, ne_eq, not_true_eq_false, if_false, send_frame_epilogue, hnb, if_true, hnow]
        exact next_send_heartbeat_congr _ _ _ hnbh
      · simp only [hr, ne_eq, not_false_eq_true, if_true] at hok

/-- Witness for C13 (amended): a BODY frame on a connection with a 60 s heartbeat and
a clock reading of 0. -/
theorem heartbeat_clock_on_send_witness :
    (amqp_send_frame raw_codec 0 heartbeat_connection minimum_body_frame).1
      = AMQP_STATUS_TIMER_FAILURE ∧
    (amqp_send_frame_streaming raw_codec two_octet_stream 0 heartbeat_connection
        minimum_body_frame [65, 66, 67]).1 = AMQP_STATUS_TIMER_FAILURE :=
  (heartbeat_clock_on_send raw_codec two_octet_stream 0 heartbeat_connection
    minimum_body_frame [65, 66, 67] (by decide)).1 rfl rfl

/-! ## The wire layout of non-body frames -/

theorem be64_length (v : Nat) : (be64 v).length = 8 := rfl

theorem streaming_loop_stop {S : Type} (ls : lightStream S) (j : Nat)
    (st : streaming_loop_state S) (h : ¬ (st.res = AMQP_STATUS_OK ∧ st.remaining ≠ 0)) :
    streaming_loop ls j st = st := by
  cases j with
  | zero => rfl
  | succ j => simp only [streaming_loop, h, if_false]

theorem streaming_loop_unfold {S : Type} (ls : lightStream S) (fuel : Nat)
    (st : streaming_loop_state S) :
    streaming_loop ls (fuel + 1) st =
      if st.res = AMQP_STATUS_OK ∧ st.remaining ≠ 0 then
        if ls.lsAvailable st.bodyStreamP ≤ 0 then
          { st with res := AMQP_STATUS_UNEXPECTED_STATE }
        else if (amqp_socket_send st.socket ((ls.lsPeek st.bodyStreamP).take
            (if size_t_of_int (ls.lsAvailable st.bodyStreamP) > st.remaining then st.remaining
              else size_t_of_int (ls.lsAvailable st.bodyStreamP)))).1 = AMQP_STATUS_OK then
          streaming_loop ls fuel
            { res := (amqp_socket_send st.socket ((ls.lsPeek st.bodyStreamP).take
                (if size_t_of_int (ls.lsAvailable st.bodyStreamP) > st.remaining
                  then st.remaining
                  else size_t_of_int (ls.lsAvailable st.bodyStreamP)))).1,
              socket := (amqp_socket_send st.socket ((ls.lsPeek st.bodyStreamP).take
                (if size_t_of_int (ls.lsAvailable st.bodyStreamP) > st.remaining
                  then st.remaining
                  else size_t_of_int (ls.lsAvailable st.bodyStreamP)))).2,
              bodyStreamP := ls.lsTookBytes st.bodyStreamP
                (if size_t_of_int (ls.lsAvailable st.bodyStreamP) > st.remaining
                  then st.remaining
                  else size_t_of_int (ls.lsAvailable st.bodyStreamP)),
              remaining := st.remaining -
                (if size_t_of_int (ls.lsAvailable st.bodyStreamP) > st.remaining
                  then st.remaining
                  else size_t_of_int (ls.lsAvailable st.bodyStreamP)) }
        else
          streaming_loop ls fuel
            { st with
              res := (amqp_socket_send st.socket ((ls.lsPeek st.bodyStreamP).take
                (if size_t_of_int (ls.lsAvailable st.bodyStreamP) > st.remaining
                  then st.remaining
                  else size_t_of_int (ls.lsAvailable st.bodyStreamP)))).1,
              socket := (amqp_socket_send st.socket ((ls.lsPeek st.bodyStreamP).take
                (if size_t_of_int (ls.lsAvailable st.bodyStreamP) > st.remaining
                  then st.remaining
                  else size_t_of_int (ls.lsAvailable st.bodyStreamP)))).2 }
      else st := by
  rfl

theorem streaming_loop_add {S : Type} (ls : lightStream S) (j : Nat) :
    ∀ (k : Nat) (st : streaming_loop_state S),
      streaming_loop ls (k + j) st = streaming_loop ls j (streaming_loop ls k st) := by
  intro k
  induction k with
  | zero => intro st; simp [streaming_loop]
  | succ k ih =>
    intro st
    have e : k + 1 + j = (k + j) + 1 := by omega
    rw [e, streaming_loop_unfold ls (k + j), streaming_loop_unfold ls k]
    by_cases hc : st.res = AMQP_STATUS_OK ∧ st.remaining ≠ 0
    · rw [if_pos hc, if_pos hc]
      by_cases hl : ls.lsAvailable st.bodyStreamP ≤ 0
      · rw [if_pos hl, if_pos hl, streaming_loop_stop]
        intro h
        simp [AMQP_STATUS_UNEXPECTED_STATE, AMQP_STATUS_OK] at h
      · rw [if_neg hl, if_neg hl]
        generalize (if size_t_of_int (ls.lsAvailable st.bodyStreamP) > st.remaining
          then st.remaining else size_t_of_int (ls.lsAvailable st.bodyStreamP)) = len1
        by_cases hs : (amqp_socket_send st.socket
            (List.take len1 (ls.lsPeek st.bodyStreamP))).1 = AMQP_STATUS_OK
        · rw [if_pos hs, if_pos hs]
          exact ih _
        · rw [if_neg hs, if_neg hs]
          exact ih _
    · rw [if_neg hc, if_neg hc, streaming_loop_stop ls j st hc]

theorem streaming_loop_progress {S : Type} (ls : lightStream S)
    (hint : ∀ s, ls.lsAvailable s < 2147483648) :
    ∀ (k : Nat) (st : streaming_loop_state S),
      (streaming_loop ls k st).res = AMQP_STATUS_OK →
      (streaming_loop ls k st).remaining ≠ 0 →
      (streaming_loop ls k st).remaining + k ≤ st.remaining := by
  intro k
  induction k with
  | zero => intro st _ _; simp [streaming_loop]
  | succ k ih =>
    intro st hres hrem
    rw [streaming_loop_unfold] at hres hrem ⊢
    by_cases hc : st.res = AMQP_STATUS_OK ∧ st.remaining ≠ 0
    · rw [if_pos hc] at hres hrem ⊢
      by_cases hl : ls.lsAvailable st.bodyStreamP ≤ 0
      · rw [if_pos hl] at hres
        simp [AMQP_STATUS_UNEXPECTED_STATE, AMQP_STATUS_OK] at hres
      · rw [if_neg hl] at hres hrem ⊢
        have hsz : size_t_of_int (ls.lsAvailable st.bodyStreamP)
            = (ls.lsAvailable st.bodyStreamP).toNat :=
          size_t_of_int_eq _ (by omega) (by have := hint st.bodyStreamP; omega)
        rw [hsz] at hres hrem ⊢
        generalize hlen1 : (if (ls.lsAvailable st.bodyStreamP).toNat > st.remaining
          then st.remaining else (ls.lsAvailable st.bodyStreamP).toNat) = len1 at hres hrem ⊢
        have hl1r : len1 ≤ st.remaining := by
          rw [← hlen1]; split <;> omega
        have hl1p : 0 < len1 := by
          have := hc.2
          rw [← hlen1]; split <;> omega
        by_cases hs : (amqp_socket_send st.socket
            (List.take len1 (ls.lsPeek st.bodyStreamP))).1 = AMQP_STATUS_OK
        · rw [if_pos hs] at hres hrem ⊢
          have := ih _ hres hrem
          simp only at this
          omega
        · rw [if_neg hs] at hres hrem ⊢
          rw [streaming_loop_stop ls k _ (fun h => hs h.1)] at hres
          exact absurd hres hs
    · rw [if_neg hc] at hres hrem
      exact absurd ⟨hres, hrem⟩ hc

/-- C15: in `amqp_send_frame_streaming` for a BODY frame, if the body source answers
`lsAvailable` with a value `≤ 0` at a pass of the send loop where the result so far is
OK and octets remain to be sent (heartbeats off or the clock not failing), the call
returns UNEXPECTED_STATE, nothing more is handed to the transport (so no frame end),
and the source is left as it was at that pass; and when the declared length is 0 and
the header send succeeds, the header and the frame end are sent and the source is not
used at all. -/
theorem body_source_exhausted {M P S : Type} (codec : amqp_codec M P) (ls : lightStream S)
    (now : Nat) (tx : amqp_connection_state_t) (frame : amqp_frame_t M P) (src : S)
    (hty : frame.frame_type = AMQP_FRAME_BODY)
    (hint : ∀ s, ls.lsAvailable s < 2147483648) :
    (∀ k : Nat,
      (streaming_loop ls k (streaming_start tx frame src)).res = AMQP_STATUS_OK →
      (streaming_loop ls k (streaming_start tx frame src)).remaining ≠ 0 →
      ls.lsAvailable (streaming_loop ls k (streaming_start tx frame src)).bodyStreamP ≤ 0 →
      (tx.heartbeat ≤ 0 ∨ now ≠ 0) →
        (amqp_send_frame_streaming codec ls now tx frame src).1
          = AMQP_STATUS_UNEXPECTED_STATE ∧
        (amqp_send_frame_streaming codec ls now tx frame src).2.1.socket
          = (streaming_loop ls k (streaming_start tx frame src)).socket ∧
        (amqp_send_frame_streaming codec ls now tx frame src).2.2
          = (streaming_loop ls k (streaming_start tx frame src)).bodyStreamP) ∧
    (frame.payload_body_fragment.len = 0 →
      (streaming_start tx frame src).res = AMQP_STATUS_OK →
        (amqp_send_frame_streaming codec ls now tx frame src).2.1.socket.wire
          = tx.socket.wire ++
            [[AMQP_FRAME_BODY] ++ be16 frame.channel ++ be32 0, [AMQP_FRAME_END]] ∧
        (amqp_send_frame_streaming codec ls now tx frame src).2.2 = src ∧
        ∀ ls1 : lightStream S,
          amqp_send_frame_streaming codec ls1 now tx frame src
            = amqp_send_frame_streaming codec ls now tx frame src) := by
  have hrun : ∀ ls0 : lightStream S, amqp_send_frame_streaming codec ls0 now tx frame src =
      ((send_frame_epilogue now
          { non_body_entry tx frame with
            outbound_buffer := { (non_body_entry tx frame).outbound_buffer with
              bytes := amqp_e32 (out_frame_start tx frame) 3 frame.payload_body_fragment.len },
            socket := (if (streaming_loop ls0 (frame.payload_body_fragment.len + 1)
                (streaming_start tx frame src)).res = AMQP_STATUS_OK
              then amqp_socket_send (streaming_loop ls0 (frame.payload_body_fragment.len + 1)
                (streaming_start tx frame src)).socket [AMQP_FRAME_END]
              else ((streaming_loop ls0 (frame.payload_body_fragment.len + 1)
                  (streaming_start tx frame src)).res,
                (streaming_loop ls0 (frame.payload_body_fragment.len + 1)
                  (streaming_start tx frame src)).socket)).2 }
          (if (streaming_loop ls0 (frame.payload_body_fragment.len + 1)
                (streaming_start tx frame src)).res = AMQP_STATUS_OK
              then amqp_socket_send (streaming_loop ls0 (frame.payload_body_fragment.len + 1)
                (streaming_start tx frame src)).socket [AMQP_FRAME_END]
              else ((streaming_loop ls0 (frame.payload_body_fragment.len + 1)
                  (streaming_start tx frame src)).res,
                (streaming_loop ls0 (frame.payload_body_fragment.len + 1)
                  (streaming_start tx frame src)).socket)).1).1,
       (send_frame_epilogue now
          { non_body_entry tx frame with
            outbound_buffer := { (non_body_entry tx frame).outbound_buffer with
              bytes := amqp_e32 (out_frame_start tx frame) 3 frame.payload_body_fragment.len },
            socket := (if (streaming_loop ls0 (frame.payload_body_fragment.len + 1)
                (streaming_start tx frame src)).res = AMQP_STATUS_OK
              then amqp_socket_send (streaming_loop ls0 (frame.payload_body_fragment.len + 1)
                (streaming_start tx frame src)).socket [AMQP_FRAME_END]
              else ((streaming_loop ls0 (frame.payload_body_fragment.len + 1)
                  (streaming_start tx frame src)).res,
                (streaming_loop ls0 (frame.payload_body_fragment.len + 1)
                  (streaming_start tx frame src)).socket)).2 }
          (if (streaming_loop ls0 (frame.payload_body_fragment.len + 1)
                (streaming_start tx frame src)).res = AMQP_STATUS_OK
              then amqp_socket_send (streaming_loop ls0 (frame.payload_body_fragment.len + 1)
                (streaming_start tx frame src)).socket [AMQP_FRAME_END]
              else ((streaming_loop ls0 (frame.payload_body_fragment.len + 1)
                  (streaming_start tx frame src)).res,
                (streaming_loop ls0 (frame.payload_body_fragment.len + 1)
                  (streaming_start tx frame src)).socket)).1).2,
       (streaming_loop ls0 (frame.payload_body_fragment.len + 1)
          (streaming_start tx frame src)).bodyStreamP) := by
    intro ls0
    unfold amqp_send_frame_streaming
    simp only [hty, if_true, streaming_start, non_body_entry, out_frame_start]
  constructor
  · intro k hres hrem hav hhb
    have hprog := streaming_loop_progress ls hint k (streaming_start tx frame src) hres hrem
    have hn : (streaming_start tx frame src).remaining = frame.payload_body_fragment.len := rfl
    rw [hn] at hprog
    have hsplit : frame.payload_body_fragment.len + 1
        = k + ((frame.payload_body_fragment.len - k) + 1) := by omega
    have hloop : streaming_loop ls (frame.payload_body_fragment.len + 1)
        (streaming_start tx frame src)
        = { streaming_loop ls k (streaming_start tx frame src) with
            res := AMQP_STATUS_UNEXPECTED_STATE } := by
      rw [hsplit, streaming_loop_add, streaming_loop_unfold, if_pos ⟨hres, hrem⟩, if_pos hav]
    have hne : ¬ (AMQP_STATUS_UNEXPECTED_STATE = AMQP_STATUS_OK) := by decide
    refine ⟨?_, ?_, ?_⟩
    · rw [hrun ls, hloop]
      simp only [hne, if_false]
      unfold send_frame_epilogue
      rcases hhb with hhb | hhb
      · have : ¬ (tx.heartbeat > 0) := by omega
        simp [non_body_entry, this]
      · simp only [hhb, if_false]
        split <;> rfl
    · rw [hrun ls, hloop]
      simp only [hne, if_false, send_frame_epilogue_socket]
    · rw [hrun ls, hloop]
  · intro hlen hok
    have hstop : ∀ ls0 : lightStream S, streaming_loop ls0 (frame.payload_body_fragment.len + 1)
        (streaming_start tx frame src) = streaming_start tx frame src := by
      intro ls0
      apply streaming_loop_stop
      intro h
      exact h.2 hlen
    have hh := frame_header_take tx.outbound_buffer.bytes AMQP_FRAME_BODY frame.channel 0
    refine ⟨?_, ?_, ?_⟩
    · rw [hrun ls, hstop ls]
      simp only [hok, if_true, send_frame_epilogue_socket]
      simp only [streaming_start, amqp_socket_send, out_frame_start, hlen, hty, HEADER_SIZE, hh]
      simp [AMQP_FRAME_BODY]
    · rw [hrun ls, hstop ls]
      rfl
    · intro ls1
      rw [hrun ls, hrun ls1, hstop ls, hstop ls1]
/-- Witness for C15: a BODY frame declaring three octets over a source that holds only
`41 42`. After one pass of the loop the two octets are sent, one remains and the source
is dry: the call returns UNEXPECTED_STATE and the transport has received the header and
the two octets, and no frame end. -/
theorem body_source_exhausted_witness :
    (amqp_send_frame_streaming raw_codec two_octet_stream 0 (idle_connection 16)
        minimum_body_frame [65, 66]).1 = AMQP_STATUS_UNEXPECTED_STATE ∧
    (amqp_send_frame_streaming raw_codec two_octet_stream 0 (idle_connection 16)
        minimum_body_frame [65, 66]).2.1.socket
      = (streaming_loop two_octet_stream 1
          (streaming_start (idle_connection 16) minimum_body_frame [65, 66])).socket ∧
    (amqp_send_frame_streaming raw_codec two_octet_stream 0 (idle_connection 16)
        minimum_body_frame [65, 66]).2.2
      = (streaming_loop two_octet_stream 1
          (streaming_start (idle_connection 16) minimum_body_frame [65, 66])).bodyStreamP ∧
    (streaming_loop two_octet_stream 1
        (streaming_start (idle_connection 16) minimum_body_frame [65, 66])).socket.wire
      = [[3, 0, 1, 0, 0, 0, 3], [65, 66]] :=
  ⟨((body_source_exhausted raw_codec two_octet_stream 0 (idle_connection 16)
      minimum_body_frame [65, 66] rfl
      (by intro s; simp only [two_octet_stream]; omega)).1 1
      (by decide) (by decide) (by decide) (by decide)).1,
   ((body_source_exhausted raw_codec two_octet_stream 0 (idle_connection 16)
      minimum_body_frame [65, 66] rfl
      (by intro s; simp only [two_octet_stream]; omega)).1 1
      (by decide) (by decide) (by decide) (by decide)).2.1,
   ((body_source_exhausted raw_codec two_octet_stream 0 (idle_connection 16)
      minimum_body_frame [65, 66] rfl
      (by intro s; simp only [two_octet_stream]; omega)).1 1
      (by decide) (by decide) (by decide) (by decide)).2.2,
   by decide⟩

/-! ## Selective recycling -/

theorem pool_table_find_at (pre post : List amqp_pool_table_entry_t)
    (e : amqp_pool_table_entry_t) (h : ∀ x ∈ pre, x.channel ≠ e.channel) :
    (pre ++ e :: post).find? (fun x => x.channel = e.channel) = some e := by
  induction pre with
  | nil => simp
  | cons a pre ih =>
    have ha : a.channel ≠ e.channel := h a (List.mem_cons_self _ _)
    simp only [List.cons_append, List.find?_cons, ha, decide_False]
    exact ih (fun x hx => h x (List.mem_cons_of_mem _ hx))

theorem pool_table_store_at (pre post : List amqp_pool_table_entry_t)
    (e : amqp_pool_table_entry_t) (p : amqp_pool_t) (h : ∀ x ∈ pre, x.channel ≠ e.channel) :
    pool_table_store (pre ++ e :: post) e.channel p = pre ++ { e with pool := p } :: post := by
  induction pre with
  | nil => simp [pool_table_store]
  | cons a pre ih =>
    have ha : a.channel ≠ e.channel := h a (List.mem_cons_self _ _)
    rw [List.cons_append, pool_table_store, if_neg ha,
      ih (fun x hx => h x (List.mem_cons_of_mem _ hx))]
    rfl

theorem release_fold (q : List Nat) :
    ∀ (l done : List amqp_pool_table_entry_t) (st : amqp_connection_state_t),
      st.state = CONNECTION_STATE_IDLE →
      st.first_queued_frame = q →
      st.pool_table = done.map (fun e => if e.channel ∈ q then e
          else { e with pool := recycle_amqp_pool e.pool }) ++ l →
      ((done ++ l).map (fun e => e.channel)).Nodup →
      l.foldl (fun st entry => amqp_maybe_release_buffers_on_channel st entry.channel) st
        = { st with pool_table := (done ++ l).map (fun e => if e.channel ∈ q then e
              else { e with pool := recycle_amqp_pool e.pool }) } := by
  intro l
  induction l with
  | nil =>
    intro done st _ _ ht _
    simp only [List.foldl_nil, List.append_nil] at ht ⊢
    rw [← ht]
  | cons e l ih =>
    intro done st hidle hq ht hnd
    simp only [List.foldl_cons]
    have hne : ¬ (CONNECTION_STATE_IDLE ≠ st.state) := by rw [hidle]; simp
    have hpre : ∀ x ∈ done.map (fun e => if e.channel ∈ q then e
        else { e with pool := recycle_amqp_pool e.pool }), x.channel ≠ e.channel := by
      intro x hx
      rw [List.mem_map] at hx
      obtain ⟨y, hy, hxy⟩ := hx
      have hyc : x.channel = y.channel := by
        rw [← hxy]; split <;> rfl
      rw [hyc]
      intro hc
      rw [List.map_append, List.map_cons, List.nodup_append] at hnd
      exact hnd.2.2 (List.mem_map_of_mem _ hy) (by rw [hc]; exact List.mem_cons_self _ _)
    have hstep : amqp_maybe_release_buffers_on_channel st e.channel
        = { st with pool_table := (done ++ [e]).map (fun e => if e.channel ∈ q then e
              else { e with pool := recycle_amqp_pool e.pool }) ++ l } := by
      unfold amqp_maybe_release_buffers_on_channel
      rw [if_neg hne]
      by_cases hm : e.channel ∈ q
      · rw [if_pos (hq ▸ hm)]
        simp only [List.map_append, List.map_cons, List.map_nil, hm, if_true,
          List.append_assoc, List.singleton_append]
        rw [← ht]
      · rw [if_neg (hq ▸ hm)]
        unfold amqp_get_channel_pool set_channel_pool
        rw [ht, pool_table_find_at _ _ _ hpre]
        simp only [Option.map_some', pool_table_store_at _ _ _ _ hpre]
        simp only [List.map_append, List.map_cons, List.map_nil, hm, if_false,
          List.append_assoc, List.singleton_append]
    rw [hstep]
    have := ih (done ++ [e])
      { st with pool_table := (done ++ [e]).map (fun e => if e.channel ∈ q then e
              else { e with pool := recycle_amqp_pool e.pool }) ++ l }
      hidle hq rfl (by rw [List.append_assoc]; exact hnd)
    rw [this]
    simp only [List.append_assoc, List.singleton_append]

theorem released_find (q : List Nat) (c : Nat) :
    ∀ T : List amqp_pool_table_entry_t,
      (T.map (fun e => if e.channel ∈ q then e
          else { e with pool := recycle_amqp_pool e.pool })).find? (fun x => x.channel = c)
        = (T.find? (fun x => x.channel = c)).map (fun e => if e.channel ∈ q then e
          else { e with pool := recycle_amqp_pool e.pool }) := by
  intro T
  induction T with
  | nil => rfl
  | cons a T ih =>
    have hch : (if a.channel ∈ q then a
        else { a with pool := recycle_amqp_pool a.pool }).channel = a.channel := by
      split <;> rfl
    simp only [List.map_cons, List.find?_cons, hch]
    by_cases hc : a.channel = c
    · simp [hc]
    · simp only [hc, decide_False]
      exact ih

/-- C18: for a connection in state IDLE (pool table with one entry per channel, as
`amqp_get_or_create_channel_pool` keeps it), `amqp_release_buffers` returns and leaves
the connection as it was but for the pool table, which is `released_pool_table`: the
entries and their channels are the same, in the same order; the arena of a channel on
which no queued frame is has been recycled; the arena of a channel that some queued
frame is on is exactly as it was. -/
theorem selective_recycling (s : amqp_connection_state_t)
    (hidle : s.state = CONNECTION_STATE_IDLE)
    (hnd : (s.pool_table.map (fun e => e.channel)).Nodup) :
    amqp_release_buffers s = some { s with pool_table := released_pool_table s } ∧
    (released_pool_table s).map (fun e => e.channel) = s.pool_table.map (fun e => e.channel) ∧
    (∀ c : Nat, c ∈ s.first_queued_frame →
      amqp_get_channel_pool { s with pool_table := released_pool_table s } c
        = amqp_get_channel_pool s c) ∧
    (∀ c : Nat, c ∉ s.first_queued_frame →
      amqp_get_channel_pool { s with pool_table := released_pool_table s } c
        = (amqp_get_channel_pool s c).map recycle_amqp_pool) := by
  refine ⟨?_, ?_, ?_, ?_⟩
  · unfold amqp_release_buffers
    rw [if_neg (by rw [hidle]; simp)]
    have := release_fold s.first_queued_frame s.pool_table [] s hidle rfl (by simp)
      (by simpa using hnd)
    rw [this]
    simp [released_pool_table]
  · unfold released_pool_table
    rw [List.map_map]
    apply List.map_congr_left
    intro e _
    simp only [Function.comp]
    split <;> rfl
  · intro c hc
    unfold amqp_get_channel_pool released_pool_table
    simp only [released_find]
    cases hf : s.pool_table.find? (fun x => x.channel = c) with
    | none => rfl
    | some e =>
      have hec : e.channel = c := by
        have := List.find?_some hf
        simpa using this
      simp [hec, hc]
  · intro c hc
    unfold amqp_get_channel_pool released_pool_table
    simp only [released_find]
    cases hf : s.pool_table.find? (fun x => x.channel = c) with
    | none => rfl
    | some e =>
      have hec : e.channel = c := by
        have := List.find?_some hf
        simpa using this
      simp [hec, hc]

/-- Witness for C18: arenas on channels 1, 2 and 3 with a frame queued on channel 2;
the arenas of channels 1 and 3 are recycled and that of channel 2 is left alone. -/
theorem selective_recycling_witness :
    (amqp_release_buffers queued_connection
        = some { queued_connection with pool_table := released_pool_table queued_connection } ∧
      (released_pool_table queued_connection).map (fun e => e.channel)
        = queued_connection.pool_table.map (fun e => e.channel) ∧
      (∀ c : Nat, c ∈ queued_connection.first_queued_frame →
        amqp_get_channel_pool
            { queued_connection with pool_table := released_pool_table queued_connection } c
          = amqp_get_channel_pool queued_connection c) ∧
      (∀ c : Nat, c ∉ queued_connection.first_queued_frame →
        amqp_get_channel_pool
            { queued_connection with pool_table := released_pool_table queued_connection } c
          = (amqp_get_channel_pool queued_connection c).map recycle_amqp_pool)) ∧
    released_pool_table queued_connection
      = [{ channel := 1, pool := { pagesize := 131072, allocated := [] } },
         { channel := 2, pool := { pagesize := 131072, allocated := [24, 9] } },
         { channel := 3, pool := { pagesize := 131072, allocated := [] } }] :=
  ⟨selective_recycling queued_connection rfl (by decide), by decide⟩

/-! ## The decoder fields at IDLE -/

theorem send_frame_non_body_decoder {M P : Type} (codec : amqp_codec M P)
    (s : amqp_connection_state_t) (frame : amqp_frame_t M P) :
    decoder_fields (amqp_send_frame_non_body codec s frame).2 = decoder_fields s := by
  unfold amqp_send_frame_non_body
  simp only []
  repeat' split
  all_goals rfl

theorem send_frame_epilogue_decoder (now : Nat) (s : amqp_connection_state_t) (res : Int) :
    decoder_fields (send_frame_epilogue now s res).2 = decoder_fields s := by
  unfold send_frame_epilogue
  repeat' split
  all_goals rfl

theorem send_frame_decoder {M P : Type} (codec : amqp_codec M P) (now : Nat)
    (s : amqp_connection_state_t) (frame : amqp_frame_t M P) :
    decoder_fields (amqp_send_frame codec now s frame).2 = decoder_fields s := by
  unfold amqp_send_frame
  simp only []
  split
  · rw [send_frame_epilogue_decoder]; rfl
  · split
    · rw [send_frame_non_body_decoder]; rfl
    · rw [send_frame_epilogue_decoder, send_frame_non_body_decoder]; rfl

theorem tune_connection_decoder (heap : amqp_heap) (now : Nat)
    (s s1 : amqp_connection_state_t) (channel_max frame_max heartbeat res : Int)
    (h : amqp_tune_connection heap now s channel_max frame_max heartbeat = some (res, s1)) :
    decoder_fields s1 = decoder_fields s := by
  unfold amqp_tune_connection at h
  simp only [] at h
  split at h
  · exact absurd h (by simp)
  · split at h
    · simp only [Option.some.injEq, Prod.mk.injEq] at h
      rw [← h.2]; rfl
    · split at h
      · simp only [Option.some.injEq, Prod.mk.injEq] at h
        rw [← h.2]
        split <;> rfl
      · simp only [Option.some.injEq, Prod.mk.injEq] at h
        rw [← h.2]
        split <;> rfl

theorem maybe_release_on_channel_decoder (s : amqp_connection_state_t) (channel : Nat) :
    decoder_fields (amqp_maybe_release_buffers_on_channel s channel) = decoder_fields s := by
  unfold amqp_maybe_release_buffers_on_channel
  repeat' split
  all_goals rfl

theorem release_fold_decoder (l : List amqp_pool_table_entry_t) :
    ∀ s : amqp_connection_state_t,
      decoder_fields (l.foldl
        (fun st entry => amqp_maybe_release_buffers_on_channel st entry.channel) s)
        = decoder_fields s := by
  induction l with
  | nil => intro s; rfl
  | cons e l ih =>
    intro s
    rw [List.foldl_cons, ih, maybe_release_on_channel_decoder]

theorem release_buffers_decoder (s s1 : amqp_connection_state_t)
    (h : amqp_release_buffers s = some s1) : decoder_fields s1 = decoder_fields s := by
  unfold amqp_release_buffers at h
  split at h
  · exact absurd h (by simp)
  · simp only [Option.some.injEq] at h
    rw [← h, release_fold_decoder]

theorem maybe_release_buffers_decoder (s s1 : amqp_connection_state_t)
    (h : amqp_maybe_release_buffers s = some s1) : decoder_fields s1 = decoder_fields s := by
  unfold amqp_maybe_release_buffers at h
  split at h
  · exact release_buffers_decoder s s1 h
  · simp only [Option.some.injEq] at h
    rw [h]

theorem get_or_create_decoder (heap : amqp_heap) (s s1 : amqp_connection_state_t) (c : Nat)
    (h : amqp_get_or_create_channel_pool heap s c = some s1) :
    decoder_fields s1 = decoder_fields s := by
  rw [get_or_create_some heap s s1 c h]; rfl

theorem body_arm_idle {M P : Type} (codec : amqp_codec M P) (heap : amqp_heap)
    (s : amqp_connection_state_t) (n : Nat) (frame : amqp_frame_t M P)
    (hs : s.state ≠ CONNECTION_STATE_IDLE) :
    (amqp_handle_input_BODY codec heap s n frame).state.state = CONNECTION_STATE_IDLE →
      decoder_fields (amqp_handle_input_BODY codec heap s n frame).state
        = (CONNECTION_STATE_IDLE, 0, HEADER_SIZE,
            { len := HEADER_SIZE + 1, bytes := amqp_bytes_ptr.header_buffer }) := by
  unfold amqp_handle_input_BODY
  simp only []
  split
  · intro h; exact absurd h hs
  · split
    · intro h; exact absurd h hs
    · rename_i s1 hg
      have hs1 : s1.state = s.state := by
        rw [get_or_create_some heap s s1 _ hg]
      repeat' split
      all_goals first
        | (intro _; rfl)
        | (intro h; exact absurd (h.symm.trans hs1).symm hs)

theorem header_arm_idle {M P : Type} (codec : amqp_codec M P) (heap : amqp_heap)
    (s : amqp_connection_state_t) (data : List Nat) (n : Nat) (frame : amqp_frame_t M P)
    (hs : s.state ≠ CONNECTION_STATE_IDLE) :
    (amqp_handle_input_HEADER codec heap s data n frame).state.state = CONNECTION_STATE_IDLE →
      decoder_fields (amqp_handle_input_HEADER codec heap s data n frame).state
        = (CONNECTION_STATE_IDLE, 0, HEADER_SIZE,
            { len := HEADER_SIZE + 1, bytes := amqp_bytes_ptr.header_buffer }) := by
  unfold amqp_handle_input_HEADER
  simp only []
  split
  · intro h; exact absurd h hs
  · rename_i s1 hg
    have hs1 : s1.state = s.state := by
      rw [get_or_create_some heap s s1 _ hg]
    split
    · intro h; exact absurd (h.symm.trans hs1).symm hs
    · split
      · intro h
        exact absurd (h.symm.trans hs1).symm hs
      · split
        · intro h
          rw [consume_data_state] at h
          exact absurd h (by simp)
        · apply body_arm_idle
          rw [consume_data_state]
          simp

theorem handle_input_idle {M P : Type} (codec : amqp_codec M P) (heap : amqp_heap)
    (s : amqp_connection_state_t) (data : List Nat) (frame : amqp_frame_t M P)
    (hinv : s.state = CONNECTION_STATE_IDLE →
      s.inbound_offset = 0 ∧ s.target_size = HEADER_SIZE ∧
        s.inbound_buffer.bytes = amqp_bytes_ptr.header_buffer) :
    (amqp_handle_input codec heap s data frame).state.state = CONNECTION_STATE_IDLE →
      (amqp_handle_input codec heap s data frame).state.inbound_offset = 0 ∧
      (amqp_handle_input codec heap s data frame).state.target_size = HEADER_SIZE ∧
      (amqp_handle_input codec heap s data frame).state.inbound_buffer.bytes
        = amqp_bytes_ptr.header_buffer := by
  have conv : ∀ t : amqp_connection_state_t,
      decoder_fields t = (CONNECTION_STATE_IDLE, 0, HEADER_SIZE,
        { len := HEADER_SIZE + 1, bytes := amqp_bytes_ptr.header_buffer }) →
      t.inbound_offset = 0 ∧ t.target_size = HEADER_SIZE ∧
        t.inbound_buffer.bytes = amqp_bytes_ptr.header_buffer := by
    intro t ht
    simp only [decoder_fields, Prod.mk.injEq] at ht
    exact ⟨ht.2.1, ht.2.2.1, by rw [ht.2.2.2]⟩
  have h0 : (if s.state = CONNECTION_STATE_IDLE
      then { s with state := CONNECTION_STATE_HEADER } else s).state
      ≠ CONNECTION_STATE_IDLE := by
    split
    · simp
    · assumption
  unfold amqp_handle_input
  simp only []
  split
  · exact hinv
  · generalize (if s.state = CONNECTION_STATE_IDLE
      then { s with state := CONNECTION_STATE_HEADER } else s) = s0 at h0
    have hc : (consume_data s0 data).2.1.state ≠ CONNECTION_STATE_IDLE := by
      rw [consume_data_state]; exact h0
    split
    · intro h; exact absurd h hc
    · split
      · split
        · intro _
          exact ⟨rfl, rfl, rfl⟩
        · intro h
          exact conv _ (header_arm_idle codec heap _ _ _ _ hc h)
      · intro h
        exact conv _ (header_arm_idle codec heap _ _ _ _ hc h)
      · intro h
        exact conv _ (body_arm_idle codec heap _ _ _ hc h)
      · intro h; exact absurd h hc

/-- C20: in every connection state reachable from `amqp_new_connection` by calls of
`amqp_handle_input`, `amqp_tune_connection`, `amqp_release_buffers`,
`amqp_maybe_release_buffers` and `amqp_send_frame` (whatever their arguments and
results), if the state is IDLE then `inbound_offset = 0`, `target_size = 7` and the
inbound buffer refers to `header_buffer`. -/
theorem idle_invariant {M P : Type} (codec : amqp_codec M P) (s : amqp_connection_state_t)
    (h : reachable codec s) (hidle : s.state = CONNECTION_STATE_IDLE) :
    s.inbound_offset = 0 ∧ s.target_size = 7 ∧
      s.inbound_buffer.bytes = amqp_bytes_ptr.header_buffer := by
  have key : ∀ t : amqp_connection_state_t, reachable codec t →
      (t.state = CONNECTION_STATE_IDLE →
        t.inbound_offset = 0 ∧ t.target_size = HEADER_SIZE ∧
          t.inbound_buffer.bytes = amqp_bytes_ptr.header_buffer) := by
    intro t ht
    have carry : ∀ a b : amqp_connection_state_t, decoder_fields b = decoder_fields a →
        (a.state = CONNECTION_STATE_IDLE →
          a.inbound_offset = 0 ∧ a.target_size = HEADER_SIZE ∧
            a.inbound_buffer.bytes = amqp_bytes_ptr.header_buffer) →
        (b.state = CONNECTION_STATE_IDLE →
          b.inbound_offset = 0 ∧ b.target_size = HEADER_SIZE ∧
            b.inbound_buffer.bytes = amqp_bytes_ptr.header_buffer) := by
      intro a b hab ha hb
      simp only [decoder_fields, Prod.mk.injEq] at hab
      rw [hab.1] at hb
      rw [hab.2.1, hab.2.2.1, hab.2.2.2]
      exact ha hb
    induction ht with
    | new_connection heap s0 h0 =>
      intro hi
      have := (new_connection_fields heap s0 h0).1
      rw [this] at hi
      exact absurd hi (by decide)
    | handle_input heap s0 data frame _ ih =>
      exact handle_input_idle codec heap s0 data frame ih
    | tune_connection heap now s0 cm fm hb res s1 _ h1 ih =>
      exact carry s0 s1 (tune_connection_decoder heap now s0 s1 cm fm hb res h1) ih
    | release_buffers s0 s1 _ h1 ih =>
      exact carry s0 s1 (release_buffers_decoder s0 s1 h1) ih
    | maybe_release_buffers s0 s1 _ h1 ih =>
      exact carry s0 s1 (maybe_release_buffers_decoder s0 s1 h1) ih
    | send_frame now s0 frame _ ih =>
      exact carry s0 _ (send_frame_decoder codec now s0 frame) ih
  exact key s h hidle

/-- Witness for C20: the connection after `amqp_new_connection` and the protocol
header `AMQP 0 0 9 1` is reachable and IDLE. -/
theorem idle_invariant_witness :
    (amqp_handle_input raw_codec (plentiful_heap 0) fresh_connection
        [65, 77, 81, 80, 0, 0, 9, 1] blank_frame).state.state = CONNECTION_STATE_IDLE ∧
    (amqp_handle_input raw_codec (plentiful_heap 0) fresh_connection
        [65, 77, 81, 80, 0, 0, 9, 1] blank_frame).state.inbound_offset = 0 ∧
    (amqp_handle_input raw_codec (plentiful_heap 0) fresh_connection
        [65, 77, 81, 80, 0, 0, 9, 1] blank_frame).state.target_size = 7 ∧
    (amqp_handle_input raw_codec (plentiful_heap 0) fresh_connection
        [65, 77, 81, 80, 0, 0, 9, 1] blank_frame).state.inbound_buffer.bytes
      = amqp_bytes_ptr.header_buffer :=
  ⟨by decide,
   idle_invariant raw_codec _
     (reachable.handle_input (plentiful_heap 0) fresh_connection
       [65, 77, 81, 80, 0, 0, 9, 1] blank_frame
       (reachable.new_connection (plentiful_heap 0) fresh_connection rfl))
     (by decide)⟩

/-! ## The offset bound -/

/-- C21: what the code does after `amqp_new_connection`, the protocol header
`AMQP 0 0 9 1` and the seven octets `01 00 00 FF FF FF F9` (a frame header whose payload
length field is `0xFFFFFFF9`). The frame size wraps to 1 and passes the size check, the
frame-end check at offset 0 fails and the call returns BAD_AMQP_DATA; the connection,
which is reachable by `amqp_handle_input` calls alone, is left with `inbound_offset = 7`
above `target_size = 1`, and the amount `consume_data` is ready to copy next,
`target_size - inbound_offset` in `size_t`, is `4294967290`. -/
theorem offset_bound_broken_by_wrapped_length :
    reachable raw_codec
      (amqp_handle_input raw_codec (plentiful_heap 0)
        (amqp_handle_input raw_codec (plentiful_heap 0) fresh_connection
          [65, 77, 81, 80, 0, 0, 9, 1] blank_frame).state
        [1, 0, 0, 255, 255, 255, 249] blank_frame).state ∧
    (amqp_handle_input raw_codec (plentiful_heap 0)
        (amqp_handle_input raw_codec (plentiful_heap 0) fresh_connection
          [65, 77, 81, 80, 0, 0, 9, 1] blank_frame).state
        [1, 0, 0, 255, 255, 255, 249] blank_frame).ret = AMQP_STATUS_BAD_AMQP_DATA ∧
    (amqp_handle_input raw_codec (plentiful_heap 0)
        (amqp_handle_input raw_codec (plentiful_heap 0) fresh_connection
          [65, 77, 81, 80, 0, 0, 9, 1] blank_frame).state
        [1, 0, 0, 255, 255, 255, 249] blank_frame).state.frame_max = 65536 ∧
    (amqp_handle_input raw_codec (plentiful_heap 0)
        (amqp_handle_input raw_codec (plentiful_heap 0) fresh_connection
          [65, 77, 81, 80, 0, 0, 9, 1] blank_frame).state
        [1, 0, 0, 255, 255, 255, 249] blank_frame).state.inbound_offset = 7 ∧
    (amqp_handle_input raw_codec (plentiful_heap 0)
        (amqp_handle_input raw_codec (plentiful_heap 0) fresh_connection
          [65, 77, 81, 80, 0, 0, 9, 1] blank_frame).state
        [1, 0, 0, 255, 255, 255, 249] blank_frame).state.target_size = 1 ∧
    size_sub
      (amqp_handle_input raw_codec (plentiful_heap 0)
        (amqp_handle_input raw_codec (plentiful_heap 0) fresh_connection
          [65, 77, 81, 80, 0, 0, 9, 1] blank_frame).state
        [1, 0, 0, 255, 255, 255, 249] blank_frame).state.target_size
      (amqp_handle_input raw_codec (plentiful_heap 0)
        (amqp_handle_input raw_codec (plentiful_heap 0) fresh_connection
          [65, 77, 81, 80, 0, 0, 9, 1] blank_frame).state
        [1, 0, 0, 255, 255, 255, 249] blank_frame).state.inbound_offset = 4294967290 :=
  ⟨reachable.handle_input _ _ _ _
      (reachable.handle_input _ _ _ _
        (reachable.new_connection (plentiful_heap 0) fresh_connection rfl)),
    by decide, by decide, by decide, by decide, by decide⟩

/-! ## Payload slices of short frames -/

/-- C27: what the code does on complete, correctly terminated frames within `frame_max`
whose payload is shorter than the fixed fields of their type (`frame_max = 4096`). The
METHOD frame `01 00 00 00 00 00 00 CE` (payload length 0) is accepted, the method id is
read from offsets 7 to 10, which starts at the frame-end octet and runs past the frame,
and `decode_method` is handed a region of `4294967292` octets (`0 - 4` in `size_t`).
The HEADER frame `02 00 00 00 00 00 04 00 0A 00 00 CE` (payload length 4) is accepted
and its `raw` region has length `4294967288` (`4 - 12` in `size_t`). -/
theorem short_payload_slice_underflows :
    (amqp_handle_input length_probe_codec (plentiful_heap 0) (idle_connection 4096)
        [1, 0, 0, 0, 0, 0, 0, 206] blank_probe_frame).ret = 8 ∧
    (amqp_handle_input length_probe_codec (plentiful_heap 0) (idle_connection 4096)
        [1, 0, 0, 0, 0, 0, 0, 206] blank_probe_frame).decoded_frame.frame_type
      = AMQP_FRAME_METHOD ∧
    (amqp_handle_input length_probe_codec (plentiful_heap 0) (idle_connection 4096)
        [1, 0, 0, 0, 0, 0, 0, 206] blank_probe_frame).decoded_frame.payload_method_decoded
      = 4294967292 ∧
    (amqp_handle_input length_probe_codec (plentiful_heap 0) (idle_connection 4096)
        [1, 0, 0, 0, 0, 0, 0, 206] blank_probe_frame).decoded_frame.payload_method_id
      = 206 * 16777216 ∧
    (amqp_handle_input length_probe_codec (plentiful_heap 0) (idle_connection 4096)
        [2, 0, 0, 0, 0, 0, 4, 0, 10, 0, 0, 206] blank_probe_frame).ret = 12 ∧
    (amqp_handle_input length_probe_codec (plentiful_heap 0) (idle_connection 4096)
        [2, 0, 0, 0, 0, 0, 4, 0, 10, 0, 0, 206] blank_probe_frame).decoded_frame.frame_type
      = AMQP_FRAME_HEADER ∧
    (amqp_handle_input length_probe_codec (plentiful_heap 0) (idle_connection 4096)
        [2, 0, 0, 0, 0, 0, 4, 0, 10, 0, 0, 206]
        blank_probe_frame).decoded_frame.payload_properties_raw.len = 4294967288 ∧
    (amqp_handle_input length_probe_codec (plentiful_heap 0) (idle_connection 4096)
        [2, 0, 0, 0, 0, 0, 4, 0, 10, 0, 0, 206]
        blank_probe_frame).decoded_frame.payload_properties_decoded = 4294967288 := by
  decide

/-! ## After BAD_AMQP_DATA -/

/-- C26: what the code does after a BAD_AMQP_DATA that follows a wrapped frame size
(`frame_max = 4096`). The header `01 00 00 FF FF FF F9` gets `target_size = 1`, the
frame-end check reads offset 0 and the call returns BAD_AMQP_DATA with
`inbound_offset = 7`. The next call, on the three octets `05 06 07`, returns
BAD_AMQP_DATA again with `frame_type = 0` and the state still BODY, but `consume_data`
has copied the three octets into the frame buffer and `inbound_offset` is now 10. -/
theorem bad_data_not_sticky_after_wrapped_length :
    (amqp_handle_input raw_codec (plentiful_heap 0) (idle_connection 4096)
        [1, 0, 0, 255, 255, 255, 249] blank_frame).ret = AMQP_STATUS_BAD_AMQP_DATA ∧
    (amqp_handle_input raw_codec (plentiful_heap 0) (idle_connection 4096)
        [1, 0, 0, 255, 255, 255, 249] blank_frame).state.state = CONNECTION_STATE_BODY ∧
    (amqp_handle_input raw_codec (plentiful_heap 0) (idle_connection 4096)
        [1, 0, 0, 255, 255, 255, 249] blank_frame).state.inbound_offset = 7 ∧
    (amqp_handle_input raw_codec (plentiful_heap 0) (idle_connection 4096)
        [1, 0, 0, 255, 255, 255, 249] blank_frame).state.target_size = 1 ∧
    (amqp_handle_input raw_codec (plentiful_heap 0)
        (amqp_handle_input raw_codec (plentiful_heap 0) (idle_connection 4096)
          [1, 0, 0, 255, 255, 255, 249] blank_frame).state
        [5, 6, 7] blank_frame).ret = AMQP_STATUS_BAD_AMQP_DATA ∧
    (amqp_handle_input raw_codec (plentiful_heap 0)
        (amqp_handle_input raw_codec (plentiful_heap 0) (idle_connection 4096)
          [1, 0, 0, 255, 255, 255, 249] blank_frame).state
        [5, 6, 7] blank_frame).decoded_frame.frame_type = 0 ∧
    (amqp_handle_input raw_codec (plentiful_heap 0)
        (amqp_handle_input raw_codec (plentiful_heap 0) (idle_connection 4096)
          [1, 0, 0, 255, 255, 255, 249] blank_frame).state
        [5, 6, 7] blank_frame).state.state = CONNECTION_STATE_BODY ∧
    (amqp_handle_input raw_codec (plentiful_heap 0)
        (amqp_handle_input raw_codec (plentiful_heap 0) (idle_connection 4096)
          [1, 0, 0, 255, 255, 255, 249] blank_frame).state
        [5, 6, 7] blank_frame).state.inbound_offset = 10 ∧
    inbound_bytes (amqp_handle_input raw_codec (plentiful_heap 0)
        (amqp_handle_input raw_codec (plentiful_heap 0) (idle_connection 4096)
          [1, 0, 0, 255, 255, 255, 249] blank_frame).state
        [5, 6, 7] blank_frame).state = [1, 0, 0, 255, 255, 255, 249, 5, 6, 7] := by
  decide

/-! ## Content-header frames -/

theorem body_arm_header {M P : Type} (codec : amqp_codec M P) (heap : amqp_heap)
    (s : amqp_connection_state_t) (bc : Nat) (frame : amqp_frame_t M P)
    (hm : heap.malloc_entry = true)
    (hf : amqp_d8 (inbound_bytes s) (size_sub s.target_size 1) = AMQP_FRAME_END)
    (hty : amqp_d8 (inbound_bytes s) 0 = AMQP_FRAME_HEADER) :
    (amqp_handle_input_BODY codec heap s bc frame).decoded_frame =
      { frame with
        frame_type := AMQP_FRAME_HEADER,
        channel := amqp_d16 (inbound_bytes s) 1,
        payload_properties_class_id := amqp_d16 (inbound_bytes s) HEADER_SIZE,
        payload_properties_body_size := amqp_d64 (inbound_bytes s) (HEADER_SIZE + 4),
        payload_properties_raw := amqp_bytes_at (inbound_bytes s) (HEADER_SIZE + 12)
          (size_sub (size_sub (size_sub s.target_size HEADER_SIZE) 12) FOOTER_SIZE),
        payload_properties_decoded :=
          (codec.decode_properties (amqp_d16 (inbound_bytes s) HEADER_SIZE)
            (channel_pool_of
              { s with pool_table := ensured_pool_table s (amqp_d16 (inbound_bytes s) 1) }
              (amqp_d16 (inbound_bytes s) 1))
            (amqp_bytes_at (inbound_bytes s) (HEADER_SIZE + 12)
              (size_sub (size_sub (size_sub s.target_size HEADER_SIZE) 12) FOOTER_SIZE))).2.2 } ∧
    ((codec.decode_properties (amqp_d16 (inbound_bytes s) HEADER_SIZE)
        (channel_pool_of
          { s with pool_table := ensured_pool_table s (amqp_d16 (inbound_bytes s) 1) }
          (amqp_d16 (inbound_bytes s) 1))
        (amqp_bytes_at (inbound_bytes s) (HEADER_SIZE + 12)
          (size_sub (size_sub (size_sub s.target_size HEADER_SIZE) 12) FOOTER_SIZE))).1 < 0 →
      (amqp_handle_input_BODY codec heap s bc frame).ret =
        (codec.decode_properties (amqp_d16 (inbound_bytes s) HEADER_SIZE)
          (channel_pool_of
            { s with pool_table := ensured_pool_table s (amqp_d16 (inbound_bytes s) 1) }
            (amqp_d16 (inbound_bytes s) 1))
          (amqp_bytes_at (inbound_bytes s) (HEADER_SIZE + 12)
            (size_sub (size_sub (size_sub s.target_size HEADER_SIZE) 12) FOOTER_SIZE))).1) ∧
    (0 ≤ (codec.decode_properties (amqp_d16 (inbound_bytes s) HEADER_SIZE)
        (channel_pool_of
          { s with pool_table := ensured_pool_table s (amqp_d16 (inbound_bytes s) 1) }
          (amqp_d16 (inbound_bytes s) 1))
        (amqp_bytes_at (inbound_bytes s) (HEADER_SIZE + 12)
          (size_sub (size_sub (size_sub s.target_size HEADER_SIZE) 12) FOOTER_SIZE))).1 →
      (amqp_handle_input_BODY codec heap s bc frame).ret = int_of_size_t bc ∧
      at_frame_boundary (amqp_handle_input_BODY codec heap s bc frame).state) := by
  have hnm : ¬ (AMQP_FRAME_HEADER = AMQP_FRAME_METHOD) := by decide
  unfold amqp_handle_input_BODY
  simp only [hf, hty, hnm, get_or_create_eq _ _ _ hm, ne_eq, not_true_eq_false, if_false,
    if_true]
  refine ⟨?_, ?_, ?_⟩
  · split <;> rfl
  · intro hneg
    rw [if_pos hneg]
  · intro hpos
    rw [if_neg (not_lt.mpr hpos)]
    exact ⟨rfl, rfl, rfl, rfl, rfl⟩

theorem amqp_d16_octets (X : List Nat) (i : Nat) :
    amqp_d16 X i = X.getD i 0 * 256 + X.getD (i + 1) 0 := by
  simp only [amqp_d16, amqp_d8]

theorem amqp_d32_octets (X : List Nat) (i : Nat) :
    amqp_d32 X i = X.getD i 0 * 16777216 + X.getD (i + 1) 0 * 65536
      + X.getD (i + 2) 0 * 256 + X.getD (i + 3) 0 := by
  simp only [amqp_d32, amqp_d16, amqp_d8]
  ring

theorem amqp_d64_octets (X : List Nat) (i : Nat) :
    amqp_d64 X i = X.getD i 0 * 72057594037927936 + X.getD (i + 1) 0 * 281474976710656
      + X.getD (i + 2) 0 * 1099511627776 + X.getD (i + 3) 0 * 4294967296
      + X.getD (i + 4) 0 * 16777216 + X.getD (i + 5) 0 * 65536
      + X.getD (i + 6) 0 * 256 + X.getD (i + 7) 0 := by
  simp only [amqp_d64, amqp_d32, amqp_d16, amqp_d8]
  ring

/-- C25: when the last piece of a complete HEADER frame `W` arrives (type octet 2, the
four length octets at offset 3 giving the payload length `L = |W| - 8` with `L ≥ 12`,
last octet `0xCE`, `|W| ≤ frame_max`), `amqp_handle_input` reports `class_id` as the
octet at offset 7 times 256 plus the octet at offset 8, `body_size` as the eight octets
at offsets 11 to 18 read as a big-endian number, and `raw` as the `L - 12` octets from
offset 19 up to the frame-end octet, whatever the two octets at offset 9 are;
`decode_properties` is called with that class id and that region; its negative result
is returned as it is, and otherwise the byte count is returned and the connection is
IDLE again. -/
theorem content_header_decode {M P : Type} (codec : amqp_codec M P) (heap : amqp_heap)
    (s : amqp_connection_state_t) (W data : List Nat) (k : Nat) (frame : amqp_frame_t M P)
    (hm : heap.malloc_entry = true) (ha : heap.pool_alloc W.length = true)
    (hW20 : 20 ≤ W.length)
    (hWl : W.getD 3 0 * 16777216 + W.getD 4 0 * 65536 + W.getD 5 0 * 256 + W.getD 6 0 + 8
      = W.length)
    (hWF : (W.length : Int) ≤ s.frame_max) (hint : s.frame_max < 2147483648)
    (hty : W.getD 0 0 = 2)
    (hend : W.getD (W.length - 1) 0 = 206)
    (hr : receiving W k s) (hne : data ≠ [])
    (hkm : k + data.length = W.length)
    (hseg : W.take (k + data.length) = W.take k ++ data) :
    ∃ pool : amqp_pool_t,
      (amqp_handle_input codec heap s data frame).decoded_frame.frame_type = 2 ∧
      (amqp_handle_input codec heap s data frame).decoded_frame.channel
        = W.getD 1 0 * 256 + W.getD 2 0 ∧
      (amqp_handle_input codec heap s data frame).decoded_frame.payload_properties_class_id
        = W.getD 7 0 * 256 + W.getD 8 0 ∧
      (amqp_handle_input codec heap s data frame).decoded_frame.payload_properties_body_size
        = W.getD 11 0 * 72057594037927936 + W.getD 12 0 * 281474976710656
          + W.getD 13 0 * 1099511627776 + W.getD 14 0 * 4294967296
          + W.getD 15 0 * 16777216 + W.getD 16 0 * 65536
          + W.getD 17 0 * 256 + W.getD 18 0 ∧
      (amqp_handle_input codec heap s data frame).decoded_frame.payload_properties_raw
        = { len := W.length - 8 - 12, bytes := (W.drop 19).take (W.length - 8 - 12) } ∧
      (amqp_handle_input codec heap s data frame).decoded_frame.payload_properties_raw.bytes
        = (W.drop 19).dropLast ∧
      (amqp_handle_input codec heap s data frame).decoded_frame.payload_properties_decoded
        = (codec.decode_properties (W.getD 7 0 * 256 + W.getD 8 0) pool
            { len := W.length - 8 - 12,
              bytes := (W.drop 19).take (W.length - 8 - 12) }).2.2 ∧
      ((codec.decode_properties (W.getD 7 0 * 256 + W.getD 8 0) pool
          { len := W.length - 8 - 12, bytes := (W.drop 19).take (W.length - 8 - 12) }).1 < 0 →
        (amqp_handle_input codec heap s data frame).ret
          = (codec.decode_properties (W.getD 7 0 * 256 + W.getD 8 0) pool
              { len := W.length - 8 - 12,
                bytes := (W.drop 19).take (W.length - 8 - 12) }).1) ∧
      (0 ≤ (codec.decode_properties (W.getD 7 0 * 256 + W.getD 8 0) pool
          { len := W.length - 8 - 12, bytes := (W.drop 19).take (W.length - 8 - 12) }).1 →
        (amqp_handle_input codec heap s data frame).ret = (data.length : Int) ∧
        (amqp_handle_input codec heap s data frame).state.state = CONNECTION_STATE_IDLE) := by
  have hWl' : amqp_d32 W 3 + 8 = W.length := by rw [amqp_d32_octets]; exact hWl
  have hty' : amqp_d8 W 0 = AMQP_FRAME_HEADER := hty
  have hend' : amqp_d8 W (W.length - 1) = AMQP_FRAME_END := hend
  have hWF' : W.length ≤ size_t_of_int s.frame_max := by
    rw [size_t_of_int_eq _ (by omega) (by omega)]; omega
  obtain ⟨-, hp⟩ := handle_input_piece codec heap s W data k frame hm ha (by omega) hWl' hWF'
    (by omega) hr hne (by omega) hseg
  obtain ⟨s2, bc, e, hbc, hfc, -⟩ := hp hkm
  have hfoot := frame_complete_footer _ _ hfc
  rw [hend'] at hfoot
  have hin : inbound_bytes s2 = W := hfc.2.2.2.1
  have hts : s2.target_size = W.length := hfc.2.2.2.2.2
  have hlen : size_sub (size_sub (size_sub s2.target_size HEADER_SIZE) 12) FOOTER_SIZE
      = W.length - 8 - 12 := by
    have hW32 : W.length < SIZE_MOD := by
      have : W.length < 2147483648 := by omega
      simp only [SIZE_MOD]; omega
    have h1 : size_sub W.length 7 = W.length - 7 := size_sub_eq _ _ (by omega) hW32
    have h2 : size_sub (W.length - 7) 12 = W.length - 7 - 12 :=
      size_sub_eq _ _ (by omega) (by omega)
    have h3 : size_sub (W.length - 7 - 12) 1 = W.length - 7 - 12 - 1 :=
      size_sub_eq _ _ (by omega) (by omega)
    simp only [HEADER_SIZE, FOOTER_SIZE]
    rw [hts, h1, h2, h3]
    omega
  obtain ⟨hdf, hneg, hpos⟩ := body_arm_header codec heap s2 bc { frame with frame_type := 0 } hm
    hfoot (by rw [hin]; exact hty')
  rw [hlen, hin] at hdf hneg hpos
  simp only [HEADER_SIZE, amqp_d16_octets, amqp_d64_octets, amqp_bytes_at] at hdf hneg hpos
  refine ⟨channel_pool_of
    { s2 with pool_table := ensured_pool_table s2 (W.getD 1 0 * 256 + W.getD 2 0) }
    (W.getD 1 0 * 256 + W.getD 2 0), ?_⟩
  rw [e, hdf]
  refine ⟨rfl, rfl, rfl, rfl, rfl, ?_, rfl, hneg, ?_⟩
  · show (W.drop 19).take (W.length - 8 - 12) = (W.drop 19).dropLast
    have hcount : W.length - 8 - 12 = W.length - 19 - 1 := by omega
    rw [List.dropLast_eq_take, List.length_drop, hcount]
  · intro h0
    obtain ⟨h1, h2⟩ := hpos h0
    exact ⟨by rw [h1, hbc], h2.1⟩

/-- Witness for C25: the HEADER frame `content_header_octets` (channel `0x0205`, class
id `0x012C = 300`, weight octets `AB CD`, body size `0x0102030405060708`, property
octets `80 00`), fed whole to an idle connection. -/
theorem content_header_decode_witness :
    ∃ pool : amqp_pool_t,
      (amqp_handle_input raw_codec (plentiful_heap 0) (idle_connection 4096)
        content_header_octets blank_frame).decoded_frame.frame_type = 2 ∧
      (amqp_handle_input raw_codec (plentiful_heap 0) (idle_connection 4096)
        content_header_octets blank_frame).decoded_frame.channel = 517 ∧
      (amqp_handle_input raw_codec (plentiful_heap 0) (idle_connection 4096)
        content_header_octets blank_frame).decoded_frame.payload_properties_class_id = 300 ∧
      (amqp_handle_input raw_codec (plentiful_heap 0) (idle_connection 4096)
        content_header_octets blank_frame).decoded_frame.payload_properties_body_size
          = 72623859790382856 ∧
      (amqp_handle_input raw_codec (plentiful_heap 0) (idle_connection 4096)
        content_header_octets blank_frame).decoded_frame.payload_properties_raw
          = { len := 2, bytes := [128, 0] } ∧
      (amqp_handle_input raw_codec (plentiful_heap 0) (idle_connection 4096)
        content_header_octets blank_frame).decoded_frame.payload_properties_raw.bytes
          = [128, 0] ∧
      (amqp_handle_input raw_codec (plentiful_heap 0) (idle_connection 4096)
        content_header_octets blank_frame).decoded_frame.payload_properties_decoded
          = (raw_codec.decode_properties 300 pool { len := 2, bytes := [128, 0] }).2.2 ∧
      ((raw_codec.decode_properties 300 pool { len := 2, bytes := [128, 0] }).1 < 0 →
        (amqp_handle_input raw_codec (plentiful_heap 0) (idle_connection 4096)
          content_header_octets blank_frame).ret
            = (raw_codec.decode_properties 300 pool { len := 2, bytes := [128, 0] }).1) ∧
      (0 ≤ (raw_codec.decode_properties 300 pool { len := 2, bytes := [128, 0] }).1 →
        (amqp_handle_input raw_codec (plentiful_heap 0) (idle_connection 4096)
          content_header_octets blank_frame).ret = 22 ∧
        (amqp_handle_input raw_codec (plentiful_heap 0) (idle_connection 4096)
          content_header_octets blank_frame).state.state = CONNECTION_STATE_IDLE) :=
  content_header_decode raw_codec (plentiful_heap 0) (idle_connection 4096)
    content_header_octets content_header_octets 0 blank_frame
    rfl rfl (by decide) (by decide) (by decide) (by decide) (by decide) (by decide)
    (receiving_start _ _ ⟨rfl, rfl, rfl, rfl⟩) (by decide) (by decide) (by decide)

/-! ## The TLS send loop -/

theorem send_loop_cons (buf : List Nat) (len flags startTimeNs : Nat) (r : tls_io_result)
    (rest : List tls_io_result) (self : amqp_ssl_socket_t) (offset : Nat) (len_left : Int)
    (world : tls_world) :
    amqp_ssl_socket_send_loop buf len flags startTimeNs (r :: rest) self offset len_left world =
      if r.res ≥ 0 ∧ r.res = len_left then
        some (AMQP_STATUS_OK,
          { (if r.res < 0 then { self with last_error := r.error } else self) with
            last_error := 0 },
          { world with
            send_script := rest,
            sends := world.sends ++
              [{ buf := buf.drop offset, len := len_left, flags := flags }],
            clock := world.clock.tail })
      else if sendTimeMs startTimeNs (world.clock.headD 0) > 1000 then
        some (AMQP_STATUS_SOCKET_ERROR,
          (if r.res < 0 then { self with last_error := r.error } else self),
          { world with
            send_script := rest,
            sends := world.sends ++
              [{ buf := buf.drop offset, len := len_left, flags := flags }],
            clock := world.clock.tail })
      else if r.res < 0 then
        if SSL_ERROR_WANT_WRITE
            = (if r.res < 0 then { self with last_error := r.error } else self).last_error then
          amqp_ssl_socket_send_loop buf len flags startTimeNs rest
            (if r.res < 0 then { self with last_error := r.error } else self) offset len_left
            { world with
              send_script := rest,
              sends := world.sends ++
                [{ buf := buf.drop offset, len := len_left, flags := flags }],
              clock := world.clock.tail }
        else if EINTR
            = (if r.res < 0 then { self with last_error := r.error } else self).last_error then
          amqp_ssl_socket_send_loop buf len flags startTimeNs rest
            (if r.res < 0 then { self with last_error := r.error } else self) offset len_left
            { world with
              send_script := rest,
              sends := world.sends ++
                [{ buf := buf.drop offset, len := len_left, flags := flags }],
              clock := world.clock.tail }
        else
          some (AMQP_STATUS_SOCKET_ERROR,
            (if r.res < 0 then { self with last_error := r.error } else self),
            { world with
              send_script := rest,
              sends := world.sends ++
                [{ buf := buf.drop offset, len := len_left, flags := flags }],
              clock := world.clock.tail })
      else
        amqp_ssl_socket_send_loop buf len flags startTimeNs rest
          (if r.res < 0 then { self with last_error := r.error } else self)
          (size_add offset r.res.toNat) (ssize_sub len_left r.res)
          { world with
            send_script := rest,
            sends := world.sends ++
              [{ buf := buf.drop offset, len := len_left, flags := flags }],
            clock := world.clock.tail } := by
  rfl

theorem send_loop_shape (buf : List Nat) (len flags startTimeNs : Nat) :
    ∀ (script : List tls_io_result) (self : amqp_ssl_socket_t) (offset : Nat) (len_left : Int)
      (world : tls_world) (out : Int × amqp_ssl_socket_t × tls_world),
      amqp_ssl_socket_send_loop buf len flags startTimeNs script self offset len_left world
        = some out →
      (out.1 = AMQP_STATUS_OK ∨ out.1 = AMQP_STATUS_SOCKET_ERROR) ∧
      ∃ n : Nat, 0 < n ∧ n ≤ script.length ∧
        out.2.2.send_script = script.drop n ∧
        out.2.2.sends.length = world.sends.length + n ∧
        out.2.2.recvs = world.recvs ∧ out.2.2.os_closed = world.os_closed ∧
        out.2.2.ssl_freed = world.ssl_freed ∧
        out.2.1.sockfd = self.sockfd ∧ out.2.1.ssl = self.ssl ∧ out.2.1.ctx = self.ctx ∧
        (∀ r ∈ script.take n, r.res < 0 → r.error ≠ SSL_ERROR_WANT_WRITE → r.error ≠ EINTR →
          out.1 = AMQP_STATUS_SOCKET_ERROR) := by
  intro script
  induction script with
  | nil =>
    intro self offset len_left world out h
    simp [amqp_ssl_socket_send_loop] at h
  | cons r rest ih =>
    intro self offset len_left world out h
    rw [send_loop_cons] at h
    have hfields : ∀ x : amqp_ssl_socket_t,
        (if r.res < 0 then { x with last_error := r.error } else x).sockfd = x.sockfd ∧
        (if r.res < 0 then { x with last_error := r.error } else x).ssl = x.ssl ∧
        (if r.res < 0 then { x with last_error := r.error } else x).ctx = x.ctx := by
      intro x; split <;> exact ⟨rfl, rfl, rfl⟩
    have hle : (if r.res < 0 then { self with last_error := r.error } else self).last_error
        = if r.res < 0 then r.error else self.last_error := by
      split <;> rfl
    have step : ∀ (o : Nat) (l : Int),
        amqp_ssl_socket_send_loop buf len flags startTimeNs rest
          (if r.res < 0 then { self with last_error := r.error } else self) o l
          { world with
            send_script := rest,
            sends := world.sends ++
              [{ buf := buf.drop offset, len := len_left, flags := flags }],
            clock := world.clock.tail } = some out →
        (r.res < 0 → r.error ≠ SSL_ERROR_WANT_WRITE → r.error ≠ EINTR → False) →
        (out.1 = AMQP_STATUS_OK ∨ out.1 = AMQP_STATUS_SOCKET_ERROR) ∧
        ∃ n : Nat, 0 < n ∧ n ≤ (r :: rest).length ∧
          out.2.2.send_script = (r :: rest).drop n ∧
          out.2.2.sends.length = world.sends.length + n ∧
          out.2.2.recvs = world.recvs ∧ out.2.2.os_closed = world.os_closed ∧
          out.2.2.ssl_freed = world.ssl_freed ∧
          out.2.1.sockfd = self.sockfd ∧ out.2.1.ssl = self.ssl ∧ out.2.1.ctx = self.ctx ∧
          (∀ x ∈ (r :: rest).take n, x.res < 0 → x.error ≠ SSL_ERROR_WANT_WRITE →
            x.error ≠ EINTR → out.1 = AMQP_STATUS_SOCKET_ERROR) := by
      intro o l hrec hr
      obtain ⟨hv, n, hn0, hnl, hs, hsl, hrv, hoc, hsf, hfd, hssl, hctx, hneg⟩ :=
        ih _ o l _ out hrec
      refine ⟨hv, n + 1, by omega, by simp only [List.length_cons]; omega, ?_, ?_, hrv, hoc,
        hsf, ?_, ?_, ?_, ?_⟩
      · rw [hs]; rfl
      · rw [hsl]; simp only [List.length_append, List.length_singleton]; omega
      · rw [hfd]; exact (hfields self).1
      · rw [hssl]; exact (hfields self).2.1
      · rw [hctx]; exact (hfields self).2.2
      · intro x hx h1 h2 h3
        rw [List.take_succ_cons, List.mem_cons] at hx
        rcases hx with hx | hx
        · subst hx
          exact absurd (hr h1 h2 h3) id
        · exact hneg x hx h1 h2 h3
    have stop : ∀ (ret : Int) (s1 : amqp_ssl_socket_t),
        (ret = AMQP_STATUS_OK ∨ ret = AMQP_STATUS_SOCKET_ERROR) →
        (r.res < 0 → ret = AMQP_STATUS_SOCKET_ERROR) →
        s1.sockfd = self.sockfd → s1.ssl = self.ssl → s1.ctx = self.ctx →
        some (ret, s1,
          { world with
            send_script := rest,
            sends := world.sends ++
              [{ buf := buf.drop offset, len := len_left, flags := flags }],
            clock := world.clock.tail }) = some out →
        (out.1 = AMQP_STATUS_OK ∨ out.1 = AMQP_STATUS_SOCKET_ERROR) ∧
        ∃ n : Nat, 0 < n ∧ n ≤ (r :: rest).length ∧
          out.2.2.send_script = (r :: rest).drop n ∧
          out.2.2.sends.length = world.sends.length + n ∧
          out.2.2.recvs = world.recvs ∧ out.2.2.os_closed = world.os_closed ∧
          out.2.2.ssl_freed = world.ssl_freed ∧
          out.2.1.sockfd = self.sockfd ∧ out.2.1.ssl = self.ssl ∧ out.2.1.ctx = self.ctx ∧
          (∀ x ∈ (r :: rest).take n, x.res < 0 → x.error ≠ SSL_ERROR_WANT_WRITE →
            x.error ≠ EINTR → out.1 = AMQP_STATUS_SOCKET_ERROR) := by
      intro ret s1 hv hr h1 h2 h3 ho
      simp only [Option.some.injEq] at ho
      subst ho
      refine ⟨hv, 1, by omega, by simp, rfl, by simp, rfl, rfl, rfl, h1, h2, h3, ?_⟩
      intro x hx hx1 _ _
      simp only [List.take_succ_cons, List.take_zero, List.mem_singleton] at hx
      subst hx
      exact hr hx1
    by_cases c1 : r.res ≥ 0 ∧ r.res = len_left
    · rw [if_pos c1] at h
      exact stop _
        { (if r.res < 0 then { self with last_error := r.error } else self) with
          last_error := 0 }
        (Or.inl rfl) (fun hlt => absurd c1.1 (by omega)) (hfields self).1
        (hfields self).2.1 (hfields self).2.2 h
    · rw [if_neg c1] at h
      by_cases c2 : sendTimeMs startTimeNs (world.clock.headD 0) > 1000
      · rw [if_pos c2] at h
        exact stop _ _ (Or.inr rfl) (fun _ => rfl) (hfields self).1 (hfields self).2.1
          (hfields self).2.2 h
      · rw [if_neg c2] at h
        by_cases c3 : r.res < 0
        · rw [if_pos c3, hle, if_pos c3] at h
          by_cases c4 : SSL_ERROR_WANT_WRITE = r.error
          · rw [if_pos c4] at h
            exact step _ _ h (fun _ h2 _ => h2 c4.symm)
          · rw [if_neg c4] at h
            by_cases c5 : EINTR = r.error
            · rw [if_pos c5] at h
              exact step _ _ h (fun _ _ h3 => h3 c5.symm)
            · rw [if_neg c5] at h
              exact stop _ _ (Or.inr rfl) (fun _ => rfl) (hfields self).1 (hfields self).2.1
                (hfields self).2.2 h
        · rw [if_neg c3] at h
          exact step _ _ h (fun h1 _ _ => c3 h1)
theorem bytes_written_cons (r : tls_io_result) (rest : List tls_io_result) :
    bytes_written (r :: rest) = (if 0 ≤ r.res then r.res else 0) + bytes_written rest := by
  unfold bytes_written
  by_cases h : 0 ≤ r.res
  · simp [List.filter_cons, h]
  · simp [List.filter_cons, h]

theorem bytes_written_nonneg (results : List tls_io_result) : 0 ≤ bytes_written results := by
  induction results with
  | nil => simp [bytes_written]
  | cons r rest ih =>
    rw [bytes_written_cons]
    split <;> omega

theorem unwritten_suffix_calls_cons (B : List Nat) (L f : Nat) (r : tls_io_result)
    (rest : List tls_io_result) (ha : (if 0 ≤ r.res then r.res else 0) ≤ (L : Int)) :
    unwritten_suffix_calls B L f (r :: rest)
      = { buf := B, len := (L : Int), flags := f }
        :: unwritten_suffix_calls (B.drop (if 0 ≤ r.res then r.res else 0).toNat)
            (L - (if 0 ≤ r.res then r.res else 0).toNat) f rest := by
  have ha0 : 0 ≤ (if 0 ≤ r.res then r.res else 0) := by split <;> omega
  have hcons : ∀ i, bytes_written ((r :: rest).take (i + 1))
      = (if 0 ≤ r.res then r.res else 0) + bytes_written (rest.take i) := by
    intro i
    rw [List.take_succ_cons, bytes_written_cons]
  obtain ⟨a, hadef⟩ : ∃ a, a = (if 0 ≤ r.res then r.res else 0) := ⟨_, rfl⟩
  rw [← hadef] at ha ha0 hcons ⊢
  have h0 : bytes_written [] = 0 := rfl
  unfold unwritten_suffix_calls
  rw [List.length_cons, List.range_succ_eq_map, List.map_cons, List.map_map]
  refine congrArg₂ List.cons ?_ ?_
  · simp only [List.take_zero, h0, Int.toNat_zero, List.drop_zero, sub_zero]
  · apply List.map_congr_left
    intro i _
    have hb := bytes_written_nonneg (rest.take i)
    have e1 : (a + bytes_written (rest.take i)).toNat
        = a.toNat + (bytes_written (rest.take i)).toNat := Int.toNat_add ha0 hb
    have e2 : ((L - a.toNat : Nat) : Int) = (L : Int) - a := by omega
    simp only [Function.comp, hcons, e1, e2, List.drop_drop]
    have e3 : a.toNat + (bytes_written (rest.take i)).toNat
        = (bytes_written (rest.take i)).toNat + a.toNat := by omega
    have e4 : (L : Int) - (a + bytes_written (rest.take i))
        = (L : Int) - a - bytes_written (rest.take i) := by omega
    rw [e3, e4]

theorem ssize_sub_eq (a b : Int) (h0 : 0 ≤ a - b) (h1 : a - b < 2147483648) :
    ssize_sub a b = a - b := by
  unfold ssize_sub
  rw [size_t_of_int_eq _ h0 (by omega), int_of_size_t_eq _ (by omega)]
  omega

theorem send_loop_calls (buf : List Nat) (len flags startTimeNs : Nat) :
    ∀ (script : List tls_io_result) (self : amqp_ssl_socket_t) (offset : Nat) (len_left : Int)
      (world : tls_world) (out : Int × amqp_ssl_socket_t × tls_world) (n : Nat),
      0 ≤ len_left → len_left < 2147483648 → offset + len_left.toNat < 4294967296 →
      amqp_ssl_socket_send_loop buf len flags startTimeNs script self offset len_left world
        = some out →
      out.2.2.sends.length = world.sends.length + n →
      (∀ k < n + 1, bytes_written (script.take k) ≤ len_left) →
      out.2.2.sends = world.sends ++
        unwritten_suffix_calls (buf.drop offset) len_left.toNat flags (script.take n) ∧
      (out.1 = AMQP_STATUS_OK → bytes_written (script.take n) = len_left) := by
  intro script
  induction script with
  | nil =>
    intro self offset len_left world out n _ _ _ h
    simp [amqp_ssl_socket_send_loop] at h
  | cons r rest ih =>
    intro self offset len_left world out n h0 h31 hoff h hn hfit
    have hL : ((len_left.toNat : Nat) : Int) = len_left := Int.toNat_of_nonneg h0
    have hone : unwritten_suffix_calls (buf.drop offset) len_left.toNat flags [r]
        = [{ buf := buf.drop offset, len := len_left, flags := flags }] := by
      unfold unwritten_suffix_calls
      rw [show List.range [r].length = [0] from rfl]
      simp [bytes_written, hL]
    have hnpos : 0 < n := by
      obtain ⟨-, m, hm0, -, -, hml, -⟩ := send_loop_shape buf len flags startTimeNs _ self
        offset len_left world out h
      omega
    rw [send_loop_cons] at h
    have stop : ∀ (ret : Int) (s1 : amqp_ssl_socket_t),
        (ret = AMQP_STATUS_OK → r.res = len_left) →
        some (ret, s1,
          { world with
            send_script := rest,
            sends := world.sends ++
              [{ buf := buf.drop offset, len := len_left, flags := flags }],
            clock := world.clock.tail }) = some out →
        out.2.2.sends = world.sends ++
          unwritten_suffix_calls (buf.drop offset) len_left.toNat flags ((r :: rest).take n) ∧
        (out.1 = AMQP_STATUS_OK → bytes_written ((r :: rest).take n) = len_left) := by
      intro ret s1 hr ho
      simp only [Option.some.injEq] at ho
      subst ho
      have hn1 : n = 1 := by
        simp only [List.length_append, List.length_singleton] at hn
        omega
      subst hn1
      simp only [List.take_succ_cons, List.take_zero]
      refine ⟨by rw [hone], ?_⟩
      intro hok
      have := hr hok
      rw [bytes_written_cons, if_pos (by omega), this]
      simp [bytes_written]
    have step : ∀ (s1 : amqp_ssl_socket_t) (o : Nat) (l : Int),
        o = offset + (if 0 ≤ r.res then r.res else 0).toNat →
        l = len_left - (if 0 ≤ r.res then r.res else 0) →
        amqp_ssl_socket_send_loop buf len flags startTimeNs rest s1 o l
          { world with
            send_script := rest,
            sends := world.sends ++
              [{ buf := buf.drop offset, len := len_left, flags := flags }],
            clock := world.clock.tail } = some out →
        out.2.2.sends = world.sends ++
          unwritten_suffix_calls (buf.drop offset) len_left.toNat flags ((r :: rest).take n) ∧
        (out.1 = AMQP_STATUS_OK → bytes_written ((r :: rest).take n) = len_left) := by
      intro s1 o l ho hl hrec
      obtain ⟨-, m, hm0, -, -, hml, -⟩ := send_loop_shape buf len flags startTimeNs rest s1 o l
        _ out hrec
      have hnm : n = m + 1 := by
        simp only [List.length_append, List.length_singleton] at hml
        omega
      subst hnm
      have ha0 : 0 ≤ (if 0 ≤ r.res then r.res else 0) := by split <;> omega
      have ha1 : (if 0 ≤ r.res then r.res else 0) ≤ len_left := by
        have := hfit 1 (by omega)
        rw [List.take_succ_cons, List.take_zero, bytes_written_cons] at this
        simp only [bytes_written, List.filter_nil, List.map_nil, List.sum_nil, add_zero] at this
        exact this
      have hfit' : ∀ k < m + 1, bytes_written (rest.take k) ≤ l := by
        intro k hk
        have := hfit (k + 1) (by omega)
        rw [List.take_succ_cons, bytes_written_cons] at this
        omega
      obtain ⟨hs, hok⟩ := ih s1 o l _ out m (by omega) (by omega) (by omega) hrec
        hml hfit'
      rw [List.take_succ_cons, unwritten_suffix_calls_cons _ _ _ _ _ (by rw [hL]; exact ha1)]
      constructor
      · rw [hs, ho, hl]
        have e1 : (len_left - (if 0 ≤ r.res then r.res else 0)).toNat
            = len_left.toNat - (if 0 ≤ r.res then r.res else 0).toNat := by omega
        rw [e1, hL, List.drop_drop]
        simp only [List.append_assoc, List.singleton_append]
      · intro h1
        rw [bytes_written_cons, hok h1, hl]
        omega
    by_cases c1 : r.res ≥ 0 ∧ r.res = len_left
    · rw [if_pos c1] at h
      exact stop _ _ (fun _ => c1.2) h
    · rw [if_neg c1] at h
      by_cases c2 : sendTimeMs startTimeNs (world.clock.headD 0) > 1000
      · rw [if_pos c2] at h
        exact stop _ _ (fun hx => absurd hx (by decide)) h
      · rw [if_neg c2] at h
        by_cases c3 : r.res < 0
        · have c3' : ¬ (0 ≤ r.res) := by omega
          simp only [c3, if_true] at h
          by_cases c4 : SSL_ERROR_WANT_WRITE = r.error
          · rw [if_pos c4] at h
            exact step _ _ _ (by rw [if_neg c3']; simp) (by rw [if_neg c3']; simp) h
          · rw [if_neg c4] at h
            by_cases c5 : EINTR = r.error
            · rw [if_pos c5] at h
              exact step _ _ _ (by rw [if_neg c3']; simp) (by rw [if_neg c3']; simp) h
            · rw [if_neg c5] at h
              exact stop _ _ (fun hx => absurd hx (by decide)) h
        · have c3' : 0 ≤ r.res := by omega
          simp only [c3, if_false] at h
          have hle : r.res ≤ len_left := by
            have := hfit 1 (by omega)
            rw [List.take_succ_cons, List.take_zero, bytes_written_cons, if_pos c3'] at this
            simp only [bytes_written, List.filter_nil, List.map_nil, List.sum_nil,
              add_zero] at this
            exact this
          refine step _ _ _ ?_ ?_ h
          · rw [if_pos c3', size_add_eq _ _ (by simp only [SIZE_MOD]; omega)]
          · rw [if_pos c3', ssize_sub_eq _ _ (by omega) (by omega)]

/-- C23: for an open TLS socket and a buffer of `len < 2^31` octets, when
`amqp_ssl_socket_send` returns, with every write attempt it made reporting no more than
it was asked to write: each attempt was handed exactly the part of the buffer not yet
written (the offset advanced by every non-negative count, unchanged after a negative
result); the result is OK or SOCKET_ERROR; it is OK only if the non-negative counts
add up to exactly `len`; and it is SOCKET_ERROR if an attempt gave a negative result
whose error is neither WANT_WRITE nor EINTR. At whichever pass of the loop such a
result comes, the loop returns SOCKET_ERROR there. -/
theorem tls_send_all_or_error (s : amqp_ssl_socket_t) (buf : List Nat) (len : Nat)
    (w w1 : tls_world) (ret : Int) (s1 : Option amqp_ssl_socket_t)
    (hopen : amqp_ssl_socket_are_we_open (some s) = AMQP_STATUS_OK)
    (hlen : len < 2147483648)
    (hrun : amqp_ssl_socket_send (some s) buf len w = some (ret, s1, w1))
    (hfit : ∀ k < (w1.sends.length - w.sends.length) + 1,
      bytes_written (w.send_script.take k) ≤ len) :
    0 < w1.sends.length - w.sends.length ∧
    w1.sends = w.sends ++ unwritten_suffix_calls buf len (0 ||| w.msg_nosignal)
      (w.send_script.take (w1.sends.length - w.sends.length)) ∧
    w1.send_script = w.send_script.drop (w1.sends.length - w.sends.length) ∧
    (ret = AMQP_STATUS_OK ∨ ret = AMQP_STATUS_SOCKET_ERROR) ∧
    (ret = AMQP_STATUS_OK →
      bytes_written (w.send_script.take (w1.sends.length - w.sends.length)) = len) ∧
    (∀ r ∈ w.send_script.take (w1.sends.length - w.sends.length),
      r.res < 0 → r.error ≠ SSL_ERROR_WANT_WRITE → r.error ≠ EINTR →
        ret = AMQP_STATUS_SOCKET_ERROR) ∧
    (∀ (r : tls_io_result) (rest : List tls_io_result) (self : amqp_ssl_socket_t)
      (offset flags startTimeNs : Nat) (len_left : Int) (world : tls_world),
      r.res < 0 → r.error ≠ SSL_ERROR_WANT_WRITE → r.error ≠ EINTR →
        ∃ (s2 : amqp_ssl_socket_t) (w2 : tls_world),
          amqp_ssl_socket_send_loop buf len flags startTimeNs (r :: rest) self offset len_left
            world = some (AMQP_STATUS_SOCKET_ERROR, s2, w2)) := by
  unfold amqp_ssl_socket_send amqp_ssl_socket_send_inner at hrun
  simp only [hopen, ne_eq, not_true_eq_false, if_false, Option.map_eq_some'] at hrun
  obtain ⟨out, hloop, hout⟩ := hrun
  simp only [Prod.mk.injEq] at hout
  obtain ⟨h1, h2, h3⟩ := hout
  obtain ⟨hv, n, hn0, hnl, hs, hsl, -, -, -, -, -, -, hneg⟩ := send_loop_shape _ _ _ _ _ _ _ _
    _ out hloop
  have hi : int_of_size_t len = (len : Int) := int_of_size_t_eq _ hlen
  rw [hi] at hloop
  simp only at hsl hs
  have hcount : w1.sends.length - w.sends.length = n := by rw [← h3, hsl]; omega
  rw [hcount] at hfit ⊢
  obtain ⟨hcalls, hok⟩ := send_loop_calls _ _ _ _ _ _ _ _ _ out n (by omega) (by omega)
    (by simp only [Int.toNat_ofNat]; omega) hloop hsl hfit
  simp only [List.drop_zero, Int.toNat_ofNat] at hcalls
  refine ⟨hn0, ?_, ?_, ?_, ?_, ?_, ?_⟩
  · rw [← h3, hcalls]
  · rw [← h3, hs]
  · rw [← h1]; exact hv
  · intro h; rw [← h1] at h; exact hok h
  · intro r hr a b c
    rw [← h1]; exact hneg r hr a b c
  · intro r rest self offset flags startTimeNs len_left world hr hw he
    rw [send_loop_cons]
    have c1 : ¬ (r.res ≥ 0 ∧ r.res = len_left) := fun h => absurd h.1 (by omega)
    rw [if_neg c1]
    by_cases c2 : sendTimeMs startTimeNs (world.clock.headD 0) > 1000
    · rw [if_pos c2]; exact ⟨_, _, rfl⟩
    · rw [if_neg c2]
      simp only [hr, if_true]
      rw [if_neg (fun h => hw h.symm), if_neg (fun h => he h.symm)]
      exact ⟨_, _, rfl⟩

/-- Witness for C23: the send of `07 08 09` over `sample_send_world`: one octet is
written, a WANT_WRITE follows, then the other two octets go out. -/
theorem tls_send_all_or_error_witness :
    amqp_ssl_socket_send (some open_tls_socket) [7, 8, 9] 3 sample_send_world
      = some (AMQP_STATUS_OK, some open_tls_socket, sample_send_world_after) ∧
    sample_send_world_after.sends = sample_send_world.sends ++
      unwritten_suffix_calls [7, 8, 9] 3 (0 ||| sample_send_world.msg_nosignal)
        (sample_send_world.send_script.take
          (sample_send_world_after.sends.length - sample_send_world.sends.length)) ∧
    (AMQP_STATUS_OK = AMQP_STATUS_OK →
      bytes_written (sample_send_world.send_script.take
        (sample_send_world_after.sends.length - sample_send_world.sends.length)) = 3) :=
  ⟨by decide,
   (tls_send_all_or_error open_tls_socket [7, 8, 9] 3 sample_send_world
      sample_send_world_after AMQP_STATUS_OK (some open_tls_socket)
      (by decide) (by decide) (by decide) (by decide)).2.1,
   (tls_send_all_or_error open_tls_socket [7, 8, 9] 3 sample_send_world
      sample_send_world_after AMQP_STATUS_OK (some open_tls_socket)
      (by decide) (by decide) (by decide) (by decide)).2.2.2.2.1⟩

/-! ## The slow-write timeout of the TLS send -/

/-- Counterexample for C24: a send of three octets in which every write takes one octet
and returns 0.6 s after the one before. The second write returns 1.2 s after the start
of the send, and the send ends with SOCKET_ERROR after two attempts. -/
theorem tls_slow_write_counterexample :
    (∀ r ∈ slow_progress_world.send_script, 1 ≤ r.res) ∧
    sendTimeMs 0 600000000 ≤ 1000 ∧ sendTimeMs 600000000 1200000000 ≤ 1000 ∧
    sendTimeMs 1200000000 1800000000 ≤ 1000 ∧
    (amqp_ssl_socket_send (some open_tls_socket) [7, 8, 9] 3 slow_progress_world).map
        (fun r => (r.1, r.2.2.sends.length))
      = some (AMQP_STATUS_SOCKET_ERROR, 2) := by
  decide

theorem clock_headD (c : List Nat) : c.headD 0 = c.getD 0 0 := by
  cases c <;> rfl

theorem clock_tail_getD (c : List Nat) (i : Nat) : c.tail.getD i 0 = c.getD (i + 1) 0 := by
  cases c <;> simp

theorem send_loop_steady (buf : List Nat) (len flags startTimeNs : Nat) :
    ∀ (results more : List tls_io_result) (self : amqp_ssl_socket_t) (offset : Nat)
      (len_left : Int) (world : tls_world),
      results ≠ [] →
      (∀ r ∈ results, 1 ≤ r.res) →
      (results.map (fun r => r.res)).sum = len_left →
      len_left < 2147483648 →
      (∀ i < results.length, sendTimeMs startTimeNs (world.clock.getD i 0) ≤ 1000) →
      ∃ w1 : tls_world,
        amqp_ssl_socket_send_loop buf len flags startTimeNs (results ++ more) self offset
          len_left world = some (AMQP_STATUS_OK, { self with last_error := 0 }, w1) ∧
        w1.sends.length = world.sends.length + results.length ∧
        w1.send_script = more := by
  intro results
  induction results with
  | nil => intro more self offset len_left world h; exact absurd rfl h
  | cons r rest ih =>
    intro more self offset len_left world _ hpos hsum h31 hclock
    have hr : 1 ≤ r.res := hpos r (List.mem_cons_self _ _)
    have hnn : ¬ (r.res < 0) := by omega
    rw [List.map_cons, List.sum_cons] at hsum
    rw [List.cons_append, send_loop_cons]
    simp only [hnn, if_false]
    by_cases hrest : rest = []
    · subst hrest
      simp only [List.map_nil, List.sum_nil, add_zero] at hsum
      rw [if_pos ⟨by omega, hsum⟩]
      exact ⟨_, rfl, by simp, rfl⟩
    · have hrestpos : ∀ x ∈ rest, 1 ≤ x.res := fun x hx => hpos x (List.mem_cons_of_mem _ hx)
      have hsumpos : 1 ≤ (rest.map (fun r => r.res)).sum := by
        cases rest with
        | nil => exact absurd rfl hrest
        | cons a t =>
          have ha := hrestpos a (List.mem_cons_self _ _)
          have ht : 0 ≤ (t.map (fun r => r.res)).sum := by
            apply List.sum_nonneg
            intro x hx
            rw [List.mem_map] at hx
            obtain ⟨y, hy, rfl⟩ := hx
            have := hrestpos y (List.mem_cons_of_mem _ hy)
            omega
          rw [List.map_cons, List.sum_cons]
          omega
      have c1 : ¬ (r.res ≥ 0 ∧ r.res = len_left) := fun h => by omega
      have c2 : ¬ (sendTimeMs startTimeNs (world.clock.headD 0) > 1000) := by
        have := hclock 0 (by simp)
        rw [clock_headD]
        omega
      rw [if_neg c1, if_neg c2]
      obtain ⟨w1, h1, h2, h3⟩ := ih more self (size_add offset r.res.toNat)
        (ssize_sub len_left r.res)
        { world with
          send_script := rest ++ more,
          sends := world.sends ++
            [{ buf := buf.drop offset, len := len_left, flags := flags }],
          clock := world.clock.tail }
        hrest hrestpos (by rw [ssize_sub_eq _ _ (by omega) (by omega)]; omega)
        (by rw [ssize_sub_eq _ _ (by omega) (by omega)]; omega)
        (by
          intro i hi
          show sendTimeMs startTimeNs (world.clock.tail.getD i 0) ≤ 1000
          rw [clock_tail_getD]
          exact hclock (i + 1) (by simp only [List.length_cons]; omega))
      have h2' : w1.sends.length
          = (world.sends ++
              [({ buf := buf.drop offset, len := len_left, flags := flags } : tls_send_call)]).length
            + rest.length := h2
      refine ⟨w1, h1, ?_, h3⟩
      rw [h2']
      simp only [List.length_append, List.length_singleton, List.length_cons, List.length_nil]
      omega

/-- C24 (amended): in `amqp_ssl_socket_send`, at whichever pass of the loop a write
returns a count `0 ≤ res` other than the length left, the send returns SOCKET_ERROR if
more than 1000 ms have passed since the send began, and otherwise goes on with the
remaining slice (offset and length left advanced by `res`); hence a send of `len > 0`
octets in which every write takes at least one octet, the counts add up to `len`, and
every write returns within 1000 ms of the start of the send, ends with OK. -/
theorem tls_slow_write_timeout (s : amqp_ssl_socket_t) (buf : List Nat) (len : Nat)
    (w : tls_world) (results more : List tls_io_result)
    (hopen : amqp_ssl_socket_are_we_open (some s) = AMQP_STATUS_OK)
    (hlen : len < 2147483648) (hne : results ≠ [])
    (hscript : w.send_script = results ++ more)
    (hpos : ∀ r ∈ results, 1 ≤ r.res)
    (hsum : (results.map (fun r => r.res)).sum = len)
    (hclock : ∀ i < results.length,
      sendTimeMs (w.clock.headD 0) (w.clock.tail.getD i 0) ≤ 1000) :
    (∀ (r : tls_io_result) (rest : List tls_io_result) (self : amqp_ssl_socket_t)
      (offset flags startTimeNs : Nat) (len_left : Int) (world : tls_world),
      0 ≤ r.res → r.res ≠ len_left →
        (sendTimeMs startTimeNs (world.clock.headD 0) > 1000 →
          amqp_ssl_socket_send_loop buf len flags startTimeNs (r :: rest) self offset len_left
              world
            = some (AMQP_STATUS_SOCKET_ERROR, self,
                { world with
                  send_script := rest,
                  sends := world.sends ++
                    [{ buf := buf.drop offset, len := len_left, flags := flags }],
                  clock := world.clock.tail })) ∧
        (sendTimeMs startTimeNs (world.clock.headD 0) ≤ 1000 →
          amqp_ssl_socket_send_loop buf len flags startTimeNs (r :: rest) self offset len_left
              world
            = amqp_ssl_socket_send_loop buf len flags startTimeNs rest self
                (size_add offset r.res.toNat) (ssize_sub len_left r.res)
                { world with
                  send_script := rest,
                  sends := world.sends ++
                    [{ buf := buf.drop offset, len := len_left, flags := flags }],
                  clock := world.clock.tail })) ∧
    ∃ w1 : tls_world,
      amqp_ssl_socket_send (some s) buf len w
        = some (AMQP_STATUS_OK, some { s with last_error := 0 }, w1) ∧
      w1.sends.length = w.sends.length + results.length ∧
      w1.send_script = more := by
  constructor
  · intro r rest self offset flags startTimeNs len_left world h0 hne
    have hnn : ¬ (r.res < 0) := by omega
    have c1 : ¬ (r.res ≥ 0 ∧ r.res = len_left) := fun h => hne h.2
    constructor
    · intro ht
      rw [send_loop_cons, if_neg c1, if_pos ht]
      simp only [hnn, if_false]
    · intro ht
      rw [send_loop_cons, if_neg c1, if_neg (by omega)]
      simp only [hnn, if_false]
  · unfold amqp_ssl_socket_send amqp_ssl_socket_send_inner
    simp only [hopen, ne_eq, not_true_eq_false, if_false, hscript]
    obtain ⟨w1, h1, h2, h3⟩ := send_loop_steady buf len (0 ||| w.msg_nosignal) (w.clock.headD 0)
      results more s 0 (int_of_size_t len)
      { w with clock := w.clock.tail, send_script := results ++ more } hne hpos
      (by rw [int_of_size_t_eq _ hlen]; exact hsum)
      (by rw [int_of_size_t_eq _ hlen]; omega) hclock
    refine ⟨w1, ?_, h2, h3⟩
    rw [h1]
    rfl

/-- Witness for C24 (amended): three octets go out one per write, the last write
returning 0.9 s after the start of the send. -/
theorem tls_slow_write_timeout_witness :
    ∃ w1 : tls_world,
      amqp_ssl_socket_send (some open_tls_socket) [7, 8, 9] 3 steady_progress_world
        = some (AMQP_STATUS_OK, some { open_tls_socket with last_error := 0 }, w1) ∧
      w1.sends.length = steady_progress_world.sends.length + 3 ∧
      w1.send_script = [] :=
  (tls_slow_write_timeout open_tls_socket [7, 8, 9] 3 steady_progress_world
    [⟨1, 0⟩, ⟨1, 0⟩, ⟨1, 0⟩] [] (by decide) (by decide) (by decide) (by decide) (by decide)
    (by decide) (by decide)).2

/-! ## Closing the TLS socket -/

theorem closed_not_open (s : amqp_ssl_socket_t) (h : s.sockfd < 0) :
    amqp_ssl_socket_are_we_open (some s) = AMQP_STATUS_INVALID_PARAMETER := by
  unfold amqp_ssl_socket_are_we_open
  simp only []
  rw [if_neg (fun hc => absurd hc.1 (by omega))]

theorem closed_send_inner (s : amqp_ssl_socket_t) (buf : List Nat) (len flags : Nat)
    (w : tls_world) (h : s.sockfd < 0) :
    amqp_ssl_socket_send_inner (some s) buf len flags w
      = some (AMQP_STATUS_INVALID_PARAMETER, some s, w) := by
  unfold amqp_ssl_socket_send_inner
  simp only [closed_not_open s h]
  rfl

theorem closed_writev (s : amqp_ssl_socket_t) (iov : List amqp_bytes_t) (w : tls_world)
    (h : s.sockfd < 0) :
    amqp_ssl_socket_writev (some s) iov w
      = some (AMQP_STATUS_INVALID_PARAMETER, some s, w) := by
  cases iov with
  | nil => simp only [amqp_ssl_socket_writev, closed_send_inner s _ _ _ w h]
  | cons a t =>
    cases t with
    | nil => simp only [amqp_ssl_socket_writev, closed_send_inner s _ _ _ w h]
    | cons b t =>
      simp only [amqp_ssl_socket_writev, closed_send_inner s _ _ _ w h]
      rfl

theorem closed_recv (s : amqp_ssl_socket_t) (len flags : Nat) (w : tls_world)
    (h : s.sockfd < 0) :
    amqp_ssl_socket_recv (some s) len flags w
      = some (AMQP_STATUS_INVALID_PARAMETER, some s, w) := by
  unfold amqp_ssl_socket_recv
  simp only [closed_not_open s h]
  rfl

theorem closed_close (s : amqp_ssl_socket_t) (w : tls_world) (h : s.sockfd < 0) :
    ∃ (s1 : amqp_ssl_socket_t) (w1 : tls_world),
      amqp_ssl_socket_close (some s) w = (-1, some s1, w1) ∧ s1.sockfd < 0 ∧
      w1.sends = w.sends ∧ w1.recvs = w.recvs ∧ w1.os_closed = w.os_closed := by
  unfold amqp_ssl_socket_close
  simp only []
  rw [if_neg (by omega)]
  cases hs : s.ssl with
  | none => exact ⟨_, _, rfl, h, rfl, rfl, rfl⟩
  | some session => exact ⟨_, _, rfl, h, rfl, rfl, rfl⟩

theorem open_without_descriptor (s : amqp_ssl_socket_t) (new_session : Option Nat)
    (fd connect_status : Int) (h : s.sockfd < 0)
    (hno : (tls_call.open_socket new_session fd connect_status).obtains_descriptor = false) :
    ∃ s1 : amqp_ssl_socket_t,
      (amqp_ssl_socket_open (some s) new_session fd connect_status).2 = some s1 ∧
      s1.sockfd < 0 := by
  unfold amqp_ssl_socket_open
  simp only []
  split
  · exact ⟨_, rfl, h⟩
  · split
    · exact ⟨_, rfl, h⟩
    · rename_i hns
      have hfd : fd < 0 := by
        simp only [tls_call.obtains_descriptor, Bool.and_eq_false_imp, decide_eq_false_iff_not,
          not_le] at hno
        apply hno
        cases new_session with
        | none => exact absurd rfl hns
        | some _ => rfl
      rw [if_pos (by show (0 : Int) > fd; omega)]
      exact ⟨_, rfl, hfd⟩

theorem tls_run_closed :
    ∀ (calls : List tls_call) (s : amqp_ssl_socket_t) (w : tls_world),
      s.sockfd < 0 →
      (∀ call ∈ calls, call.obtains_descriptor = false) →
      ∃ (results : List (tls_call × Int)) (s2 : amqp_ssl_socket_t) (w2 : tls_world),
        tls_run calls (some s) w = some (results, some s2, w2) ∧ s2.sockfd < 0 ∧
        (∀ p ∈ results, p.1.transfers = true → p.2 = AMQP_STATUS_INVALID_PARAMETER) ∧
        w2.sends = w.sends ∧ w2.recvs = w.recvs ∧ w2.os_closed = w.os_closed := by
  intro calls
  induction calls with
  | nil =>
    intro s w h _
    exact ⟨[], s, w, rfl, h, by simp, rfl, rfl, rfl⟩
  | cons call rest ih =>
    intro s w h hno
    have hrest : ∀ c ∈ rest, c.obtains_descriptor = false :=
      fun c hc => hno c (List.mem_cons_of_mem _ hc)
    have key : ∀ (ret : Int) (s1 : amqp_ssl_socket_t) (w1 : tls_world),
        tls_step call (some s) w = some (ret, some s1, w1) → s1.sockfd < 0 →
        (call.transfers = true → ret = AMQP_STATUS_INVALID_PARAMETER) →
        w1.sends = w.sends → w1.recvs = w.recvs → w1.os_closed = w.os_closed →
        ∃ (results : List (tls_call × Int)) (s2 : amqp_ssl_socket_t) (w2 : tls_world),
          tls_run (call :: rest) (some s) w = some (results, some s2, w2) ∧ s2.sockfd < 0 ∧
          (∀ p ∈ results, p.1.transfers = true → p.2 = AMQP_STATUS_INVALID_PARAMETER) ∧
          w2.sends = w.sends ∧ w2.recvs = w.recvs ∧ w2.os_closed = w.os_closed := by
      intro ret s1 w1 hstep h1 hret e1 e2 e3
      obtain ⟨results, s2, w2, hrun, h2, hres, f1, f2, f3⟩ := ih s1 w1 h1 hrest
      refine ⟨(call, ret) :: results, s2, w2, ?_, h2, ?_, f1.trans e1, f2.trans e2,
        f3.trans e3⟩
      · simp only [tls_run, hstep, hrun, Option.map_some']
      · intro p hp
        rw [List.mem_cons] at hp
        rcases hp with hp | hp
        · subst hp; exact hret
        · exact hres p hp
    cases call with
    | send buf len =>
      exact key _ s w (closed_send_inner s buf len 0 w h) h (fun _ => rfl) rfl rfl rfl
    | writev iov =>
      exact key _ s w (closed_writev s iov w h) h (fun _ => rfl) rfl rfl rfl
    | recv len flags =>
      exact key _ s w (closed_recv s len flags w h) h (fun _ => rfl) rfl rfl rfl
    | close =>
      obtain ⟨s1, w1, hc, h1, e1, e2, e3⟩ := closed_close s w h
      exact key (-1) s1 w1 (by simp only [tls_step, hc]) h1
        (fun ht => absurd ht (by decide)) e1 e2 e3
    | open_socket new_session fd connect_status =>
      obtain ⟨s1, hs1, h1⟩ := open_without_descriptor s new_session fd connect_status h
        (hno _ (List.mem_cons_self _ _))
      exact key (amqp_ssl_socket_open (some s) new_session fd connect_status).1 s1 w
        (by simp only [tls_step, hs1]) h1
        (fun ht => absurd ht (by simp [tls_call.transfers])) rfl rfl rfl

/-- Counterexample for C28. A socket object whose `open` failed in
`amqp_open_socket_noblock` with `-9` keeps `sockfd = -9` through
`amqp_ssl_socket_close`, not `-1`. And after a close of an open socket, an `open` that
gets a session and the descriptor 5 but fails in the TLS handshake returns SSL_ERROR,
and the send that follows is passed to `CyaSSL_send` and returns OK. -/
theorem tls_close_counterexample :
    (amqp_ssl_socket_open (some fresh_tls_socket) (some 2) (-9) 0).1
      = AMQP_STATUS_SOCKET_ERROR ∧
    (amqp_ssl_socket_close (amqp_ssl_socket_open (some fresh_tls_socket) (some 2) (-9) 0).2
        (scripted_world [] [])).2.1
      = some { ctx := some 1, ssl := none, sockfd := -9, last_error := 9 } ∧
    (tls_run [tls_call.close, tls_call.open_socket (some 7) 5 0, tls_call.send [1, 2] 2]
        (some open_tls_socket) (scripted_world [] [⟨2, 0⟩])).map
          (fun r => (r.1, r.2.2.sends))
      = some ([(tls_call.close, 0),
               (tls_call.open_socket (some 7) 5 0, AMQP_STATUS_SSL_ERROR),
               (tls_call.send [1, 2] 2, AMQP_STATUS_OK)],
              [{ buf := [1, 2], len := 2, flags := 0 }]) := by
  decide

/-- C28 (amended): after `amqp_ssl_socket_close` on any socket object, `sockfd` is
negative (`-1` if a descriptor was open) and `ssl` is unset; a second close returns
`-1` and changes nothing (no OS close, no TLS free), and so does any number of further
closes; and in every sequence of calls after the close in which no `open` obtains both
a session and a descriptor, every send, scatter-send and recv returns
INVALID_PARAMETER, no call of `CyaSSL_send` or `CyaSSL_recv` is made and no descriptor
is closed. -/
theorem tls_close_idempotent (s : amqp_ssl_socket_t) (w : tls_world) :
    (∃ s1 : amqp_ssl_socket_t,
      (amqp_ssl_socket_close (some s) w).2.1 = some s1 ∧ s1.sockfd < 0 ∧
      (0 ≤ s.sockfd → s1.sockfd = -1) ∧ s1.ssl = none) ∧
    (amqp_ssl_socket_close (some s) w).2.2.os_closed.length ≤ w.os_closed.length + 1 ∧
    (amqp_ssl_socket_close (some s) w).2.2.ssl_freed.length ≤ w.ssl_freed.length + 1 ∧
    amqp_ssl_socket_close (amqp_ssl_socket_close (some s) w).2.1
        (amqp_ssl_socket_close (some s) w).2.2
      = (-1, (amqp_ssl_socket_close (some s) w).2.1, (amqp_ssl_socket_close (some s) w).2.2) ∧
    (∀ n : Nat,
      tls_run (List.replicate n tls_call.close) (amqp_ssl_socket_close (some s) w).2.1
          (amqp_ssl_socket_close (some s) w).2.2
        = some (List.replicate n (tls_call.close, -1),
            (amqp_ssl_socket_close (some s) w).2.1, (amqp_ssl_socket_close (some s) w).2.2)) ∧
    (∀ calls : List tls_call, (∀ call ∈ calls, call.obtains_descriptor = false) →
      ∃ (results : List (tls_call × Int)) (s2 : amqp_ssl_socket_t) (w2 : tls_world),
        tls_run calls (amqp_ssl_socket_close (some s) w).2.1
            (amqp_ssl_socket_close (some s) w).2.2
          = some (results, some s2, w2) ∧
        s2.sockfd < 0 ∧
        (∀ p ∈ results, p.1.transfers = true → p.2 = AMQP_STATUS_INVALID_PARAMETER) ∧
        w2.sends = (amqp_ssl_socket_close (some s) w).2.2.sends ∧
        w2.recvs = (amqp_ssl_socket_close (some s) w).2.2.recvs ∧
        w2.os_closed = (amqp_ssl_socket_close (some s) w).2.2.os_closed) := by
  have hclose : ∃ (st : Int) (s1 : amqp_ssl_socket_t) (w1 : tls_world),
      amqp_ssl_socket_close (some s) w = (st, some s1, w1) ∧ s1.sockfd < 0 ∧
      (0 ≤ s.sockfd → s1.sockfd = -1) ∧ s1.ssl = none ∧
      w1.os_closed.length ≤ w.os_closed.length + 1 ∧
      w1.ssl_freed.length ≤ w.ssl_freed.length + 1 := by
    unfold amqp_ssl_socket_close
    simp only []
    by_cases hfd : s.sockfd ≥ 0
    · rw [if_pos hfd]
      cases hs : s.ssl with
      | none =>
        simp only [hs]
        exact ⟨_, _, _, rfl, by simp, fun _ => rfl, rfl, by simp, by simp⟩
      | some session =>
        simp only [hs]
        exact ⟨_, _, _, rfl, by simp, fun _ => rfl, rfl, by simp, by simp⟩
    · rw [if_neg hfd]
      have hlt : s.sockfd < 0 := by omega
      cases hs : s.ssl with
      | none =>
        simp only [hs]
        exact ⟨_, _, _, rfl, hlt, fun h => absurd h hfd, hs, by simp, by simp⟩
      | some session =>
        simp only [hs]
        exact ⟨_, _, _, rfl, hlt, fun h => absurd h hfd, rfl, by simp, by simp⟩
  obtain ⟨st, s1, w1, hc, hneg, hm1, hssl, ho, hf⟩ := hclose
  rw [hc]
  have hagain : amqp_ssl_socket_close (some s1) w1 = (-1, some s1, w1) := by
    unfold amqp_ssl_socket_close
    simp only []
    rw [if_neg (by omega)]
    simp only [hssl]
  refine ⟨⟨s1, rfl, hneg, hm1, hssl⟩, ho, hf, hagain, ?_, ?_⟩
  · intro n
    induction n with
    | zero => rfl
    | succ n ih =>
      simp only [List.replicate_succ, tls_run, tls_step, hagain, ih, Option.map_some']
  · intro calls hno
    exact tls_run_closed calls s1 w1 hneg hno

/-- Witness for C28 (amended): after the close of an open socket, a send, a second
close, an `open` that gets a session but no descriptor, a scatter-send and a recv. -/
theorem tls_close_idempotent_witness :
    ∃ (results : List (tls_call × Int)) (s2 : amqp_ssl_socket_t) (w2 : tls_world),
      tls_run
          [tls_call.send [1, 2] 2, tls_call.close, tls_call.open_socket (some 7) (-9) 1,
            tls_call.writev [{ len := 1, bytes := [3] }, { len := 1, bytes := [4] }],
            tls_call.recv 8 0]
          (amqp_ssl_socket_close (some open_tls_socket) (scripted_world [] [])).2.1
          (amqp_ssl_socket_close (some open_tls_socket) (scripted_world [] [])).2.2
        = some (results, some s2, w2) ∧
      s2.sockfd < 0 ∧
      (∀ p ∈ results, p.1.transfers = true → p.2 = AMQP_STATUS_INVALID_PARAMETER) ∧
      w2.sends = (amqp_ssl_socket_close (some open_tls_socket) (scripted_world [] [])).2.2.sends ∧
      w2.recvs = (amqp_ssl_socket_close (some open_tls_socket) (scripted_world [] [])).2.2.recvs ∧
      w2.os_closed
        = (amqp_ssl_socket_close (some open_tls_socket) (scripted_world [] [])).2.2.os_closed :=
  (tls_close_idempotent open_tls_socket (scripted_world [] [])).2.2.2.2.2
    [tls_call.send [1, 2] 2, tls_call.close, tls_call.open_socket (some 7) (-9) 1,
      tls_call.writev [{ len := 1, bytes := [3] }, { len := 1, bytes := [4] }],
      tls_call.recv 8 0]
    (by decide)

/-! ## NO_MEMORY on the decode path -/

theorem consume_data_count (s : amqp_connection_state_t) (data : List Nat) :
    (consume_data s data).1 ≤ data.length ∧
    (consume_data s data).2.2.length = data.length - (consume_data s data).1 := by
  unfold consume_data
  simp only [List.length_drop]
  constructor
  · split <;> omega
  · trivial

theorem consume_data_fields (s : amqp_connection_state_t) (data : List Nat) :
    (consume_data s data).2.1.target_size = s.target_size ∧
    (consume_data s data).2.1.pool_table = s.pool_table ∧
    (consume_data s data).2.1.frame_max = s.frame_max ∧
    same_region (consume_data s data).2.1.inbound_buffer s.inbound_buffer ∧
    (consume_data s data).2.1.inbound_offset
      = size_add s.inbound_offset (consume_data s data).1 := by
  unfold consume_data inbound_write
  cases h : s.inbound_buffer.bytes with
  | null => simp [same_region, h]
  | header_buffer => simp [same_region, h]
  | block d => simp [same_region, h]

theorem consume_data_header_buffer (s : amqp_connection_state_t) (data : List Nat)
    (h : s.inbound_buffer.bytes = amqp_bytes_ptr.header_buffer) :
    (consume_data s data).2.1.inbound_buffer.bytes = amqp_bytes_ptr.header_buffer ∧
    inbound_bytes (consume_data s data).2.1 = (consume_data s data).2.1.header_buffer ∧
    s.header_buffer.length ≤ (consume_data s data).2.1.header_buffer.length := by
  unfold consume_data inbound_write inbound_bytes
  simp only [h, true_and]
  simp only [mem_write, List.length_append, List.length_take, List.length_replicate,
    List.length_drop]
  omega

theorem consume_data_block (s : amqp_connection_state_t) (data B : List Nat)
    (h : s.inbound_buffer.bytes = amqp_bytes_ptr.block B) :
    inbound_bytes (consume_data s data).2.1
      = mem_write B s.inbound_offset (data.take (consume_data s data).1) ∧
    (consume_data s data).2.1.header_buffer = s.header_buffer := by
  unfold consume_data inbound_write inbound_bytes
  simp only [h, and_self]

theorem amqp_d16_take3 (X Y : List Nat) (h : X.take 3 = Y.take 3) :
    amqp_d16 X 1 = amqp_d16 Y 1 := by
  unfold amqp_d16
  rw [← amqp_d8_take X 3 1 (by omega), ← amqp_d8_take X 3 2 (by omega),
    ← amqp_d8_take Y 3 1 (by omega), ← amqp_d8_take Y 3 2 (by omega), h]

theorem pool_table_store_find (c : Nat) (p : amqp_pool_t) :
    ∀ T : List amqp_pool_table_entry_t,
      (T.find? (fun e => e.channel = c)).isSome = true →
      ((pool_table_store T c p).find? (fun e => e.channel = c)).isSome = true := by
  intro T
  induction T with
  | nil => intro h; simp at h
  | cons a T ih =>
    intro h
    by_cases ha : a.channel = c
    · simp [pool_table_store, ha]
    · simp only [pool_table_store, ha, if_false, List.find?_cons, decide_False] at h ⊢
      exact ih h

theorem ensured_pool_table_find (s : amqp_connection_state_t) (c : Nat) :
    ((ensured_pool_table s c).find? (fun e => e.channel = c)).isSome = true := by
  unfold ensured_pool_table amqp_get_channel_pool
  cases h : s.pool_table.find? (fun e => e.channel = c) with
  | none => simp
  | some e => simp [h]

theorem get_or_create_found (heap : amqp_heap) (s : amqp_connection_state_t) (c : Nat)
    (h : (s.pool_table.find? (fun e => e.channel = c)).isSome = true) :
    amqp_get_or_create_channel_pool heap s c = some s := by
  unfold amqp_get_or_create_channel_pool amqp_get_channel_pool
  cases hf : s.pool_table.find? (fun e => e.channel = c) with
  | none => rw [hf] at h; simp at h
  | some e => rfl

theorem body_arm_no_memory {M P : Type} (codec : amqp_codec M P) (heap : amqp_heap)
    (s : amqp_connection_state_t) (bc : Nat) (frame : amqp_frame_t M P)
    (hdec : ∀ (id : Nat) (pool : amqp_pool_t) (region : amqp_bytes_t),
      (codec.decode_method id pool region).1 ≠ AMQP_STATUS_NO_MEMORY ∧
      (codec.decode_properties id pool region).1 ≠ AMQP_STATUS_NO_MEMORY)
    (hbc : int_of_size_t bc ≠ AMQP_STATUS_NO_MEMORY)
    (hret : (amqp_handle_input_BODY codec heap s bc frame).ret = AMQP_STATUS_NO_MEMORY) :
    amqp_get_or_create_channel_pool heap s (amqp_d16 (inbound_bytes s) 1) = none ∧
    (amqp_handle_input_BODY codec heap s bc frame).state = s := by
  unfold amqp_handle_input_BODY at hret ⊢
  simp only [] at hret ⊢
  split at hret
  · simp at hret
  · rename_i hfoot
    rw [if_neg hfoot]
    cases hg : amqp_get_or_create_channel_pool heap s (amqp_d16 (inbound_bytes s) 1) with
    | none => exact ⟨rfl, rfl⟩
    | some s1 =>
      rw [hg] at hret
      simp only [] at hret
      exfalso
      split at hret
      · split at hret
        · exact (hdec _ _ _).1 hret
        · exact hbc hret
      · split at hret
        · split at hret
          · exact (hdec _ _ _).2 hret
          · exact hbc hret
        · split at hret
          · exact hbc hret
          · split at hret <;> exact hbc hret
theorem header_arm_some {M P : Type} (codec : amqp_codec M P) (heap : amqp_heap)
    (s s1 : amqp_connection_state_t) (rest : List Nat) (bc : Nat) (frame : amqp_frame_t M P)
    (hg : amqp_get_or_create_channel_pool heap s (amqp_d16 (inbound_bytes s) 1) = some s1)
    (hfit : ¬ ((amqp_d32 (inbound_bytes s) 3 + HEADER_SIZE + FOOTER_SIZE) % SIZE_MOD
      > size_t_of_int s1.frame_max))
    (halloc : ∀ n : Nat, heap.pool_alloc n = true) :
    ∃ (st5 : amqp_connection_state_t) (G : List Nat),
      amqp_handle_input_HEADER codec heap s rest bc frame =
        (if (consume_data st5 rest).2.1.inbound_offset < (consume_data st5 rest).2.1.target_size
          then
            { ret := int_of_size_t (size_add bc (consume_data st5 rest).1),
              state := (consume_data st5 rest).2.1, decoded_frame := frame }
          else amqp_handle_input_BODY codec heap (consume_data st5 rest).2.1
            (size_add bc (consume_data st5 rest).1) frame) ∧
      st5.state = CONNECTION_STATE_BODY ∧
      st5.inbound_buffer.bytes
        = amqp_bytes_ptr.block (mem_write G 0 (s1.header_buffer.take HEADER_SIZE)) ∧
      st5.inbound_offset = s1.inbound_offset ∧
      (∃ p : amqp_pool_t,
        st5.pool_table = pool_table_store s1.pool_table (amqp_d16 (inbound_bytes s) 1) p) := by
  unfold amqp_handle_input_HEADER
  simp only [hg, hfit, if_false]
  simp only [amqp_pool_alloc_bytes, halloc, if_true]
  simp only [reduceCtorEq, if_false]
  refine ⟨_, (List.range ((amqp_d32 (inbound_bytes s) 3 + HEADER_SIZE + FOOTER_SIZE)
    % SIZE_MOD)).map heap.garbage, rfl, ?_, ?_, ?_, ?_⟩
  · simp [set_channel_pool, inbound_write]
  · simp only [set_channel_pool, inbound_write]
  · simp [set_channel_pool, inbound_write]
  · simp only [set_channel_pool, inbound_write]
    exact ⟨_, rfl⟩

theorem header_arm_no_memory {M P : Type} (codec : amqp_codec M P) (heap : amqp_heap)
    (s : amqp_connection_state_t) (rest : List Nat) (bc : Nat) (frame : amqp_frame_t M P)
    (halloc : ∀ n : Nat, heap.pool_alloc n = true)
    (hdec : ∀ (id : Nat) (pool : amqp_pool_t) (region : amqp_bytes_t),
      (codec.decode_method id pool region).1 ≠ AMQP_STATUS_NO_MEMORY ∧
      (codec.decode_properties id pool region).1 ≠ AMQP_STATUS_NO_MEMORY)
    (hlen : bc + rest.length < 2147483648)
    (hhb : s.inbound_buffer.bytes = amqp_bytes_ptr.header_buffer)
    (hl3 : 3 ≤ s.header_buffer.length) (ho3 : 3 ≤ s.inbound_offset)
    (hret : (amqp_handle_input_HEADER codec heap s rest bc frame).ret = AMQP_STATUS_NO_MEMORY) :
    amqp_get_or_create_channel_pool heap s (amqp_d16 (inbound_bytes s) 1) = none ∧
    (amqp_handle_input_HEADER codec heap s rest bc frame).state = s := by
  have hraw : inbound_bytes s = s.header_buffer := by
    unfold inbound_bytes; rw [hhb]
  cases hg : amqp_get_or_create_channel_pool heap s (amqp_d16 (inbound_bytes s) 1) with
  | none =>
    refine ⟨rfl, ?_⟩
    unfold amqp_handle_input_HEADER
    simp only [hg]
  | some s1 =>
    exfalso
    have hs1 := get_or_create_some heap s s1 _ hg
    by_cases hfit : (amqp_d32 (inbound_bytes s) 3 + HEADER_SIZE + FOOTER_SIZE) % SIZE_MOD
        > size_t_of_int s1.frame_max
    · unfold amqp_handle_input_HEADER at hret
      simp only [hg, hfit, if_true] at hret
      simp at hret
    · obtain ⟨st5, G, he, hst, hbuf, hoff, p, htab⟩ :=
        header_arm_some codec heap s s1 rest bc frame hg hfit halloc
      rw [he] at hret
      have hcnt := consume_data_count st5 rest
      have hbc : int_of_size_t (size_add bc (consume_data st5 rest).1)
          ≠ AMQP_STATUS_NO_MEMORY := by
        rw [size_add_eq _ _ (by simp only [SIZE_MOD]; omega), int_of_size_t_eq _ (by omega)]
        simp only [AMQP_STATUS_NO_MEMORY]
        omega
      split at hret
      · exact hbc hret
      · obtain ⟨hnone, -⟩ := body_arm_no_memory codec heap _ _ frame hdec hbc hret
        obtain ⟨hbytes, -⟩ := consume_data_block st5 rest _ hbuf
        have hs1h : s1.header_buffer = s.header_buffer := by rw [hs1]
        have hs1o : s1.inbound_offset = s.inbound_offset := by rw [hs1]
        have hchan : amqp_d16 (inbound_bytes (consume_data st5 rest).2.1) 1
            = amqp_d16 (inbound_bytes s) 1 := by
          apply amqp_d16_take3
          rw [hbytes, hraw, hoff, hs1o, hs1h]
          have hl7 : 3 ≤ (s.header_buffer.take HEADER_SIZE).length := by
            rw [List.length_take]; simp only [HEADER_SIZE]; omega
          rw [mem_write_take_le _ _ _ 3 ho3
            (by rw [mem_write_zero, List.length_append]; omega),
            mem_write_zero, List.take_append_of_le_length hl7, List.take_take]
          simp only [HEADER_SIZE]
          rfl
        rw [hchan] at hnone
        have hfind : (((consume_data st5 rest).2.1).pool_table.find?
            (fun e => e.channel = amqp_d16 (inbound_bytes s) 1)).isSome = true := by
          rw [(consume_data_fields st5 rest).2.1, htab]
          apply pool_table_store_find
          rw [hs1]
          exact ensured_pool_table_find s _
        rw [get_or_create_found heap _ _ hfind] at hnone
        exact absurd hnone (by simp)

theorem handle_input_cases {M P : Type} (codec : amqp_codec M P) (heap : amqp_heap)
    (s : amqp_connection_state_t) (data : List Nat) (frame : amqp_frame_t M P)
    (hne : data.length ≠ 0) :
    (amqp_handle_input codec heap s data frame).ret
      = int_of_size_t (consume_data
          (if s.state = CONNECTION_STATE_IDLE then { s with state := CONNECTION_STATE_HEADER }
            else s) data).1 ∨
    (¬ ((consume_data
          (if s.state = CONNECTION_STATE_IDLE then { s with state := CONNECTION_STATE_HEADER }
            else s) data).2.1.inbound_offset
        < (consume_data
          (if s.state = CONNECTION_STATE_IDLE then { s with state := CONNECTION_STATE_HEADER }
            else s) data).2.1.target_size) ∧
      s.state ≠ CONNECTION_STATE_BODY ∧
      amqp_handle_input codec heap s data frame
        = amqp_handle_input_HEADER codec heap
            (consume_data
              (if s.state = CONNECTION_STATE_IDLE
                then { s with state := CONNECTION_STATE_HEADER } else s) data).2.1
            (consume_data
              (if s.state = CONNECTION_STATE_IDLE
                then { s with state := CONNECTION_STATE_HEADER } else s) data).2.2
            (consume_data
              (if s.state = CONNECTION_STATE_IDLE
                then { s with state := CONNECTION_STATE_HEADER } else s) data).1
            { frame with frame_type := 0 }) ∨
    (s.state = CONNECTION_STATE_BODY ∧
      amqp_handle_input codec heap s data frame
        = amqp_handle_input_BODY codec heap
            (consume_data
              (if s.state = CONNECTION_STATE_IDLE
                then { s with state := CONNECTION_STATE_HEADER } else s) data).2.1
            (consume_data
              (if s.state = CONNECTION_STATE_IDLE
                then { s with state := CONNECTION_STATE_HEADER } else s) data).1
            { frame with frame_type := 0 }) := by
  have hst : (if s.state = CONNECTION_STATE_IDLE
      then { s with state := CONNECTION_STATE_HEADER } else s).state
      = if s.state = CONNECTION_STATE_IDLE then CONNECTION_STATE_HEADER else s.state := by
    split <;> rfl
  have hcs := consume_data_state (if s.state = CONNECTION_STATE_IDLE
      then { s with state := CONNECTION_STATE_HEADER } else s) data
  rw [hst] at hcs
  unfold amqp_handle_input
  simp only [hne, if_false]
  generalize (if s.state = CONNECTION_STATE_IDLE
      then { s with state := CONNECTION_STATE_HEADER } else s) = s0 at hcs ⊢
  by_cases hshort : (consume_data s0 data).2.1.inbound_offset
      < (consume_data s0 data).2.1.target_size
  · left
    rw [if_pos hshort]
  · rw [if_neg hshort]
    split
    · rename_i h
      have hnb : s.state ≠ CONNECTION_STATE_BODY := by
        intro hb
        rw [h, hb] at hcs
        simp at hcs
      split
      · left; rfl
      · right; left; exact ⟨hshort, hnb, rfl⟩
    · rename_i h
      have hnb : s.state ≠ CONNECTION_STATE_BODY := by
        intro hb
        rw [h, hb] at hcs
        simp at hcs
      right; left; exact ⟨hshort, hnb, rfl⟩
    · rename_i h
      have hb : s.state = CONNECTION_STATE_BODY := by
        rw [h] at hcs
        by_cases hi : s.state = CONNECTION_STATE_IDLE
        · rw [if_pos hi] at hcs; simp at hcs
        · rw [if_neg hi] at hcs; exact hcs.symm
      right; right; exact ⟨hb, rfl⟩
    · left; rfl
/-- Counterexample for C22 (`frame_max = 16`, the header `03 00 01 00 00 00 03`). When
the pool table entry cannot be allocated the call returns NO_MEMORY and the state,
which was IDLE, is HEADER. When the frame buffer cannot be allocated the call returns
NO_MEMORY, `target_size` is 11 instead of 7 and `inbound_buffer.bytes` is NULL. -/
theorem no_memory_counterexample :
    (idle_connection 16).state = CONNECTION_STATE_IDLE ∧
    (amqp_handle_input raw_codec (scarce_heap false true) (idle_connection 16)
        [3, 0, 1, 0, 0, 0, 3] blank_frame).ret = AMQP_STATUS_NO_MEMORY ∧
    (amqp_handle_input raw_codec (scarce_heap false true) (idle_connection 16)
        [3, 0, 1, 0, 0, 0, 3] blank_frame).state.state = CONNECTION_STATE_HEADER ∧
    (idle_connection 16).target_size = 7 ∧
    (amqp_handle_input raw_codec (scarce_heap true false) (idle_connection 16)
        [3, 0, 1, 0, 0, 0, 3] blank_frame).ret = AMQP_STATUS_NO_MEMORY ∧
    (amqp_handle_input raw_codec (scarce_heap true false) (idle_connection 16)
        [3, 0, 1, 0, 0, 0, 3] blank_frame).state.target_size = 11 ∧
    (amqp_handle_input raw_codec (scarce_heap true false) (idle_connection 16)
        [3, 0, 1, 0, 0, 0, 3] blank_frame).state.inbound_buffer.bytes
      = amqp_bytes_ptr.null := by
  decide

/-- C22 (amended): whenever `amqp_handle_input` returns NO_MEMORY because the pool
table entry of the channel could not be allocated (the frame buffer allocations
succeed, the decoders do not return NO_MEMORY themselves, the input is shorter than
`2^31` octets, and before the frame buffer exists the header is collected in
`header_buffer`), `target_size` is as before the call, `inbound_buffer` describes the
same region as before, and the state is as before, except that a connection that was
IDLE is in state HEADER. -/
theorem no_memory_on_pool_entry {M P : Type} (codec : amqp_codec M P) (heap : amqp_heap)
    (s : amqp_connection_state_t) (data : List Nat) (frame : amqp_frame_t M P)
    (halloc : ∀ n : Nat, heap.pool_alloc n = true)
    (hdec : ∀ (id : Nat) (pool : amqp_pool_t) (region : amqp_bytes_t),
      (codec.decode_method id pool region).1 ≠ AMQP_STATUS_NO_MEMORY ∧
      (codec.decode_properties id pool region).1 ≠ AMQP_STATUS_NO_MEMORY)
    (hdata : data.length < 2147483648)
    (hwf : s.state ≠ CONNECTION_STATE_BODY →
      s.inbound_buffer.bytes = amqp_bytes_ptr.header_buffer ∧ 3 ≤ s.target_size ∧
        3 ≤ s.header_buffer.length)
    (hret : (amqp_handle_input codec heap s data frame).ret = AMQP_STATUS_NO_MEMORY) :
    (amqp_handle_input codec heap s data frame).state.target_size = s.target_size ∧
    same_region (amqp_handle_input codec heap s data frame).state.inbound_buffer
      s.inbound_buffer ∧
    (amqp_handle_input codec heap s data frame).state.state
      = (if s.state = CONNECTION_STATE_IDLE then CONNECTION_STATE_HEADER else s.state) ∧
    heap.malloc_entry = false := by
  have hne : data.length ≠ 0 := by
    intro h0
    unfold amqp_handle_input at hret
    simp only [h0, if_true] at hret
    simp at hret
  have hs0 : ∀ s0 : amqp_connection_state_t,
      s0 = (if s.state = CONNECTION_STATE_IDLE
        then { s with state := CONNECTION_STATE_HEADER } else s) →
      s0.target_size = s.target_size ∧ s0.inbound_buffer = s.inbound_buffer ∧
      s0.header_buffer = s.header_buffer ∧
      s0.state = (if s.state = CONNECTION_STATE_IDLE then CONNECTION_STATE_HEADER
        else s.state) := by
    intro s0 h
    rw [h]
    split <;> exact ⟨rfl, rfl, rfl, rfl⟩
  have hcases := handle_input_cases codec heap s data frame hne
  generalize hs0def : (if s.state = CONNECTION_STATE_IDLE
      then { s with state := CONNECTION_STATE_HEADER } else s) = s0 at hcases
  obtain ⟨t0, b0, hb0, st0⟩ := hs0 s0 hs0def.symm
  have hcnt := consume_data_count s0 data
  obtain ⟨ft, -, -, fr, fo⟩ := consume_data_fields s0 data
  have hcst := consume_data_state s0 data
  have hbc : int_of_size_t (consume_data s0 data).1 ≠ AMQP_STATUS_NO_MEMORY := by
    rw [int_of_size_t_eq _ (by omega)]
    simp only [AMQP_STATUS_NO_MEMORY]
    omega
  have hnone : ∀ (t : amqp_connection_state_t) (c : Nat),
      amqp_get_or_create_channel_pool heap t c = none → heap.malloc_entry = false := by
    intro t c h
    unfold amqp_get_or_create_channel_pool at h
    split at h
    · simp at h
    · split at h
      · simp at h
      · rename_i hm
        simpa using hm
  have hfinish : (amqp_handle_input codec heap s data frame).state = (consume_data s0 data).2.1 →
      heap.malloc_entry = false →
      (amqp_handle_input codec heap s data frame).state.target_size = s.target_size ∧
      same_region (amqp_handle_input codec heap s data frame).state.inbound_buffer
        s.inbound_buffer ∧
      (amqp_handle_input codec heap s data frame).state.state
        = (if s.state = CONNECTION_STATE_IDLE then CONNECTION_STATE_HEADER else s.state) ∧
      heap.malloc_entry = false := by
    intro h hm
    rw [h]
    exact ⟨by rw [ft, t0], by rw [← b0]; exact fr, by rw [hcst, st0], hm⟩
  rcases hcases with h | ⟨hshort, hnb, h⟩ | ⟨hb, h⟩
  · rw [h] at hret
    exact absurd hret hbc
  · obtain ⟨w1, w2, w3⟩ := hwf hnb
    obtain ⟨k1, k2, k3⟩ := consume_data_header_buffer s0 data (by rw [b0]; exact w1)
    rw [h] at hret
    obtain ⟨hg, hstate⟩ := header_arm_no_memory codec heap _ _ _ _ halloc hdec (by omega) k1
      (by rw [hb0] at k3; omega) (by rw [ft, t0] at hshort; omega) hret
    rw [← h] at hstate
    exact hfinish hstate (hnone _ _ hg)
  · rw [h] at hret
    obtain ⟨hg, hstate⟩ := body_arm_no_memory codec heap _ _ _ hdec hbc hret
    rw [← h] at hstate
    exact hfinish hstate (hnone _ _ hg)

/-- Witness for C22 (amended): an idle connection with `frame_max = 16` whose pool
table entry for channel 1 cannot be allocated, on the header `03 00 01 00 00 00 03`. -/
theorem no_memory_on_pool_entry_witness :
    (amqp_handle_input raw_codec (scarce_heap false true) (idle_connection 16)
        [3, 0, 1, 0, 0, 0, 3] blank_frame).state.target_size
      = (idle_connection 16).target_size ∧
    same_region
      (amqp_handle_input raw_codec (scarce_heap false true) (idle_connection 16)
        [3, 0, 1, 0, 0, 0, 3] blank_frame).state.inbound_buffer
      (idle_connection 16).inbound_buffer ∧
    (amqp_handle_input raw_codec (scarce_heap false true) (idle_connection 16)
        [3, 0, 1, 0, 0, 0, 3] blank_frame).state.state
      = (if (idle_connection 16).state = CONNECTION_STATE_IDLE then CONNECTION_STATE_HEADER
          else (idle_connection 16).state) ∧
    (scarce_heap false true).malloc_entry = false :=
  no_memory_on_pool_entry raw_codec (scarce_heap false true) (idle_connection 16)
    [3, 0, 1, 0, 0, 0, 3] blank_frame (fun _ => rfl)
    (fun _ _ _ => ⟨by show (0 : Int) ≠ -1; decide, by show (0 : Int) ≠ -1; decide⟩) (by decide)
    (fun _ => ⟨rfl, by decide, by decide⟩) (by decide)

/-! ## One pool table entry per channel -/

theorem pool_table_store_channels (c : Nat) (p : amqp_pool_t) :
    ∀ T : List amqp_pool_table_entry_t,
      (pool_table_store T c p).map (fun e => e.channel) = T.map (fun e => e.channel) := by
  intro T
  induction T with
  | nil => rfl
  | cons a T ih =>
    by_cases h : a.channel = c
    · simp [pool_table_store, h]
    · simp only [pool_table_store, h, if_false, List.map_cons, ih]

theorem ensured_pool_table_nodup (s : amqp_connection_state_t) (c : Nat)
    (h : (s.pool_table.map (fun e => e.channel)).Nodup) :
    ((ensured_pool_table s c).map (fun e => e.channel)).Nodup := by
  unfold ensured_pool_table amqp_get_channel_pool
  cases hf : s.pool_table.find? (fun e => e.channel = c) with
  | some e => simpa [hf] using h
  | none =>
    simp only [hf, Option.map_none', List.map_cons, List.nodup_cons]
    refine ⟨?_, h⟩
    intro hm
    rw [List.mem_map] at hm
    obtain ⟨e, he, hec⟩ := hm
    have := List.find?_eq_none.mp hf e he
    simp [hec] at this

theorem get_or_create_nodup (heap : amqp_heap) (s s1 : amqp_connection_state_t) (c : Nat)
    (hg : amqp_get_or_create_channel_pool heap s c = some s1)
    (h : (s.pool_table.map (fun e => e.channel)).Nodup) :
    (s1.pool_table.map (fun e => e.channel)).Nodup := by
  rw [get_or_create_some heap s s1 c hg]
  exact ensured_pool_table_nodup s c h

theorem body_arm_nodup {M P : Type} (codec : amqp_codec M P) (heap : amqp_heap)
    (s : amqp_connection_state_t) (n : Nat) (frame : amqp_frame_t M P)
    (h : (s.pool_table.map (fun e => e.channel)).Nodup) :
    ((amqp_handle_input_BODY codec heap s n frame).state.pool_table.map
      (fun e => e.channel)).Nodup := by
  unfold amqp_handle_input_BODY
  simp only []
  split
  · exact h
  · split
    · exact h
    · rename_i s1 hg
      have h1 := get_or_create_nodup heap s s1 _ hg h
      repeat' split
      all_goals first
        | exact h1
        | (simp only [set_channel_pool, return_to_idle, pool_table_store_channels]; exact h1)

theorem header_arm_nodup {M P : Type} (codec : amqp_codec M P) (heap : amqp_heap)
    (s : amqp_connection_state_t) (data : List Nat) (n : Nat) (frame : amqp_frame_t M P)
    (h : (s.pool_table.map (fun e => e.channel)).Nodup) :
    ((amqp_handle_input_HEADER codec heap s data n frame).state.pool_table.map
      (fun e => e.channel)).Nodup := by
  unfold amqp_handle_input_HEADER
  simp only []
  split
  · exact h
  · rename_i s1 hg
    have h1 := get_or_create_nodup heap s s1 _ hg h
    split
    · exact h1
    · have h3 : ∀ (p : amqp_pool_t) (b : amqp_inbound_buffer_t) (src : List Nat) (t : Nat),
          ((inbound_write
              { set_channel_pool { s1 with target_size := t } (amqp_d16 (inbound_bytes s) 1) p
                with inbound_buffer := b } 0 src).pool_table.map
            (fun e => e.channel)).Nodup := by
        intro p b src t
        have : (inbound_write
              { set_channel_pool { s1 with target_size := t } (amqp_d16 (inbound_bytes s) 1) p
                with inbound_buffer := b } 0 src).pool_table
            = pool_table_store s1.pool_table (amqp_d16 (inbound_bytes s) 1) p := by
          unfold inbound_write
          cases b.bytes <;> rfl
        rw [this, pool_table_store_channels]
        exact h1
      split
      · simp only [set_channel_pool, pool_table_store_channels]
        exact h1
      · split
        · rw [(consume_data_fields _ _).2.1]
          exact h3 _ _ _ _
        · apply body_arm_nodup
          rw [(consume_data_fields _ _).2.1]
          exact h3 _ _ _ _

theorem handle_input_nodup {M P : Type} (codec : amqp_codec M P) (heap : amqp_heap)
    (s : amqp_connection_state_t) (data : List Nat) (frame : amqp_frame_t M P)
    (h : (s.pool_table.map (fun e => e.channel)).Nodup) :
    ((amqp_handle_input codec heap s data frame).state.pool_table.map
      (fun e => e.channel)).Nodup := by
  have h0 : (if s.state = CONNECTION_STATE_IDLE
      then { s with state := CONNECTION_STATE_HEADER } else s).pool_table = s.pool_table := by
    split <;> rfl
  unfold amqp_handle_input
  simp only []
  split
  · exact h
  · generalize (if s.state = CONNECTION_STATE_IDLE
      then { s with state := CONNECTION_STATE_HEADER } else s) = s0 at h0
    have hc : ((consume_data s0 data).2.1.pool_table.map (fun e => e.channel)).Nodup := by
      rw [(consume_data_fields _ _).2.1, h0]
      exact h
    split
    · exact hc
    · split
      · split
        · exact hc
        · exact header_arm_nodup codec heap _ _ _ _ hc
      · exact header_arm_nodup codec heap _ _ _ _ hc
      · exact body_arm_nodup codec heap _ _ _ hc
      · exact hc

theorem release_fold_channels (l : List amqp_pool_table_entry_t) :
    ∀ s : amqp_connection_state_t,
      (l.foldl (fun st entry => amqp_maybe_release_buffers_on_channel st entry.channel)
        s).pool_table.map (fun e => e.channel) = s.pool_table.map (fun e => e.channel) := by
  induction l with
  | nil => intro s; rfl
  | cons e l ih =>
    intro s
    rw [List.foldl_cons, ih]
    unfold amqp_maybe_release_buffers_on_channel
    repeat' split
    all_goals first
      | rfl
      | (simp only [set_channel_pool, pool_table_store_channels])

/-- In every reachable connection state the pool table holds at most one entry per
channel. -/
theorem reachable_pool_table_nodup {M P : Type} (codec : amqp_codec M P)
    (s : amqp_connection_state_t) (h : reachable codec s) :
    (s.pool_table.map (fun e => e.channel)).Nodup := by
  induction h with
  | new_connection heap s0 h0 =>
    rw [(new_connection_fields heap s0 h0).2.2.2.2.2]
    exact List.nodup_nil
  | handle_input heap s0 data frame _ ih =>
    exact handle_input_nodup codec heap s0 data frame ih
  | tune_connection heap now s0 cm fm hb res s1 _ h1 ih =>
    have : s1.pool_table = s0.pool_table := by
      unfold amqp_tune_connection at h1
      simp only [] at h1
      split at h1
      · exact absurd h1 (by simp)
      · split at h1
        · simp only [Option.some.injEq, Prod.mk.injEq] at h1
          rw [← h1.2]
        · split at h1
          · simp only [Option.some.injEq, Prod.mk.injEq] at h1
            rw [← h1.2]
            split <;> rfl
          · simp only [Option.some.injEq, Prod.mk.injEq] at h1
            rw [← h1.2]
            split <;> rfl
    rw [this]; exact ih
  | release_buffers s0 s1 _ h1 ih =>
    unfold amqp_release_buffers at h1
    split at h1
    · exact absurd h1 (by simp)
    · simp only [Option.some.injEq] at h1
      rw [← h1, release_fold_channels]
      exact ih
  | maybe_release_buffers s0 s1 _ h1 ih =>
    unfold amqp_maybe_release_buffers at h1
    split at h1
    · unfold amqp_release_buffers at h1
      split at h1
      · exact absurd h1 (by simp)
      · simp only [Option.some.injEq] at h1
        rw [← h1, release_fold_channels]
        exact ih
    · simp only [Option.some.injEq] at h1
      rw [← h1]; exact ih
  | send_frame now s0 frame _ ih =>
    have hnb : ∀ t : amqp_connection_state_t,
        (amqp_send_frame_non_body codec t frame).2.pool_table = t.pool_table := by
      intro t
      unfold amqp_send_frame_non_body
      simp only []
      repeat' split
      all_goals rfl
    have hep : ∀ (t : amqp_connection_state_t) (res : Int),
        (send_frame_epilogue now t res).2.pool_table = t.pool_table := by
      intro t res
      unfold send_frame_epilogue
      repeat' split
      all_goals rfl
    have : (amqp_send_frame codec now s0 frame).2.pool_table = s0.pool_table := by
      unfold amqp_send_frame
      simp only []
      split
      · rw [hep]
      · split
        · rw [hnb]
        · rw [hep, hnb]
    rw [this]; exact ih

end Amqp
